import Mathlib

/-!
Formal model of the `Windows-Compiler` pipeline: lexer, recursive-descent
parser, scope-stack semantic analyzer, and stack-machine code generator,
translated from the Rust sources (`src/lexer.rs`, `src/parser.rs`,
`src/semantic.rs`, `src/codegen.rs`), together with theorems about the
behaviour of these components.

Modelling conventions:
* Rust `usize`/`i32`/`i64` are modelled as `Nat`/`Int`; the i64 range check
  performed by `str::parse::<i64>` is modelled explicitly where the source
  can panic on it.
* A Rust panic (out-of-bounds index, failed `unwrap`) is modelled as a
  distinguished `crash` outcome.
* Loops in the lexer and parser are modelled with an explicit fuel
  parameter (separate `fuelOut` outcome); the tree-shaped recursion of the
  semantic analyzer and code generator is structural.
* The lexer additionally records one `CEvent` per consumed character
  (instrumentation used to state position-tracking properties; it does not
  influence any other output).
* `char::is_alphabetic`/`is_alphanumeric` are modelled with the ASCII
  classifiers `Char.isAlpha`/`Char.isAlphanum`.
-/

namespace WC

/-! ### Data model: types, literals, AST (from `parser.rs`) -/

/-- `Type` from `parser.rs` (structural equality, as in the Rust `PartialEq`). -/
inductive Ty where
  | i8 | i16 | i32 | i64 | u8 | u16 | u32 | u64
  | f32 | f64 | bool | char | void | str
  | array : Ty → Nat → Ty
deriving DecidableEq

/-- `Literal` from `parser.rs`.  Float literals keep the source digit string
(no claim depends on floating-point values). -/
inductive Lit where
  | intL : Int → Lit
  | floatL : String → Lit
  | strL : String → Lit
  | boolL : Bool → Lit
  | charL : Char → Lit
deriving DecidableEq

mutual
/-- `AstNode` from `parser.rs`.  `Vec<AstNode>` / `Option<AstNode>` fields are
represented by the mutually inductive `AstList` / `OptAst` so that every
traversal of the tree is structural. -/
inductive Ast where
  | moduleA : String → AstList → Ast
  | func : String → List (String × Ty) → Option Ty → AstList → Ast
  | varDecl : String → Option Ty → OptAst → Bool → Ast
  | constDecl : String → Ty → Ast → Ast
  | retS : OptAst → Ast
  | binaryOp : Ast → String → Ast → Ast
  | unaryOp : String → Ast → Ast
  | lit : Lit → Ast
  | ident : String → Ast
  | call : String → AstList → Ast
  | ifS : Ast → AstList → OptAstList → Ast
  | whileS : Ast → AstList → Ast
  | forS : String → Ast → Ast → Bool → AstList → Ast
  | loopS : AstList → Ast
  | breakS : Ast
  | continueS : Ast
  | assign : String → Ast → Ast
  | arrayLit : AstList → Ast
  | arrayRepeat : Ast → Nat → Ast
  | arrayIndex : Ast → Ast → Ast

/-- A `Vec<AstNode>`. -/
inductive AstList where
  | nilA : AstList
  | consA : Ast → AstList → AstList

/-- An `Option<AstNode>`. -/
inductive OptAst where
  | noneA : OptAst
  | someA : Ast → OptAst

/-- An `Option<Vec<AstNode>>`. -/
inductive OptAstList where
  | noneL : OptAstList
  | someL : AstList → OptAstList
end

/-! ### Lexer (from `lexer.rs`) -/

/-- `TokenType` from `lexer.rs`. -/
inductive TokType where
  | moduleT | importT | fnT | letT | mutT | constT | returnT | ifT | elseT
  | whileT | forT | loopT | breakT | continueT
  | structT | enumT | unionT | typeT | pubT | unsafeT | deferT
  | i8T | i16T | i32T | i64T | u8T | u16T | u32T | u64T
  | f32T | f64T | boolT | charT | voidT | strT
  | intLit : Int → TokType
  | floatLit : String → TokType
  | stringLit : String → TokType
  | charLit : Char → TokType
  | boolLit : Bool → TokType
  | identifier : String → TokType
  | plus | minus | star | slash | percent
  | equal | equalEqual | notEqual | less | lessEqual | greater | greaterEqual
  | ampAmp | pipePipe | bang
  | amp | pipe | caret | tilde | lessLess | greaterGreater
  | leftParen | rightParen | leftBrace | rightBrace | leftBracket | rightBracket
  | semicolon | comma | dot | colon | colonColon | arrow | fatArrow
  | eof

/-- A Rust `std::mem::discriminant` for `TokType`: two token types compare
equal under the parser's `check` exactly when their `kindIndex` agree. -/
def TokType.kindIndex : TokType → Nat
  | .moduleT => 0 | .importT => 1 | .fnT => 2 | .letT => 3 | .mutT => 4
  | .constT => 5 | .returnT => 6 | .ifT => 7 | .elseT => 8 | .whileT => 9
  | .forT => 10 | .loopT => 11 | .breakT => 12 | .continueT => 13
  | .structT => 14 | .enumT => 15 | .unionT => 16 | .typeT => 17
  | .pubT => 18 | .unsafeT => 19 | .deferT => 20
  | .i8T => 21 | .i16T => 22 | .i32T => 23 | .i64T => 24
  | .u8T => 25 | .u16T => 26 | .u32T => 27 | .u64T => 28
  | .f32T => 29 | .f64T => 30 | .boolT => 31 | .charT => 32
  | .voidT => 33 | .strT => 34
  | .intLit _ => 35 | .floatLit _ => 36 | .stringLit _ => 37
  | .charLit _ => 38 | .boolLit _ => 39 | .identifier _ => 40
  | .plus => 41 | .minus => 42 | .star => 43 | .slash => 44 | .percent => 45
  | .equal => 46 | .equalEqual => 47 | .notEqual => 48 | .less => 49
  | .lessEqual => 50 | .greater => 51 | .greaterEqual => 52
  | .ampAmp => 53 | .pipePipe => 54 | .bang => 55
  | .amp => 56 | .pipe => 57 | .caret => 58 | .tilde => 59
  | .lessLess => 60 | .greaterGreater => 61
  | .leftParen => 62 | .rightParen => 63 | .leftBrace => 64 | .rightBrace => 65
  | .leftBracket => 66 | .rightBracket => 67
  | .semicolon => 68 | .comma => 69 | .dot => 70 | .colon => 71
  | .colonColon => 72 | .arrow => 73 | .fatArrow => 74
  | .eof => 75

/-- `Token` from `lexer.rs`. -/
structure Token where
  tokenType : TokType
  line : Nat
  column : Nat

/-- Instrumentation record: one consumed character together with the
line/column counters before and after consuming it. -/
structure CEvent where
  ch : Char
  lineBefore : Nat
  colBefore : Nat
  lineAfter : Nat
  colAfter : Nat
deriving DecidableEq

/-- The `Lexer` struct state (`input`, `position`, `line`, `column`),
extended with the consumption-event trace. -/
structure LexState where
  input : List Char
  pos : Nat
  line : Nat
  column : Nat
  events : List CEvent
deriving DecidableEq

/-- Outcome of a lexer computation.  `crash` models a Rust panic
(out-of-bounds `self.input[self.position]` or a failed `unwrap`);
`fuelOut` only signals insufficient fuel for the model's loops. -/
inductive LexRes (α : Type) where
  | ok : α → LexState → LexRes α
  | err : String → LexState → LexRes α
  | crash : LexState → LexRes α
  | fuelOut : LexState → LexRes α

/-- The state carried by any lexer outcome. -/
def LexRes.state : LexRes α → LexState
  | .ok _ s => s
  | .err _ s => s
  | .crash s => s
  | .fuelOut s => s

def LexRes.isCrash : LexRes α → Bool
  | .crash _ => true
  | _ => false

/-- `Lexer::current_char`; `none` corresponds to the out-of-bounds panic. -/
def currentChar (s : LexState) : Option Char :=
  s.input.get? s.pos

/-- `Lexer::peek`. -/
def peekChar (s : LexState) : Option Char :=
  s.input.get? (s.pos + 1)

/-- `Lexer::is_at_end`. -/
def isAtEnd (s : LexState) : Bool :=
  s.input.length ≤ s.pos

/-- `Lexer::advance`: `position += 1; column += 1` (the line counter is not
touched).  Records the consumed character when one exists. -/
def advanceL (s : LexState) : LexState :=
  match s.input.get? s.pos with
  | some c =>
    { s with pos := s.pos + 1, column := s.column + 1,
             events := s.events ++ [⟨c, s.line, s.column, s.line, s.column + 1⟩] }
  | none => { s with pos := s.pos + 1, column := s.column + 1 }

/-- The newline branch of `skip_whitespace` / `skip_block_comment`:
`line += 1; column = 1; position += 1`. -/
def consumeNewline (s : LexState) : LexState :=
  { s with pos := s.pos + 1, line := s.line + 1, column := 1,
           events := s.events ++ [⟨'\n', s.line, s.column, s.line + 1, 1⟩] }

/-- `Lexer::skip_whitespace`. -/
def skipWhitespace : Nat → LexState → LexState
  | 0, s => s
  | fuel + 1, s =>
    match currentChar s with
    | some ' ' => skipWhitespace fuel (advanceL s)
    | some '\t' => skipWhitespace fuel (advanceL s)
    | some '\r' => skipWhitespace fuel (advanceL s)
    | some '\n' => skipWhitespace fuel (consumeNewline s)
    | _ => s

/-- `Lexer::skip_line_comment`. -/
def skipLineComment : Nat → LexState → LexState
  | 0, s => s
  | fuel + 1, s =>
    match currentChar s with
    | some c => if c = '\n' then s else skipLineComment fuel (advanceL s)
    | none => s

/-- `Lexer::skip_block_comment` (the two leading `advance` calls for `/` and
`*` are performed by the caller's branch here, exactly as in the source). -/
def skipBlockCommentLoop : Nat → LexState → LexRes Unit
  | 0, s => .fuelOut s
  | fuel + 1, s =>
    if isAtEnd s then
      .err "Unterminated block comment" s
    else
      match currentChar s, peekChar s with
      | some '*', some '/' => .ok () (advanceL (advanceL s))
      | some '\n', _ => skipBlockCommentLoop fuel (consumeNewline s)
      | _, _ => skipBlockCommentLoop fuel (advanceL s)

def skipBlockComment (fuel : Nat) (s : LexState) : LexRes Unit :=
  skipBlockCommentLoop fuel (advanceL (advanceL s))

/-- The keyword table of `read_identifier`. -/
def keywordOf (s : String) : TokType :=
  if s = "module" then .moduleT else if s = "import" then .importT
  else if s = "fn" then .fnT else if s = "let" then .letT
  else if s = "mut" then .mutT else if s = "const" then .constT
  else if s = "return" then .returnT else if s = "if" then .ifT
  else if s = "else" then .elseT else if s = "while" then .whileT
  else if s = "for" then .forT else if s = "loop" then .loopT
  else if s = "break" then .breakT else if s = "continue" then .continueT
  else if s = "struct" then .structT else if s = "enum" then .enumT
  else if s = "union" then .unionT else if s = "type" then .typeT
  else if s = "pub" then .pubT else if s = "unsafe" then .unsafeT
  else if s = "defer" then .deferT
  else if s = "i8" then .i8T else if s = "i16" then .i16T
  else if s = "i32" then .i32T else if s = "i64" then .i64T
  else if s = "u8" then .u8T else if s = "u16" then .u16T
  else if s = "u32" then .u32T else if s = "u64" then .u64T
  else if s = "f32" then .f32T else if s = "f64" then .f64T
  else if s = "bool" then .boolT else if s = "char" then .charT
  else if s = "void" then .voidT else if s = "str" then .strT
  else if s = "true" then .boolLit true
  else if s = "false" then .boolLit false
  else .identifier s

/-- The accumulation loop of `read_identifier`. -/
def readIdentChars : Nat → LexState → List Char × LexState
  | 0, s => ([], s)
  | fuel + 1, s =>
    match currentChar s with
    | some c =>
      if c.isAlphanum || c = '_' then
        let (rest, s') := readIdentChars fuel (advanceL s)
        (c :: rest, s')
      else ([], s)
    | none => ([], s)

/-- `Lexer::read_identifier`. -/
def readIdentifier (fuel : Nat) (s : LexState) : TokType × LexState :=
  let (cs, s') := readIdentChars fuel s
  (keywordOf (String.mk cs), s')

/-- The digit-run loop of `read_number`. -/
def readDigitChars : Nat → LexState → List Char × LexState
  | 0, s => ([], s)
  | fuel + 1, s =>
    match currentChar s with
    | some c =>
      if c.isDigit then
        let (rest, s') := readDigitChars fuel (advanceL s)
        (c :: rest, s')
      else ([], s)
    | none => ([], s)

/-- Numeric value of a run of decimal digit characters. -/
def digitsVal (cs : List Char) : Nat :=
  cs.foldl (fun a c => a * 10 + (c.toNat - 48)) 0

/-- `i64::MAX`, the largest value accepted by `str::parse::<i64>` on an
all-digit string. -/
def i64Max : Nat := 2 ^ 63 - 1

/-- `num_str.parse::<i64>().unwrap()` on a run of decimal digits: panics
(`none`) when the run is empty or its value exceeds `i64::MAX`. -/
def parseI64 (cs : List Char) : Option Int :=
  if cs = [] then none
  else if digitsVal cs ≤ i64Max then some (Int.ofNat (digitsVal cs)) else none

/-- `Lexer::read_number`. -/
def readNumber (fuel : Nat) (s : LexState) : LexRes TokType :=
  let (ds, s1) := readDigitChars fuel s
  if isAtEnd s1 then
    match parseI64 ds with
    | some n => .ok (.intLit n) s1
    | none => .crash s1
  else
    match currentChar s1 with
    | some '.' =>
      if peekChar s1 = some '.' then
        -- range operator: return the integer read so far
        match parseI64 ds with
        | some n => .ok (.intLit n) s1
        | none => .crash s1
      else
        let s2 := advanceL s1
        let (fs, s3) := readDigitChars fuel s2
        -- `parse::<f64>` on digits '.' digits never fails
        .ok (.floatLit (String.mk (ds ++ ['.'] ++ fs))) s3
    | _ =>
      match parseI64 ds with
      | some n => .ok (.intLit n) s1
      | none => .crash s1

/-- The body loop of `read_string` (after the opening quote was consumed). -/
def readStringLoop : Nat → LexState → List Char → LexRes (List Char)
  | 0, s, _ => .fuelOut s
  | fuel + 1, s, acc =>
    match currentChar s with
    | none => .err "Unterminated string" s
    | some '"' => .ok acc (advanceL s)
    | some '\\' =>
      let s1 := advanceL s
      if isAtEnd s1 then .err "Unterminated string" s1
      else
        match currentChar s1 with
        | some 'n' => readStringLoop fuel (advanceL s1) (acc ++ ['\n'])
        | some 't' => readStringLoop fuel (advanceL s1) (acc ++ ['\t'])
        | some 'r' => readStringLoop fuel (advanceL s1) (acc ++ ['\r'])
        | some '\\' => readStringLoop fuel (advanceL s1) (acc ++ ['\\'])
        | some '"' => readStringLoop fuel (advanceL s1) (acc ++ ['"'])
        | some c => readStringLoop fuel (advanceL s1) (acc ++ [c])
        | none => .err "Unterminated string" s1
    | some c => readStringLoop fuel (advanceL s) (acc ++ [c])

/-- `Lexer::read_string`. -/
def readString (fuel : Nat) (s : LexState) : LexRes TokType :=
  match readStringLoop fuel (advanceL s) [] with
  | .ok cs s' => .ok (.stringLit (String.mk cs)) s'
  | .err m s' => .err m s'
  | .crash s' => .crash s'
  | .fuelOut s' => .fuelOut s'

/-- `Lexer::read_char`. -/
def readChar (s : LexState) : LexRes TokType :=
  let s1 := advanceL s
  if isAtEnd s1 then .err "Unterminated character" s1
  else
    let esc : Option (Char × LexState) :=
      match currentChar s1 with
      | some '\\' =>
        let s2 := advanceL s1
        -- `self.current_char()` after the backslash: panics at end of input
        (match currentChar s2 with
         | some 'n' => some ('\n', s2)
         | some 't' => some ('\t', s2)
         | some 'r' => some ('\r', s2)
         | some '\\' => some ('\\', s2)
         | some '\'' => some ('\'', s2)
         | some c => some (c, s2)
         | none => none)
      | some c => some (c, s1)
      | none => none
    match esc with
    | none => .crash s1
    | some (ch, s2) =>
      let s3 := advanceL s2
      if isAtEnd s3 then .err "Unterminated character" s3
      else
        match currentChar s3 with
        | some '\'' => .ok (.charLit ch) (advanceL s3)
        | _ => .err "Unterminated character" s3

/-- The operator section of `next_token` (the final `match c` of the
function, factored out; the Rust locals `s1` are inlined as `advanceL s`). -/
def opToken (s : LexState) (line column : Nat) (c : Char) : LexRes Token :=
  if c = '+' then .ok ⟨.plus, line, column⟩ (advanceL s)
  else if c = '-' then
    match currentChar (advanceL s) with
    | none => .crash (advanceL s)
    | some c1 => if c1 = '>' then .ok ⟨.arrow, line, column⟩ (advanceL (advanceL s))
                 else .ok ⟨.minus, line, column⟩ (advanceL s)
  else if c = '*' then .ok ⟨.star, line, column⟩ (advanceL s)
  else if c = '/' then .ok ⟨.slash, line, column⟩ (advanceL s)
  else if c = '%' then .ok ⟨.percent, line, column⟩ (advanceL s)
  else if c = '=' then
    match currentChar (advanceL s) with
    | none => .crash (advanceL s)
    | some c1 =>
      if c1 = '=' then .ok ⟨.equalEqual, line, column⟩ (advanceL (advanceL s))
      else if c1 = '>' then .ok ⟨.fatArrow, line, column⟩ (advanceL (advanceL s))
      else .ok ⟨.equal, line, column⟩ (advanceL s)
  else if c = '!' then
    match currentChar (advanceL s) with
    | none => .crash (advanceL s)
    | some c1 => if c1 = '=' then .ok ⟨.notEqual, line, column⟩ (advanceL (advanceL s))
                 else .ok ⟨.bang, line, column⟩ (advanceL s)
  else if c = '<' then
    match currentChar (advanceL s) with
    | none => .crash (advanceL s)
    | some c1 =>
      if c1 = '=' then .ok ⟨.lessEqual, line, column⟩ (advanceL (advanceL s))
      else if c1 = '<' then .ok ⟨.lessLess, line, column⟩ (advanceL (advanceL s))
      else .ok ⟨.less, line, column⟩ (advanceL s)
  else if c = '>' then
    match currentChar (advanceL s) with
    | none => .crash (advanceL s)
    | some c1 =>
      if c1 = '=' then .ok ⟨.greaterEqual, line, column⟩ (advanceL (advanceL s))
      else if c1 = '>' then .ok ⟨.greaterGreater, line, column⟩ (advanceL (advanceL s))
      else .ok ⟨.greater, line, column⟩ (advanceL s)
  else if c = '&' then
    match currentChar (advanceL s) with
    | none => .crash (advanceL s)
    | some c1 => if c1 = '&' then .ok ⟨.ampAmp, line, column⟩ (advanceL (advanceL s))
                 else .ok ⟨.amp, line, column⟩ (advanceL s)
  else if c = '|' then
    match currentChar (advanceL s) with
    | none => .crash (advanceL s)
    | some c1 => if c1 = '|' then .ok ⟨.pipePipe, line, column⟩ (advanceL (advanceL s))
                 else .ok ⟨.pipe, line, column⟩ (advanceL s)
  else if c = '^' then .ok ⟨.caret, line, column⟩ (advanceL s)
  else if c = '~' then .ok ⟨.tilde, line, column⟩ (advanceL s)
  else if c = '(' then .ok ⟨.leftParen, line, column⟩ (advanceL s)
  else if c = ')' then .ok ⟨.rightParen, line, column⟩ (advanceL s)
  else if c = '{' then .ok ⟨.leftBrace, line, column⟩ (advanceL s)
  else if c = '}' then .ok ⟨.rightBrace, line, column⟩ (advanceL s)
  else if c = '[' then .ok ⟨.leftBracket, line, column⟩ (advanceL s)
  else if c = ']' then .ok ⟨.rightBracket, line, column⟩ (advanceL s)
  else if c = ';' then .ok ⟨.semicolon, line, column⟩ (advanceL s)
  else if c = ',' then .ok ⟨.comma, line, column⟩ (advanceL s)
  else if c = '.' then .ok ⟨.dot, line, column⟩ (advanceL s)
  else if c = ':' then
    match currentChar (advanceL s) with
    | none => .crash (advanceL s)
    | some c1 => if c1 = ':' then .ok ⟨.colonColon, line, column⟩ (advanceL (advanceL s))
                 else .ok ⟨.colon, line, column⟩ (advanceL s)
  else
    .err ("Unexpected character '" ++ String.mk [c] ++ "' at line "
          ++ Nat.repr line ++ ", column " ++ Nat.repr column) s

/-- `Lexer::next_token` (recursive via the two comment branches). -/
def nextToken : Nat → LexState → LexRes Token
  | 0, s => .fuelOut s
  | fuel + 1, s =>
    let line := s.line
    let column := s.column
    match currentChar s with
    | none => .crash s    -- `self.current_char()` out of bounds
    | some c =>
      if c = '/' ∧ peekChar s = some '/' then
        nextToken fuel (skipLineComment (s.input.length + 1) s)
      else if c = '/' ∧ peekChar s = some '*' then
        match skipBlockComment (s.input.length + 1) s with
        | .ok _ s' => nextToken fuel s'
        | .err m s' => .err m s'
        | .crash s' => .crash s'
        | .fuelOut s' => .fuelOut s'
      else if c.isDigit then
        match readNumber (s.input.length + 1) s with
        | .ok tt s' => .ok ⟨tt, line, column⟩ s'
        | .err m s' => .err m s'
        | .crash s' => .crash s'
        | .fuelOut s' => .fuelOut s'
      else if c.isAlpha ∨ c = '_' then
        let (tt, s') := readIdentifier (s.input.length + 1) s
        .ok ⟨tt, line, column⟩ s'
      else if c = '"' then
        match readString (s.input.length + 1) s with
        | .ok tt s' => .ok ⟨tt, line, column⟩ s'
        | .err m s' => .err m s'
        | .crash s' => .crash s'
        | .fuelOut s' => .fuelOut s'
      else if c = '\'' then
        match readChar s with
        | .ok tt s' => .ok ⟨tt, line, column⟩ s'
        | .err m s' => .err m s'
        | .crash s' => .crash s'
        | .fuelOut s' => .fuelOut s'
      else opToken s line column c

/-- The `tokenize` loop. -/
def tokenizeLoop : Nat → LexState → List Token → LexRes (List Token)
  | 0, s, _ => .fuelOut s
  | fuel + 1, s, acc =>
    let s := skipWhitespace (s.input.length + 1) s
    if isAtEnd s then
      .ok (acc ++ [⟨.eof, s.line, s.column⟩]) s
    else
      match nextToken (s.input.length + 1) s with
      | .ok t s' => tokenizeLoop fuel s' (acc ++ [t])
      | .err m s' => .err m s'
      | .crash s' => .crash s'
      | .fuelOut s' => .fuelOut s'

/-- `Lexer::tokenize` on an input character list. -/
def tokenize (input : List Char) : LexRes (List Token) :=
  tokenizeLoop (input.length + 2) ⟨input, 0, 1, 1, []⟩ []

/-- `tokenize` on a source string. -/
def tokenizeStr (src : String) : LexRes (List Token) :=
  tokenize src.data

/-! ### Parser (from `parser.rs`) -/

/-- Convert a parsed `Vec<AstNode>` into the tree representation. -/
def AstList.ofList : List Ast → AstList
  | [] => .nilA
  | a :: l => .consA a (AstList.ofList l)

/-- The `Parser` struct state. -/
structure PState where
  tokens : List Token
  current : Nat

/-- Outcome of a parser computation; `crash` models an out-of-bounds
`self.tokens[self.current]` panic. -/
inductive PRes (α : Type) where
  | ok : α → PState → PRes α
  | err : String → PRes α
  | crash : PRes α
  | fuelOut : PRes α

/-- `Parser::current_token`; `none` is the out-of-bounds panic. -/
def currentTok (p : PState) : Option Token :=
  p.tokens.get? p.current

/-- `Parser::is_at_end` (panics when `current_token` would). -/
def isAtEndP (p : PState) : Option Bool :=
  match currentTok p with
  | none => none
  | some t =>
    match t.tokenType with
    | .eof => some true
    | _ => some false

/-- `Parser::advance`: moves forward only when not at the end-of-input token. -/
def advanceP (p : PState) : Option PState :=
  match isAtEndP p with
  | none => none
  | some true => some p
  | some false => some { p with current := p.current + 1 }

/-- `Parser::check`: discriminant comparison against the current token,
`false` at end of input. -/
def checkTok (p : PState) (tt : TokType) : Option Bool :=
  match isAtEndP p with
  | none => none
  | some true => some false
  | some false =>
    match currentTok p with
    | none => none
    | some t => some (t.tokenType.kindIndex = tt.kindIndex)

/-- `Parser::match_token`. -/
def matchTok (p : PState) (tt : TokType) : Option (Bool × PState) :=
  match checkTok p tt with
  | none => none
  | some true =>
    match advanceP p with
    | none => none
    | some p' => some (true, p')
  | some false => some (false, p)

/-- `Parser::expect_token`. -/
def expectTok (p : PState) (tt : TokType) (what : String) : PRes Unit :=
  match checkTok p tt with
  | none => .crash
  | some true =>
    match advanceP p with
    | none => .crash
    | some p' => .ok () p'
  | some false => .err ("Expected " ++ what)

/-- `Parser::parse_type`. -/
def parseType : Nat → PState → PRes Ty
  | 0, _ => .fuelOut
  | fuel + 1, p =>
    match currentTok p with
    | none => .crash
    | some t =>
      let prim (ty : Ty) : PRes Ty :=
        match advanceP p with
        | none => .crash
        | some p' => .ok ty p'
      match t.tokenType with
      | .i8T => prim .i8
      | .i16T => prim .i16
      | .i32T => prim .i32
      | .i64T => prim .i64
      | .u8T => prim .u8
      | .u16T => prim .u16
      | .u32T => prim .u32
      | .u64T => prim .u64
      | .f32T => prim .f32
      | .f64T => prim .f64
      | .boolT => prim .bool
      | .charT => prim .char
      | .voidT => prim .void
      | .strT => prim .str
      | .leftBracket =>
        (match advanceP p with
         | none => .crash
         | some p =>
           match parseType fuel p with
           | .ok elemTy p =>
             (match expectTok p .semicolon "Semicolon" with
              | .ok _ p =>
                (match currentTok p with
                 | none => .crash
                 | some t2 =>
                   match t2.tokenType with
                   | .intLit size =>
                     (match advanceP p with
                      | none => .crash
                      | some p =>
                        match expectTok p .rightBracket "RightBracket" with
                        | .ok _ p => .ok (.array elemTy size.toNat) p
                        | .err m => .err m
                        | .crash => .crash
                        | .fuelOut => .fuelOut)
                   | _ => .err "Expected array size")
              | .err m => .err m
              | .crash => .crash
              | .fuelOut => .fuelOut)
           | .err m => .err m
           | .crash => .crash
           | .fuelOut => .fuelOut)
      | _ => .err "Expected type"

mutual

/-- `Parser::parse_expression`. -/
def parseExpr : Nat → PState → PRes Ast
  | 0, _ => .fuelOut
  | fuel + 1, p => parseLogicalOr fuel p

/-- `Parser::parse_logical_or`. -/
def parseLogicalOr : Nat → PState → PRes Ast
  | 0, _ => .fuelOut
  | fuel + 1, p =>
    match parseLogicalAnd fuel p with
    | .ok left p => parseLogicalOrLoop fuel p left
    | .err m => .err m
    | .crash => .crash
    | .fuelOut => .fuelOut

def parseLogicalOrLoop : Nat → PState → Ast → PRes Ast
  | 0, _, _ => .fuelOut
  | fuel + 1, p, left =>
    match matchTok p .pipePipe with
    | none => .crash
    | some (true, p) =>
      (match parseLogicalAnd fuel p with
       | .ok right p => parseLogicalOrLoop fuel p (.binaryOp left "||" right)
       | .err m => .err m
       | .crash => .crash
       | .fuelOut => .fuelOut)
    | some (false, p) => .ok left p

/-- `Parser::parse_logical_and`. -/
def parseLogicalAnd : Nat → PState → PRes Ast
  | 0, _ => .fuelOut
  | fuel + 1, p =>
    match parseEquality fuel p with
    | .ok left p => parseLogicalAndLoop fuel p left
    | .err m => .err m
    | .crash => .crash
    | .fuelOut => .fuelOut

def parseLogicalAndLoop : Nat → PState → Ast → PRes Ast
  | 0, _, _ => .fuelOut
  | fuel + 1, p, left =>
    match matchTok p .ampAmp with
    | none => .crash
    | some (true, p) =>
      (match parseEquality fuel p with
       | .ok right p => parseLogicalAndLoop fuel p (.binaryOp left "&&" right)
       | .err m => .err m
       | .crash => .crash
       | .fuelOut => .fuelOut)
    | some (false, p) => .ok left p

/-- `Parser::parse_equality`. -/
def parseEquality : Nat → PState → PRes Ast
  | 0, _ => .fuelOut
  | fuel + 1, p =>
    match parseComparison fuel p with
    | .ok left p => parseEqualityLoop fuel p left
    | .err m => .err m
    | .crash => .crash
    | .fuelOut => .fuelOut

def parseEqualityLoop : Nat → PState → Ast → PRes Ast
  | 0, _, _ => .fuelOut
  | fuel + 1, p, left =>
    match matchTok p .equalEqual with
    | none => .crash
    | some (true, p) =>
      (match parseComparison fuel p with
       | .ok right p => parseEqualityLoop fuel p (.binaryOp left "==" right)
       | .err m => .err m
       | .crash => .crash
       | .fuelOut => .fuelOut)
    | some (false, _) =>
      match matchTok p .notEqual with
      | none => .crash
      | some (true, p) =>
        (match parseComparison fuel p with
         | .ok right p => parseEqualityLoop fuel p (.binaryOp left "!=" right)
         | .err m => .err m
         | .crash => .crash
         | .fuelOut => .fuelOut)
      | some (false, p) => .ok left p

/-- `Parser::parse_comparison`. -/
def parseComparison : Nat → PState → PRes Ast
  | 0, _ => .fuelOut
  | fuel + 1, p =>
    match parseTermP fuel p with
    | .ok left p => parseComparisonLoop fuel p left
    | .err m => .err m
    | .crash => .crash
    | .fuelOut => .fuelOut

def parseComparisonLoop : Nat → PState → Ast → PRes Ast
  | 0, _, _ => .fuelOut
  | fuel + 1, p, left =>
    let step (op : String) (p : PState) : PRes Ast :=
      match parseTermP fuel p with
      | .ok right p => parseComparisonLoop fuel p (.binaryOp left op right)
      | .err m => .err m
      | .crash => .crash
      | .fuelOut => .fuelOut
    match matchTok p .less with
    | none => .crash
    | some (true, p) => step "<" p
    | some (false, _) =>
      match matchTok p .lessEqual with
      | none => .crash
      | some (true, p) => step "<=" p
      | some (false, _) =>
        match matchTok p .greater with
        | none => .crash
        | some (true, p) => step ">" p
        | some (false, _) =>
          match matchTok p .greaterEqual with
          | none => .crash
          | some (true, p) => step ">=" p
          | some (false, p) => .ok left p

/-- `Parser::parse_term`. -/
def parseTermP : Nat → PState → PRes Ast
  | 0, _ => .fuelOut
  | fuel + 1, p =>
    match parseFactor fuel p with
    | .ok left p => parseTermLoop fuel p left
    | .err m => .err m
    | .crash => .crash
    | .fuelOut => .fuelOut

def parseTermLoop : Nat → PState → Ast → PRes Ast
  | 0, _, _ => .fuelOut
  | fuel + 1, p, left =>
    let step (op : String) (p : PState) : PRes Ast :=
      match parseFactor fuel p with
      | .ok right p => parseTermLoop fuel p (.binaryOp left op right)
      | .err m => .err m
      | .crash => .crash
      | .fuelOut => .fuelOut
    match matchTok p .plus with
    | none => .crash
    | some (true, p) => step "+" p
    | some (false, _) =>
      match matchTok p .minus with
      | none => .crash
      | some (true, p) => step "-" p
      | some (false, p) => .ok left p

/-- `Parser::parse_factor`. -/
def parseFactor : Nat → PState → PRes Ast
  | 0, _ => .fuelOut
  | fuel + 1, p =>
    match parseUnary fuel p with
    | .ok left p => parseFactorLoop fuel p left
    | .err m => .err m
    | .crash => .crash
    | .fuelOut => .fuelOut

def parseFactorLoop : Nat → PState → Ast → PRes Ast
  | 0, _, _ => .fuelOut
  | fuel + 1, p, left =>
    let step (op : String) (p : PState) : PRes Ast :=
      match parseUnary fuel p with
      | .ok right p => parseFactorLoop fuel p (.binaryOp left op right)
      | .err m => .err m
      | .crash => .crash
      | .fuelOut => .fuelOut
    match matchTok p .star with
    | none => .crash
    | some (true, p) => step "*" p
    | some (false, _) =>
      match matchTok p .slash with
      | none => .crash
      | some (true, p) => step "/" p
      | some (false, _) =>
        match matchTok p .percent with
        | none => .crash
        | some (true, p) => step "%" p
        | some (false, p) => .ok left p

/-- `Parser::parse_unary`. -/
def parseUnary : Nat → PState → PRes Ast
  | 0, _ => .fuelOut
  | fuel + 1, p =>
    match matchTok p .minus with
    | none => .crash
    | some (true, p) =>
      (match parseUnary fuel p with
       | .ok operand p => .ok (.unaryOp "-" operand) p
       | .err m => .err m
       | .crash => .crash
       | .fuelOut => .fuelOut)
    | some (false, _) =>
      match matchTok p .bang with
      | none => .crash
      | some (true, p) =>
        (match parseUnary fuel p with
         | .ok operand p => .ok (.unaryOp "!" operand) p
         | .err m => .err m
         | .crash => .crash
         | .fuelOut => .fuelOut)
      | some (false, p) => parsePrimary fuel p

/-- The argument loop of a call in `parse_primary`. -/
def parseArgsLoop : Nat → PState → List Ast → PRes (List Ast)
  | 0, _, _ => .fuelOut
  | fuel + 1, p, acc =>
    match checkTok p .rightParen with
    | none => .crash
    | some true => .ok acc p
    | some false =>
      match parseExpr fuel p with
      | .ok arg p =>
        (match matchTok p .comma with
         | none => .crash
         | some (true, p) => parseArgsLoop fuel p (acc ++ [arg])
         | some (false, p) => .ok (acc ++ [arg]) p)
      | .err m => .err m
      | .crash => .crash
      | .fuelOut => .fuelOut

/-- The element loop of an array literal in `parse_primary`. -/
def parseElemsLoop : Nat → PState → List Ast → PRes (List Ast)
  | 0, _, _ => .fuelOut
  | fuel + 1, p, acc =>
    match matchTok p .comma with
    | none => .crash
    | some (true, p) =>
      (match checkTok p .rightBracket with
       | none => .crash
       | some true => .ok acc p
       | some false =>
         match parseExpr fuel p with
         | .ok e p => parseElemsLoop fuel p (acc ++ [e])
         | .err m => .err m
         | .crash => .crash
         | .fuelOut => .fuelOut)
    | some (false, p) => .ok acc p

/-- `Parser::parse_primary`. -/
def parsePrimary : Nat → PState → PRes Ast
  | 0, _ => .fuelOut
  | fuel + 1, p =>
    match currentTok p with
    | none => .crash
    | some t =>
      match t.tokenType with
      | .intLit n =>
        (match advanceP p with
         | none => .crash
         | some p => .ok (.lit (.intL n)) p)
      | .floatLit f =>
        (match advanceP p with
         | none => .crash
         | some p => .ok (.lit (.floatL f)) p)
      | .stringLit s =>
        (match advanceP p with
         | none => .crash
         | some p => .ok (.lit (.strL s)) p)
      | .charLit c =>
        (match advanceP p with
         | none => .crash
         | some p => .ok (.lit (.charL c)) p)
      | .boolLit b =>
        (match advanceP p with
         | none => .crash
         | some p => .ok (.lit (.boolL b)) p)
      | .identifier name =>
        (match advanceP p with
         | none => .crash
         | some p =>
           match checkTok p .leftBracket with
           | none => .crash
           | some true =>
             (match advanceP p with
              | none => .crash
              | some p =>
                match parseExpr fuel p with
                | .ok index p =>
                  (match expectTok p .rightBracket "RightBracket" with
                   | .ok _ p => .ok (.arrayIndex (.ident name) index) p
                   | .err m => .err m
                   | .crash => .crash
                   | .fuelOut => .fuelOut)
                | .err m => .err m
                | .crash => .crash
                | .fuelOut => .fuelOut)
           | some false =>
             match matchTok p .leftParen with
             | none => .crash
             | some (true, p) =>
               (match parseArgsLoop fuel p [] with
                | .ok args p =>
                  (match expectTok p .rightParen "RightParen" with
                   | .ok _ p => .ok (.call name (AstList.ofList args)) p
                   | .err m => .err m
                   | .crash => .crash
                   | .fuelOut => .fuelOut)
                | .err m => .err m
                | .crash => .crash
                | .fuelOut => .fuelOut)
             | some (false, p) => .ok (.ident name) p)
      | .leftParen =>
        (match advanceP p with
         | none => .crash
         | some p =>
           match parseExpr fuel p with
           | .ok e p =>
             (match expectTok p .rightParen "RightParen" with
              | .ok _ p => .ok e p
              | .err m => .err m
              | .crash => .crash
              | .fuelOut => .fuelOut)
           | .err m => .err m
           | .crash => .crash
           | .fuelOut => .fuelOut)
      | .leftBracket =>
        (match advanceP p with
         | none => .crash
         | some p =>
           match checkTok p .rightBracket with
           | none => .crash
           | some true =>
             (match advanceP p with
              | none => .crash
              | some p => .ok (.arrayLit .nilA) p)
           | some false =>
             match parseExpr fuel p with
             | .ok first p =>
               (match matchTok p .semicolon with
                | none => .crash
                | some (true, p) =>
                  (match currentTok p with
                   | none => .crash
                   | some t2 =>
                     match t2.tokenType with
                     | .intLit count =>
                       (match advanceP p with
                        | none => .crash
                        | some p =>
                          match expectTok p .rightBracket "RightBracket" with
                          | .ok _ p => .ok (.arrayRepeat first count.toNat) p
                          | .err m => .err m
                          | .crash => .crash
                          | .fuelOut => .fuelOut)
                     | _ => .err "Expected array size")
                | some (false, p) =>
                  match parseElemsLoop fuel p [first] with
                  | .ok elems p =>
                    (match expectTok p .rightBracket "RightBracket" with
                     | .ok _ p => .ok (.arrayLit (AstList.ofList elems)) p
                     | .err m => .err m
                     | .crash => .crash
                     | .fuelOut => .fuelOut)
                  | .err m => .err m
                  | .crash => .crash
                  | .fuelOut => .fuelOut)
             | .err m => .err m
             | .crash => .crash
             | .fuelOut => .fuelOut)
      | _ => .err "Unexpected token"

end

mutual

/-- `Parser::parse_statement`. -/
def parseStatement : Nat → PState → PRes Ast
  | 0, _ => .fuelOut
  | fuel + 1, p =>
    match matchTok p .letT with
    | none => .crash
    | some (true, p) => parseVariableDecl fuel p
    | some (false, _) =>
    match matchTok p .constT with
    | none => .crash
    | some (true, p) => parseConstDecl fuel p
    | some (false, _) =>
    match matchTok p .returnT with
    | none => .crash
    | some (true, p) => parseReturn fuel p
    | some (false, _) =>
    match matchTok p .ifT with
    | none => .crash
    | some (true, p) => parseIf fuel p
    | some (false, _) =>
    match matchTok p .whileT with
    | none => .crash
    | some (true, p) => parseWhile fuel p
    | some (false, _) =>
    match matchTok p .forT with
    | none => .crash
    | some (true, p) => parseFor fuel p
    | some (false, _) =>
    match matchTok p .loopT with
    | none => .crash
    | some (true, p) => parseLoop fuel p
    | some (false, _) =>
    match matchTok p .breakT with
    | none => .crash
    | some (true, p) =>
      (match expectTok p .semicolon "Semicolon" with
       | .ok _ p => .ok .breakS p
       | .err m => .err m
       | .crash => .crash
       | .fuelOut => .fuelOut)
    | some (false, _) =>
    match matchTok p .continueT with
    | none => .crash
    | some (true, p) =>
      (match expectTok p .semicolon "Semicolon" with
       | .ok _ p => .ok .continueS p
       | .err m => .err m
       | .crash => .crash
       | .fuelOut => .fuelOut)
    | some (false, p) =>
    match parseExpr fuel p with
    | .ok e p =>
      (match matchTok p .equal with
       | none => .crash
       | some (true, p) =>
         -- note: when `e` is not an identifier the consumed `=` is NOT
         -- restored; control falls through to the semicolon check below
         (match e with
          | .ident name =>
            (match parseExpr fuel p with
             | .ok v p =>
               (match expectTok p .semicolon "Semicolon" with
                | .ok _ p => .ok (.assign name v) p
                | .err m => .err m
                | .crash => .crash
                | .fuelOut => .fuelOut)
             | .err m => .err m
             | .crash => .crash
             | .fuelOut => .fuelOut)
          | _ =>
            match expectTok p .semicolon "Semicolon" with
            | .ok _ p => .ok e p
            | .err m => .err m
            | .crash => .crash
            | .fuelOut => .fuelOut)
       | some (false, p) =>
         match expectTok p .semicolon "Semicolon" with
         | .ok _ p => .ok e p
         | .err m => .err m
         | .crash => .crash
         | .fuelOut => .fuelOut)
    | .err m => .err m
    | .crash => .crash
    | .fuelOut => .fuelOut

/-- `Parser::parse_variable_decl` (after `let` was consumed). -/
def parseVariableDecl : Nat → PState → PRes Ast
  | 0, _ => .fuelOut
  | fuel + 1, p =>
    match matchTok p .mutT with
    | none => .crash
    | some (mutFlag, p) =>
      match currentTok p with
      | none => .crash
      | some t =>
        match t.tokenType with
        | .identifier name =>
          (match advanceP p with
           | none => .crash
           | some p =>
             match matchTok p .colon with
             | none => .crash
             | some (hasTy, p) =>
               let tyRes : PRes (Option Ty) :=
                 if hasTy then
                   match parseType fuel p with
                   | .ok ty p => .ok (some ty) p
                   | .err m => .err m
                   | .crash => .crash
                   | .fuelOut => .fuelOut
                 else .ok none p
               match tyRes with
               | .ok varTy p =>
                 (match matchTok p .equal with
                  | none => .crash
                  | some (hasVal, p) =>
                    let valRes : PRes OptAst :=
                      if hasVal then
                        match parseExpr fuel p with
                        | .ok v p => .ok (.someA v) p
                        | .err m => .err m
                        | .crash => .crash
                        | .fuelOut => .fuelOut
                      else .ok .noneA p
                    match valRes with
                    | .ok value p =>
                      (match expectTok p .semicolon "Semicolon" with
                       | .ok _ p => .ok (.varDecl name varTy value mutFlag) p
                       | .err m => .err m
                       | .crash => .crash
                       | .fuelOut => .fuelOut)
                    | .err m => .err m
                    | .crash => .crash
                    | .fuelOut => .fuelOut)
               | .err m => .err m
               | .crash => .crash
               | .fuelOut => .fuelOut)
        | _ => .err "Expected variable name"

/-- `Parser::parse_const_decl` (after `const` was consumed). -/
def parseConstDecl : Nat → PState → PRes Ast
  | 0, _ => .fuelOut
  | fuel + 1, p =>
    match currentTok p with
    | none => .crash
    | some t =>
      match t.tokenType with
      | .identifier name =>
        (match advanceP p with
         | none => .crash
         | some p =>
           match expectTok p .colon "Colon" with
           | .ok _ p =>
             (match parseType fuel p with
              | .ok ty p =>
                (match expectTok p .equal "Equal" with
                 | .ok _ p =>
                   (match parseExpr fuel p with
                    | .ok v p =>
                      (match expectTok p .semicolon "Semicolon" with
                       | .ok _ p => .ok (.constDecl name ty v) p
                       | .err m => .err m
                       | .crash => .crash
                       | .fuelOut => .fuelOut)
                    | .err m => .err m
                    | .crash => .crash
                    | .fuelOut => .fuelOut)
                 | .err m => .err m
                 | .crash => .crash
                 | .fuelOut => .fuelOut)
              | .err m => .err m
              | .crash => .crash
              | .fuelOut => .fuelOut)
           | .err m => .err m
           | .crash => .crash
           | .fuelOut => .fuelOut)
      | _ => .err "Expected constant name"

/-- `Parser::parse_return` (after `return` was consumed). -/
def parseReturn : Nat → PState → PRes Ast
  | 0, _ => .fuelOut
  | fuel + 1, p =>
    match checkTok p .semicolon with
    | none => .crash
    | some hasNoVal =>
      let valRes : PRes OptAst :=
        if hasNoVal then .ok .noneA p
        else
          match parseExpr fuel p with
          | .ok v p => .ok (.someA v) p
          | .err m => .err m
          | .crash => .crash
          | .fuelOut => .fuelOut
      match valRes with
      | .ok value p =>
        (match expectTok p .semicolon "Semicolon" with
         | .ok _ p => .ok (.retS value) p
         | .err m => .err m
         | .crash => .crash
         | .fuelOut => .fuelOut)
      | .err m => .err m
      | .crash => .crash
      | .fuelOut => .fuelOut

/-- `Parser::parse_block` (the statement loop up to a right brace). -/
def parseBlock : Nat → PState → List Ast → PRes (List Ast)
  | 0, _, _ => .fuelOut
  | fuel + 1, p, acc =>
    match checkTok p .rightBrace, isAtEndP p with
    | none, _ => .crash
    | _, none => .crash
    | some isBrace, some atEnd =>
      if !isBrace && !atEnd then
        match parseStatement fuel p with
        | .ok st p => parseBlock fuel p (acc ++ [st])
        | .err m => .err m
        | .crash => .crash
        | .fuelOut => .fuelOut
      else .ok acc p

/-- `Parser::parse_if` (after `if` was consumed). -/
def parseIf : Nat → PState → PRes Ast
  | 0, _ => .fuelOut
  | fuel + 1, p =>
    match expectTok p .leftParen "LeftParen" with
    | .ok _ p =>
      (match parseExpr fuel p with
       | .ok cond p =>
         (match expectTok p .rightParen "RightParen" with
          | .ok _ p =>
            (match expectTok p .leftBrace "LeftBrace" with
             | .ok _ p =>
               (match parseBlock fuel p [] with
                | .ok thenB p =>
                  (match expectTok p .rightBrace "RightBrace" with
                   | .ok _ p =>
                     (match matchTok p .elseT with
                      | none => .crash
                      | some (true, p) =>
                        (match expectTok p .leftBrace "LeftBrace" with
                         | .ok _ p =>
                           (match parseBlock fuel p [] with
                            | .ok elseB p =>
                              (match expectTok p .rightBrace "RightBrace" with
                               | .ok _ p =>
                                 .ok (.ifS cond (AstList.ofList thenB)
                                        (.someL (AstList.ofList elseB))) p
                               | .err m => .err m
                               | .crash => .crash
                               | .fuelOut => .fuelOut)
                            | .err m => .err m
                            | .crash => .crash
                            | .fuelOut => .fuelOut)
                         | .err m => .err m
                         | .crash => .crash
                         | .fuelOut => .fuelOut)
                      | some (false, p) =>
                        .ok (.ifS cond (AstList.ofList thenB) .noneL) p)
                   | .err m => .err m
                   | .crash => .crash
                   | .fuelOut => .fuelOut)
                | .err m => .err m
                | .crash => .crash
                | .fuelOut => .fuelOut)
             | .err m => .err m
             | .crash => .crash
             | .fuelOut => .fuelOut)
          | .err m => .err m
          | .crash => .crash
          | .fuelOut => .fuelOut)
       | .err m => .err m
       | .crash => .crash
       | .fuelOut => .fuelOut)
    | .err m => .err m
    | .crash => .crash
    | .fuelOut => .fuelOut

/-- `Parser::parse_while` (after `while` was consumed). -/
def parseWhile : Nat → PState → PRes Ast
  | 0, _ => .fuelOut
  | fuel + 1, p =>
    match expectTok p .leftParen "LeftParen" with
    | .ok _ p =>
      (match parseExpr fuel p with
       | .ok cond p =>
         (match expectTok p .rightParen "RightParen" with
          | .ok _ p =>
            (match expectTok p .leftBrace "LeftBrace" with
             | .ok _ p =>
               (match parseBlock fuel p [] with
                | .ok body p =>
                  (match expectTok p .rightBrace "RightBrace" with
                   | .ok _ p => .ok (.whileS cond (AstList.ofList body)) p
                   | .err m => .err m
                   | .crash => .crash
                   | .fuelOut => .fuelOut)
                | .err m => .err m
                | .crash => .crash
                | .fuelOut => .fuelOut)
             | .err m => .err m
             | .crash => .crash
             | .fuelOut => .fuelOut)
          | .err m => .err m
          | .crash => .crash
          | .fuelOut => .fuelOut)
       | .err m => .err m
       | .crash => .crash
       | .fuelOut => .fuelOut)
    | .err m => .err m
    | .crash => .crash
    | .fuelOut => .fuelOut

/-- `Parser::parse_for` (after `for` was consumed). -/
def parseFor : Nat → PState → PRes Ast
  | 0, _ => .fuelOut
  | fuel + 1, p =>
    match expectTok p .leftParen "LeftParen" with
    | .ok _ p =>
      (match currentTok p with
       | none => .crash
       | some t =>
         match t.tokenType with
         | .identifier iterName =>
           (match advanceP p with
            | none => .crash
            | some p =>
              -- the `in` keyword is an identifier token whose text is "in"
              match currentTok p with
              | none => .crash
              | some t2 =>
                match t2.tokenType with
                | .identifier kw =>
                  if kw ≠ "in" then .err "Expected in keyword"
                  else
                    (match advanceP p with
                     | none => .crash
                     | some p =>
                       match parseExpr fuel p with
                       | .ok rangeStart p =>
                         (match matchTok p .dot with
                          | none => .crash
                          | some (true, p) =>
                            (match matchTok p .dot with
                             | none => .crash
                             | some (true, p) =>
                               (match matchTok p .dot with
                                | none => .crash
                                | some (incl, p) =>
                                  match parseExpr fuel p with
                                  | .ok rangeEnd p =>
                                    (match expectTok p .rightParen "RightParen" with
                                     | .ok _ p =>
                                       (match expectTok p .leftBrace "LeftBrace" with
                                        | .ok _ p =>
                                          (match parseBlock fuel p [] with
                                           | .ok body p =>
                                             (match expectTok p .rightBrace "RightBrace" with
                                              | .ok _ p =>
                                                .ok (.forS iterName rangeStart rangeEnd incl
                                                       (AstList.ofList body)) p
                                              | .err m => .err m
                                              | .crash => .crash
                                              | .fuelOut => .fuelOut)
                                           | .err m => .err m
                                           | .crash => .crash
                                           | .fuelOut => .fuelOut)
                                        | .err m => .err m
                                        | .crash => .crash
                                        | .fuelOut => .fuelOut)
                                     | .err m => .err m
                                     | .crash => .crash
                                     | .fuelOut => .fuelOut)
                                  | .err m => .err m
                                  | .crash => .crash
                                  | .fuelOut => .fuelOut)
                             | some (false, _) => .err "Expected range operator")
                          | some (false, _) => .err "Expected range operator")
                       | .err m => .err m
                       | .crash => .crash
                       | .fuelOut => .fuelOut)
                | _ => .err "Expected in keyword")
         | _ => .err "Expected iterator variable")
    | .err m => .err m
    | .crash => .crash
    | .fuelOut => .fuelOut

/-- `Parser::parse_loop` (after `loop` was consumed). -/
def parseLoop : Nat → PState → PRes Ast
  | 0, _ => .fuelOut
  | fuel + 1, p =>
    match expectTok p .leftBrace "LeftBrace" with
    | .ok _ p =>
      (match parseBlock fuel p [] with
       | .ok body p =>
         (match expectTok p .rightBrace "RightBrace" with
          | .ok _ p => .ok (.loopS (AstList.ofList body)) p
          | .err m => .err m
          | .crash => .crash
          | .fuelOut => .fuelOut)
       | .err m => .err m
       | .crash => .crash
       | .fuelOut => .fuelOut)
    | .err m => .err m
    | .crash => .crash
    | .fuelOut => .fuelOut

end

/-- The parameter loop of `parse_function`. -/
def parseParamsLoop : Nat → PState → List (String × Ty) → PRes (List (String × Ty))
  | 0, _, _ => .fuelOut
  | fuel + 1, p, acc =>
    match checkTok p .rightParen with
    | none => .crash
    | some true => .ok acc p
    | some false =>
      match currentTok p with
      | none => .crash
      | some t =>
        match t.tokenType with
        | .identifier pname =>
          (match advanceP p with
           | none => .crash
           | some p =>
             match expectTok p .colon "Colon" with
             | .ok _ p =>
               (match parseType fuel p with
                | .ok ty p =>
                  (match matchTok p .comma with
                   | none => .crash
                   | some (true, p) => parseParamsLoop fuel p (acc ++ [(pname, ty)])
                   | some (false, p) => .ok (acc ++ [(pname, ty)]) p)
                | .err m => .err m
                | .crash => .crash
                | .fuelOut => .fuelOut)
             | .err m => .err m
             | .crash => .crash
             | .fuelOut => .fuelOut)
        | _ => .err "Expected parameter name"

/-- `Parser::parse_function` (after `fn` was consumed). -/
def parseFunction (fuel : Nat) (p : PState) : PRes Ast :=
  match currentTok p with
  | none => .crash
  | some t =>
    match t.tokenType with
    | .identifier name =>
      (match advanceP p with
       | none => .crash
       | some p =>
         match expectTok p .leftParen "LeftParen" with
         | .ok _ p =>
           (match parseParamsLoop fuel p [] with
            | .ok params p =>
              (match expectTok p .rightParen "RightParen" with
               | .ok _ p =>
                 (match matchTok p .arrow with
                  | none => .crash
                  | some (hasRet, p) =>
                    let retRes : PRes (Option Ty) :=
                      if hasRet then
                        match parseType fuel p with
                        | .ok ty p => .ok (some ty) p
                        | .err m => .err m
                        | .crash => .crash
                        | .fuelOut => .fuelOut
                      else .ok none p
                    match retRes with
                    | .ok retTy p =>
                      (match expectTok p .leftBrace "LeftBrace" with
                       | .ok _ p =>
                         (match parseBlock fuel p [] with
                          | .ok body p =>
                            (match expectTok p .rightBrace "RightBrace" with
                             | .ok _ p =>
                               .ok (.func name params retTy (AstList.ofList body)) p
                             | .err m => .err m
                             | .crash => .crash
                             | .fuelOut => .fuelOut)
                          | .err m => .err m
                          | .crash => .crash
                          | .fuelOut => .fuelOut)
                       | .err m => .err m
                       | .crash => .crash
                       | .fuelOut => .fuelOut)
                    | .err m => .err m
                    | .crash => .crash
                    | .fuelOut => .fuelOut)
               | .err m => .err m
               | .crash => .crash
               | .fuelOut => .fuelOut)
            | .err m => .err m
            | .crash => .crash
            | .fuelOut => .fuelOut)
         | .err m => .err m
         | .crash => .crash
         | .fuelOut => .fuelOut)
    | _ => .err "Expected function name"

/-- `Parser::parse_import` (skip to and over the next semicolon). -/
def parseImportLoop : Nat → PState → PRes Unit
  | 0, _ => .fuelOut
  | fuel + 1, p =>
    match isAtEndP p with
    | none => .crash
    | some true => .ok () p
    | some false =>
      match matchTok p .semicolon with
      | none => .crash
      | some (true, p) => .ok () p
      | some (false, p) =>
        match advanceP p with
        | none => .crash
        | some p => parseImportLoop fuel p

/-- `Parser::parse_top_level`. -/
def parseTopLevel (fuel : Nat) (p : PState) : PRes (Option Ast)
  :=
  match matchTok p .importT with
  | none => .crash
  | some (true, p) =>
    (match parseImportLoop fuel p with
     | .ok _ p => .ok none p
     | .err m => .err m
     | .crash => .crash
     | .fuelOut => .fuelOut)
  | some (false, _) =>
    match matchTok p .fnT with
    | none => .crash
    | some (true, p) =>
      (match parseFunction fuel p with
       | .ok f p => .ok (some f) p
       | .err m => .err m
       | .crash => .crash
       | .fuelOut => .fuelOut)
    | some (false, _) => .err "Unexpected token at top level"

/-- `Parser::parse_module_declaration`. -/
def parseModuleDecl (p : PState) : PRes String :=
  match matchTok p .moduleT with
  | none => .crash
  | some (true, p) =>
    (match currentTok p with
     | none => .crash
     | some t =>
       match t.tokenType with
       | .identifier name =>
         (match advanceP p with
          | none => .crash
          | some p =>
            match expectTok p .semicolon "Semicolon" with
            | .ok _ p => .ok name p
            | .err m => .err m
            | .crash => .crash
            | .fuelOut => .fuelOut)
       | _ => .err "Expected module name")
  | some (false, p) => .ok "main" p

/-- The top-level item loop of `Parser::parse`. -/
def parseItemsLoop : Nat → PState → List Ast → PRes (List Ast)
  | 0, _, _ => .fuelOut
  | fuel + 1, p, acc =>
    match isAtEndP p with
    | none => .crash
    | some true => .ok acc p
    | some false =>
      match parseTopLevel fuel p with
      | .ok (some item) p => parseItemsLoop fuel p (acc ++ [item])
      | .ok none p => parseItemsLoop fuel p acc
      | .err m => .err m
      | .crash => .crash
      | .fuelOut => .fuelOut

/-- `Parser::parse`. -/
def parseTokens (toks : List Token) : PRes Ast :=
  let p : PState := ⟨toks, 0⟩
  match parseModuleDecl p with
  | .ok name p =>
    (match parseItemsLoop (toks.length + 200) p [] with
     | .ok items p => .ok (.moduleA name (AstList.ofList items)) p
     | .err m => .err m
     | .crash => .crash
     | .fuelOut => .fuelOut)
  | .err m => .err m
  | .crash => .crash
  | .fuelOut => .fuelOut

/-! ### Semantic analyzer (from `semantic.rs`) -/

/-- `SymbolInfo` from `semantic.rs`. -/
structure SymbolInfo where
  symbolType : Ty
  mutable : Bool
deriving DecidableEq

/-- One `HashMap<String, SymbolInfo>` scope, as an association list. -/
def Scope := List (String × SymbolInfo)

/-- `SemanticAnalyzer` state.  The head of `symbolTable` is the innermost
scope (the last element of the Rust `Vec`). -/
structure SState where
  symbolTable : List Scope
  currentFunctionReturn : Option Ty

/-- Outcome of a semantic-analyzer computation. -/
inductive SRes (α : Type) where
  | ok : α → SState → SRes α
  | err : String → SRes α

/-- `HashMap::contains_key`. -/
def scopeContains (sc : Scope) (n : String) : Bool :=
  sc.any (fun kv => kv.1 = n)

/-- `HashMap::insert` (replacing any previous binding). -/
def scopeInsert (sc : Scope) (n : String) (info : SymbolInfo) : Scope :=
  (n, info) :: sc.filter (fun kv => kv.1 ≠ n)

/-- `HashMap::get`. -/
def scopeGet (sc : Scope) (n : String) : Option SymbolInfo :=
  (sc.find? (fun kv => kv.1 = n)).map (·.2)

/-- `SemanticAnalyzer::enter_scope`. -/
def enterScope (s : SState) : SState :=
  { s with symbolTable := ([] : Scope) :: s.symbolTable }

/-- `SemanticAnalyzer::exit_scope` (`Vec::pop`). -/
def exitScope (s : SState) : SState :=
  { s with symbolTable := s.symbolTable.tail }

/-- `SemanticAnalyzer::declare_variable`. -/
def declareVariable (s : SState) (n : String) (ty : Ty) (mu : Bool) : SRes Unit :=
  match s.symbolTable with
  | [] => .ok () s
  | sc :: rest =>
    if scopeContains sc n then
      .err ("Variable '" ++ n ++ "' already declared in this scope")
    else
      .ok () { s with symbolTable := scopeInsert sc n ⟨ty, mu⟩ :: rest }

/-- The innermost-to-outermost walk of `lookup_variable`. -/
def lookupInScopes : List Scope → String → Option SymbolInfo
  | [], _ => none
  | sc :: rest, n =>
    match scopeGet sc n with
    | some info => some info
    | none => lookupInScopes rest n

/-- `SemanticAnalyzer::lookup_variable`. -/
def lookupVariable (s : SState) (n : String) : Option SymbolInfo :=
  lookupInScopes s.symbolTable n

/-- `SemanticAnalyzer::types_compatible` (structural equality). -/
def typesCompatible (t1 t2 : Ty) : Bool := t1 = t2

/-- Types of the literal variants, as assigned by `visit`. -/
def litTy : Lit → Ty
  | .intL _ => .i32
  | .floatL _ => .f64
  | .strL _ => .str
  | .boolL _ => .bool
  | .charL _ => .char

/-- Declaration of the parameters in `visit`'s `Function` arm. -/
def declareParams (s : SState) : List (String × Ty) → SRes Unit
  | [] => .ok () s
  | (n, ty) :: rest =>
    match declareVariable s n ty false with
    | .ok _ s' => declareParams s' rest
    | .err m => .err m

/-- Whether a binary operator yields `Bool` in `visit`. -/
def isBoolOp (op : String) : Bool :=
  op = "==" ∨ op = "!=" ∨ op = "<" ∨ op = "<=" ∨ op = ">" ∨ op = ">=" ∨
  op = "&&" ∨ op = "||"

mutual

/-- `SemanticAnalyzer::visit`. -/
def visitA (s : SState) (n : Ast) : SRes (Option Ty) :=
  match n with
  | .moduleA _ items =>
    (match visitSeq s items with
     | .ok _ s => .ok none s
     | .err m => .err m)
  | .func _ params retTy body =>
    let s := enterScope s
    let oldRet := s.currentFunctionReturn
    let s := { s with currentFunctionReturn := retTy }
    (match declareParams s params with
     | .err m => .err m
     | .ok _ s =>
       match visitSeq s body with
       | .err m => .err m
       | .ok _ s =>
         let s := { s with currentFunctionReturn := oldRet }
         .ok none (exitScope s))
  | .varDecl name varTy value mu =>
    let infRes : SRes (Option Ty) :=
      match value with
      | .someA v => visitA s v
      | .noneA => .ok none s
    (match infRes with
     | .err m => .err m
     | .ok inferred s =>
       let declWith (ty : Ty) : SRes (Option Ty) :=
         match declareVariable s name ty mu with
         | .ok _ s => .ok none s
         | .err m => .err m
       match varTy with
       | some explicitTy =>
         (match inferred with
          | some infTy =>
            if ¬ typesCompatible explicitTy infTy then .err "Type mismatch"
            else declWith explicitTy
          | none => declWith explicitTy)
       | none =>
         match inferred with
         | some infTy => declWith infTy
         | none => .err ("Cannot infer type for variable '" ++ name ++ "'"))
  | .constDecl name constTy v =>
    (match visitA s v with
     | .err m => .err m
     | .ok valTy s =>
       match valTy with
       | some vt =>
         if ¬ typesCompatible constTy vt then .err "Constant type mismatch"
         else
           (match declareVariable s name constTy false with
            | .ok _ s => .ok none s
            | .err m => .err m)
       | none =>
         match declareVariable s name constTy false with
         | .ok _ s => .ok none s
         | .err m => .err m)
  | .retS value =>
    (match value with
     | .noneA => .ok none s
     | .someA v =>
       match visitA s v with
       | .err m => .err m
       | .ok retTy s =>
         match s.currentFunctionReturn with
         | some expected =>
           (match retTy with
            | some actual =>
              if ¬ typesCompatible expected actual then .err "Return type mismatch"
              else .ok none s
            | none => .ok none s)
         | none => .ok none s)
  | .binaryOp l op r =>
    (match visitA s l with
     | .err m => .err m
     | .ok leftTy s =>
       match visitA s r with
       | .err m => .err m
       | .ok rightTy s =>
         match leftTy, rightTy with
         | some lt, some rt =>
           if ¬ typesCompatible lt rt then .err "Type mismatch in binary operation"
           else if isBoolOp op then .ok (some .bool) s
           else .ok (some lt) s
         | _, _ => .ok none s)
  | .unaryOp _ operand => visitA s operand
  | .lit l => .ok (some (litTy l)) s
  | .ident name =>
    (match lookupVariable s name with
     | some info => .ok (some info.symbolType) s
     | none => .err ("Undefined variable '" ++ name ++ "'"))
  | .call _ args =>
    (match visitSeq s args with
     | .ok _ s => .ok (some .i32) s
     | .err m => .err m)
  | .ifS cond thenB elseB =>
    (match visitA s cond with
     | .err m => .err m
     | .ok condTy s =>
       match condTy with
       | some t =>
         if t ≠ Ty.bool then .err "Condition must be boolean"
         else
           (match visitSeq (enterScope s) thenB with
            | .err m => .err m
            | .ok _ s =>
              let s := exitScope s
              match elseB with
              | .someL eb =>
                (match visitSeq (enterScope s) eb with
                 | .err m => .err m
                 | .ok _ s => .ok none (exitScope s))
              | .noneL => .ok none s)
       | none =>
         match visitSeq (enterScope s) thenB with
         | .err m => .err m
         | .ok _ s =>
           let s := exitScope s
           match elseB with
           | .someL eb =>
             (match visitSeq (enterScope s) eb with
              | .err m => .err m
              | .ok _ s => .ok none (exitScope s))
           | .noneL => .ok none s)
  | .whileS cond body =>
    (match visitA s cond with
     | .err m => .err m
     | .ok condTy s =>
       match condTy with
       | some t =>
         if t ≠ Ty.bool then .err "Condition must be boolean"
         else
           (match visitSeq (enterScope s) body with
            | .err m => .err m
            | .ok _ s => .ok none (exitScope s))
       | none =>
         match visitSeq (enterScope s) body with
         | .err m => .err m
         | .ok _ s => .ok none (exitScope s))
  | .forS it rangeStart rangeEnd _ body =>
    (match visitA s rangeStart with
     | .err m => .err m
     | .ok _ s =>
       match visitA s rangeEnd with
       | .err m => .err m
       | .ok _ s =>
         match declareVariable (enterScope s) it .i32 false with
         | .err m => .err m
         | .ok _ s =>
           match visitSeq s body with
           | .err m => .err m
           | .ok _ s => .ok none (exitScope s))
  | .loopS body =>
    (match visitSeq (enterScope s) body with
     | .err m => .err m
     | .ok _ s => .ok none (exitScope s))
  | .breakS => .ok none s
  | .continueS => .ok none s
  | .assign target v =>
    (match lookupVariable s target with
     | none => .err ("Undefined variable '" ++ target ++ "'")
     | some info =>
       if ¬ info.mutable then
         .err ("Cannot assign to immutable variable '" ++ target ++ "'")
       else
         match visitA s v with
         | .err m => .err m
         | .ok valTy s =>
           match valTy with
           | some vt =>
             if ¬ typesCompatible info.symbolType vt then
               .err ("Type mismatch in assignment to '" ++ target ++ "'")
             else .ok none s
           | none => .ok none s)
  | .arrayLit elems =>
    (match elems with
     | .nilA => .ok (some (.array .i32 0)) s
     | .consA first rest =>
       match visitA s first with
       | .err m => .err m
       | .ok firstTy s =>
         match firstTy with
         | some elemTy =>
           (match visitElems s rest elemTy with
            | .err m => .err m
            | .ok _ s => .ok (some (.array elemTy (1 + AstList.lengthA rest))) s)
         | none => .ok none s)
  | .arrayRepeat v count =>
    (match visitA s v with
     | .err m => .err m
     | .ok elemTy s =>
       match elemTy with
       | some t => .ok (some (.array t count)) s
       | none => .ok none s)
  | .arrayIndex arr index =>
    (match visitA s arr with
     | .err m => .err m
     | .ok arrTy s =>
       match visitA s index with
       | .err m => .err m
       | .ok _ s =>
         match arrTy with
         | some (.array elemTy _) => .ok (some elemTy) s
         | _ => .err "Can only index arrays")

/-- Sequential `visit` of a statement/argument list (the `for … { self.visit(x)?; }`
pattern; inferred types are discarded). -/
def visitSeq (s : SState) (l : AstList) : SRes Unit :=
  match l with
  | .nilA => .ok () s
  | .consA a rest =>
    match visitA s a with
    | .err m => .err m
    | .ok _ s => visitSeq s rest

/-- The element loop of the `ArrayLiteral` arm. -/
def visitElems (s : SState) (l : AstList) (elemTy : Ty) : SRes Unit :=
  match l with
  | .nilA => .ok () s
  | .consA e rest =>
    match visitA s e with
    | .err m => .err m
    | .ok et s =>
      match et with
      | some t =>
        if ¬ typesCompatible elemTy t then .err "Array elements must have same type"
        else visitElems s rest elemTy
      | none => visitElems s rest elemTy

/-- `Vec::len` for `AstList`. -/
def AstList.lengthA : AstList → Nat
  | .nilA => 0
  | .consA _ rest => 1 + AstList.lengthA rest

end

/-- `SemanticAnalyzer::analyze` with the initial single-scope state. -/
def analyze (ast : Ast) : Except String Unit :=
  match visitA ⟨[([] : Scope)], none⟩ ast with
  | .ok _ _ => .ok ()
  | .err m => .error m

/-! ### Code generator (from `codegen.rs`)

Every `asm.push_str(...)` of `to_assembly`'s helpers appends one
`Instr`; `Instr.render` reproduces the exact pushed string, so the
generated text is `String.join (instrs.map Instr.render)`. -/

/-- One emitted assembly line (or blank separator line). -/
inductive Instr where
  | label : String → Instr
  | pushRbp | movRbpRsp
  | subRsp : Int → Instr
  | addRsp : Int → Instr
  | blank
  | movFrameRax : Int → Instr   -- mov [rbp-off], rax
  | movRaxFrame : Int → Instr   -- mov rax, [rbp-off]
  | movRcxFrame : Int → Instr   -- mov rcx, [rbp-off]
  | xorEaxEax | leaveI | retI
  | testRaxRax
  | jz : String → Instr
  | jmp : String → Instr
  | jg : String → Instr
  | jge : String → Instr
  | cmpRaxRcx | incRax
  | movRaxImm : Int → Instr
  | leaRaxStr : Nat → Instr
  | leaRcxStr : Nat → Instr
  | movRcxRax | callPrintf
  | pushRax | popRcx
  | addRaxRcx | subRaxRcx | imulRaxRcx | xorRdxRdx | idivRcx | movRaxRdx
  | seteAl | setneAl | setlAl | setleAl | setgAl | setgeAl | setzAl
  | movzxRaxAl | negRax | andRaxRcx | orRaxRcx
deriving DecidableEq

/-- The exact text pushed by the corresponding `asm.push_str`. -/
def Instr.render : Instr → String
  | .label s => s ++ ":\n"
  | .pushRbp => "    push rbp\n"
  | .movRbpRsp => "    mov rbp, rsp\n"
  | .subRsp n => "    sub rsp, " ++ Int.repr n ++ "\n"
  | .addRsp n => "    add rsp, " ++ Int.repr n ++ "\n"
  | .blank => "\n"
  | .movFrameRax off => "    mov [rbp-" ++ Int.repr off ++ "], rax\n"
  | .movRaxFrame off => "    mov rax, [rbp-" ++ Int.repr off ++ "]\n"
  | .movRcxFrame off => "    mov rcx, [rbp-" ++ Int.repr off ++ "]\n"
  | .xorEaxEax => "    xor eax, eax\n"
  | .leaveI => "    leave\n"
  | .retI => "    ret\n"
  | .testRaxRax => "    test rax, rax\n"
  | .jz l => "    jz " ++ l ++ "\n"
  | .jmp l => "    jmp " ++ l ++ "\n"
  | .jg l => "    jg " ++ l ++ "\n"
  | .jge l => "    jge " ++ l ++ "\n"
  | .cmpRaxRcx => "    cmp rax, rcx\n"
  | .incRax => "    inc rax\n"
  | .movRaxImm n => "    mov rax, " ++ Int.repr n ++ "\n"
  | .leaRaxStr i => "    lea rax, [rel str_" ++ Nat.repr i ++ "]\n"
  | .leaRcxStr i => "    lea rcx, [rel str_" ++ Nat.repr i ++ "]\n"
  | .movRcxRax => "    mov rcx, rax\n"
  | .callPrintf => "    call printf\n"
  | .pushRax => "    push rax\n"
  | .popRcx => "    pop rcx\n"
  | .addRaxRcx => "    add rax, rcx\n"
  | .subRaxRcx => "    sub rax, rcx\n"
  | .imulRaxRcx => "    imul rax, rcx\n"
  | .xorRdxRdx => "    xor rdx, rdx\n"
  | .idivRcx => "    idiv rcx\n"
  | .movRaxRdx => "    mov rax, rdx\n"
  | .seteAl => "    sete al\n"
  | .setneAl => "    setne al\n"
  | .setlAl => "    setl al\n"
  | .setleAl => "    setle al\n"
  | .setgAl => "    setg al\n"
  | .setgeAl => "    setge al\n"
  | .setzAl => "    setz al\n"
  | .movzxRaxAl => "    movzx rax, al\n"
  | .negRax => "    neg rax\n"
  | .andRaxRcx => "    and rax, rcx\n"
  | .orRaxRcx => "    or rax, rcx\n"

/-- `CodeGenerator` state.  `maxOff` is instrumentation only: the largest
value `stackOffset` has taken within the current function (used to state
peak-allocation properties; no emitted instruction depends on it). -/
structure CG where
  labelCounter : Nat
  stringLits : List String
  vars : List (String × Int)
  stackOffset : Int
  maxOff : Int
  loopStack : List (String × String)
deriving DecidableEq

/-- `format!("L{}", counter)` of `next_label`. -/
def mkLabel (n : Nat) : String := "L" ++ Nat.repr n

/-- `HashMap::insert` on the variable map (replacing any previous binding). -/
def varInsert (m : List (String × Int)) (k : String) (v : Int) : List (String × Int) :=
  (k, v) :: m.filter (fun kv => kv.1 ≠ k)

/-- `HashMap::get` on the variable map. -/
def varGet (m : List (String × Int)) (k : String) : Option Int :=
  (m.find? (fun kv => kv.1 = k)).map (·.2)

/-- The operator arm of the `BinaryOp` case of `generate_expression`. -/
def opInstrs (op : String) : List Instr :=
  if op = "+" then [.addRaxRcx]
  else if op = "-" then [.subRaxRcx]
  else if op = "*" then [.imulRaxRcx]
  else if op = "/" then [.xorRdxRdx, .idivRcx]
  else if op = "%" then [.xorRdxRdx, .idivRcx, .movRaxRdx]
  else if op = "==" then [.cmpRaxRcx, .seteAl, .movzxRaxAl]
  else if op = "!=" then [.cmpRaxRcx, .setneAl, .movzxRaxAl]
  else if op = "<" then [.cmpRaxRcx, .setlAl, .movzxRaxAl]
  else if op = "<=" then [.cmpRaxRcx, .setleAl, .movzxRaxAl]
  else if op = ">" then [.cmpRaxRcx, .setgAl, .movzxRaxAl]
  else if op = ">=" then [.cmpRaxRcx, .setgeAl, .movzxRaxAl]
  else if op = "&&" then [.andRaxRcx]
  else if op = "||" then [.orRaxRcx]
  else []

/-- The operator arm of the `UnaryOp` case of `generate_expression`. -/
def unopInstrs (op : String) : List Instr :=
  if op = "-" then [.negRax]
  else if op = "!" then [.testRaxRax, .setzAl, .movzxRaxAl]
  else []

/-- `CodeGenerator::generate_expression`. -/
def genExpr (g : CG) : Ast → CG × List Instr
  | .lit (.intL n) => (g, [.movRaxImm n])
  | .lit (.charL c) => (g, [.movRaxImm (Int.ofNat c.toNat)])
  | .lit (.boolL b) => (g, [.movRaxImm (if b then 1 else 0)])
  | .lit (.strL s) =>
    ({ g with stringLits := g.stringLits ++ [s] }, [.leaRaxStr g.stringLits.length])
  | .lit (.floatL _) => (g, [])
  | .ident name =>
    (match varGet g.vars name with
     | some off => (g, [.movRaxFrame off])
     | none => (g, []))
  | .binaryOp l op r =>
    let (g1, ra) := genExpr g r
    let (g2, la) := genExpr g1 l
    (g2, ra ++ [.pushRax] ++ la ++ [.popRcx] ++ opInstrs op)
  | .unaryOp op operand =>
    let (g1, oa) := genExpr g operand
    (g1, oa ++ unopInstrs op)
  | .call name args =>
    (match args with
     | .consA a0 _ =>
       if name = "print" then
         match a0 with
         | .lit (.strL s) =>
           ({ g with stringLits := g.stringLits ++ [s ++ "\n"] },
            [.leaRcxStr g.stringLits.length, .subRsp 32, .callPrintf, .addRsp 32])
         | _ =>
           let (g1, ia) := genExpr g a0
           (g1, ia ++ [.movRcxRax, .subRsp 32, .callPrintf, .addRsp 32])
       else (g, [])
     | .nilA => (g, []))
  | _ => (g, [])

/-- `CodeGenerator::calculate_stack_space`'s `count` accumulator.  The
nested `calculate_stack_space` results (which are byte values, already
rounded to 16) are added directly to the slot count, exactly as in the
source. -/
def calcCount : AstList → Nat
  | .nilA => 0
  | .consA s rest =>
    (match s with
     | .varDecl _ _ _ _ => 1
     | .constDecl _ _ _ => 1
     | .forS _ _ _ _ b => 1 + ((calcCount b * 8 + 15) / 16) * 16
     | .whileS _ b => ((calcCount b * 8 + 15) / 16) * 16
     | .loopS b => ((calcCount b * 8 + 15) / 16) * 16
     | .ifS _ t e =>
       ((calcCount t * 8 + 15) / 16) * 16 +
       (match e with
        | .someL eb => ((calcCount eb * 8 + 15) / 16) * 16
        | .noneL => 0)
     | _ => 0) + calcCount rest

/-- `CodeGenerator::calculate_stack_space`. -/
def calcStackSpace (body : AstList) : Nat :=
  ((calcCount body * 8 + 15) / 16) * 16

mutual

/-- `CodeGenerator::generate_statement`. -/
def genStmt (g : CG) (n : Ast) : CG × List Instr :=
  match n with
  | .varDecl name _ value _ =>
    (match value with
     | .someA v =>
       let (g1, va) := genExpr g v
       let off := g1.stackOffset + 8
       let g2 := { g1 with stackOffset := off, maxOff := max g1.maxOff off,
                           vars := varInsert g1.vars name off }
       (g2, va ++ [.movFrameRax off])
     | .noneA =>
       let off := g.stackOffset + 8
       ({ g with stackOffset := off, maxOff := max g.maxOff off,
                 vars := varInsert g.vars name off }, []))
  | .constDecl name _ v =>
    let (g1, va) := genExpr g v
    let off := g1.stackOffset + 8
    ({ g1 with stackOffset := off, maxOff := max g1.maxOff off,
               vars := varInsert g1.vars name off },
     va ++ [.movFrameRax off])
  | .retS value =>
    (match value with
     | .someA v =>
       let (g1, va) := genExpr g v
       (g1, va ++ [.leaveI, .retI])
     | .noneA => (g, [.xorEaxEax, .leaveI, .retI]))
  | .assign target v =>
    let (g1, va) := genExpr g v
    (match varGet g1.vars target with
     | some off => (g1, va ++ [.movFrameRax off])
     | none => (g1, va))
  | .ifS cond thenB elseB =>
    let elseL := mkLabel g.labelCounter
    let endL := mkLabel (g.labelCounter + 1)
    let g := { g with labelCounter := g.labelCounter + 2 }
    let (g, ca) := genExpr g cond
    let (g, ta) := genStmts g thenB
    let (g, ea) :=
      match elseB with
      | .someL eb => genStmts g eb
      | .noneL => (g, [])
    (g, ca ++ [.testRaxRax, .jz elseL] ++ ta ++ [.jmp endL, .label elseL]
        ++ ea ++ [.label endL])
  | .whileS cond body =>
    let startL := mkLabel g.labelCounter
    let endL := mkLabel (g.labelCounter + 1)
    let g := { g with labelCounter := g.labelCounter + 2 }
    let g := { g with loopStack := (endL, startL) :: g.loopStack }
    let (g, ca) := genExpr g cond
    let (g, ba) := genStmts g body
    let g := { g with loopStack := g.loopStack.tail }
    (g, [.label startL] ++ ca ++ [.testRaxRax, .jz endL] ++ ba
        ++ [.jmp startL, .label endL])
  | .forS it rs re incl body =>
    let startL := mkLabel g.labelCounter
    let endL := mkLabel (g.labelCounter + 1)
    let g := { g with labelCounter := g.labelCounter + 2 }
    let (g, sa) := genExpr g rs
    let iterOff := g.stackOffset + 8
    let g := { g with stackOffset := iterOff, maxOff := max g.maxOff iterOff,
                      vars := varInsert g.vars it iterOff }
    let (g, ea) := genExpr g re
    let endOff := g.stackOffset + 8
    let g := { g with stackOffset := endOff, maxOff := max g.maxOff endOff }
    let g := { g with loopStack := (endL, startL) :: g.loopStack }
    -- `*self.variables.get(iterator).unwrap()`: the iterator was inserted
    -- just above and `generate_expression` never modifies the map, so the
    -- `unwrap` cannot fail; `.getD 0` is never the default branch here
    let iOff := (varGet g.vars it).getD 0
    let (g, ba) := genStmts g body
    let g := { g with loopStack := g.loopStack.tail }
    let g := { g with stackOffset := g.stackOffset - 8 }
    (g, sa ++ [.movFrameRax iterOff] ++ ea ++ [.movFrameRax endOff]
        ++ [.label startL, .movRaxFrame iOff, .movRcxFrame endOff, .cmpRaxRcx]
        ++ [if incl then .jg endL else .jge endL]
        ++ ba
        ++ [.movRaxFrame iOff, .incRax, .movFrameRax iOff]
        ++ [.jmp startL, .label endL])
  | .loopS body =>
    let startL := mkLabel g.labelCounter
    let endL := mkLabel (g.labelCounter + 1)
    let g := { g with labelCounter := g.labelCounter + 2 }
    let g := { g with loopStack := (endL, startL) :: g.loopStack }
    let (g, ba) := genStmts g body
    let g := { g with loopStack := g.loopStack.tail }
    (g, [.label startL] ++ ba ++ [.jmp startL, .label endL])
  | .breakS =>
    (match g.loopStack.head? with
     | some pair => (g, [.jmp pair.1])
     | none => (g, []))
  | .continueS =>
    (match g.loopStack.head? with
     | some pair => (g, [.jmp pair.2])
     | none => (g, []))
  | other => genExpr g other

/-- The statement loop over a body. -/
def genStmts (g : CG) (l : AstList) : CG × List Instr :=
  match l with
  | .nilA => (g, [])
  | .consA n rest =>
    let (g1, a) := genStmt g n
    let (g2, b) := genStmts g1 rest
    (g2, a ++ b)

end

/-- `matches!(s, AstNode::Return { .. })`. -/
def isRet : Ast → Bool
  | .retS _ => true
  | _ => false

/-- `body.iter().any(...)` over return statements. -/
def anyRet : AstList → Bool
  | .nilA => false
  | .consA s rest => isRet s || anyRet rest

mutual

/-- `CodeGenerator::generate_assembly_node`. -/
def genAsmNode (g : CG) (n : Ast) : CG × List Instr :=
  match n with
  | .moduleA _ items => genAsmItems g items
  | .func name _ _ body =>
    let g := { g with vars := [], stackOffset := 0, maxOff := 0 }
    let localSpace := calcStackSpace body
    let totalSpace := ((localSpace + 32 + 15) / 16) * 16
    let (g, ba) := genStmts g body
    let epi := if anyRet body then [] else [.xorEaxEax, .leaveI, .retI]
    (g, [.label name, .pushRbp, .movRbpRsp]
        ++ (if 0 < totalSpace then [.subRsp (Int.ofNat totalSpace)] else [])
        ++ [.blank] ++ ba ++ epi ++ [.blank])
  | _ => (g, [])

/-- The item loop of the `Module` arm. -/
def genAsmItems (g : CG) (l : AstList) : CG × List Instr :=
  match l with
  | .nilA => (g, [])
  | .consA n rest =>
    let (g1, a) := genAsmNode g n
    let (g2, b) := genAsmItems g1 rest
    (g2, a ++ b)

end

/-- The fresh generator state of `to_assembly`. -/
def initCG : CG := ⟨0, [], [], 0, 0, []⟩

/-- `s.replace("\n", "\\n").replace("\r", "\\r")` (character-wise, which
agrees with the sequential single-character replaces because neither
replacement string contains `\n` or `\r`). -/
def escapeData (s : String) : String :=
  String.mk (List.flatten (s.data.map fun c =>
    if c = '\n' then ['\\', 'n']
    else if c = '\r' then ['\\', 'r']
    else [c]))

/-- One `str_{i}: db \`...\`, 0` line of the data section. -/
def dataLine (i : Nat) (s : String) : String :=
  "    str_" ++ Nat.repr i ++ ": db `" ++ escapeData s ++ "`, 0\n"

/-- The data-section body: one line per interned string, in pool order. -/
def renderData (lits : List String) : String :=
  String.join ((lits.enum).map fun p => dataLine p.1 p.2)

/-- `CodeGenerator::to_assembly` (always returns `Ok` in the source; the
text is produced here directly). -/
def toAssembly (ast : Ast) : String :=
  let (g, code) := genAsmNode initCG ast
  "section .data\n"
  ++ (if g.stringLits ≠ [] then renderData g.stringLits else "")
  ++ "\n"
  ++ "section .bss\n\n"
  ++ "section .text\n"
  ++ "    global main\n"
  ++ "    extern ExitProcess\n"
  ++ "    extern printf\n\n"
  ++ String.join (code.map Instr.render)

/-! ### A small operational semantics for the emitted instruction subset

Used to state run-time properties of generated code (e.g. how often a
`for` body executes).  Flags are modelled as the operand pair of the last
`cmp`/`test`.  Each time a conditional `jg`/`jge` at a loop head falls
through, the machine logs the value of `rax` (the loop-counter value with
which the body is entered). -/

structure Machine where
  pc : Nat
  rax : Int
  rcx : Int
  rdx : Int
  al : Int
  flagL : Int
  flagR : Int
  mem : List (Int × Int)
  stack : List Int
  bodyLog : List Int
  halted : Bool
deriving DecidableEq

def memStore (m : List (Int × Int)) (k v : Int) : List (Int × Int) :=
  (k, v) :: m.filter (fun kv => kv.1 ≠ k)

def memLoad (m : List (Int × Int)) (k : Int) : Int :=
  ((m.find? (fun kv => kv.1 = k)).map (·.2)).getD 0

/-- Index of a label definition in the instruction list. -/
def labelIdx (code : List Instr) (l : String) : Option Nat :=
  code.findIdx? (fun i => i = Instr.label l)

def jumpTo (code : List Instr) (l : String) (m : Machine) : Machine :=
  match labelIdx code l with
  | some i => { m with pc := i + 1 }
  | none => { m with halted := true }

/-- One execution step. -/
def stepM (code : List Instr) (m : Machine) : Machine :=
  match code.get? m.pc with
  | none => { m with halted := true }
  | some i =>
    let next := { m with pc := m.pc + 1 }
    match i with
    | .label _ => next
    | .pushRbp | .movRbpRsp | .blank | .leaveI | .callPrintf => next
    | .subRsp _ | .addRsp _ => next
    | .retI => { m with halted := true }
    | .movRaxImm n => { next with rax := n }
    | .movFrameRax off => { next with mem := memStore m.mem off m.rax }
    | .movRaxFrame off => { next with rax := memLoad m.mem off }
    | .movRcxFrame off => { next with rcx := memLoad m.mem off }
    | .xorEaxEax => { next with rax := 0 }
    | .testRaxRax => { next with flagL := m.rax, flagR := 0 }
    | .cmpRaxRcx => { next with flagL := m.rax, flagR := m.rcx }
    | .jz l => if m.flagL = m.flagR then jumpTo code l m else next
    | .jmp l => jumpTo code l m
    | .jg l =>
      if m.flagL > m.flagR then jumpTo code l m
      else { next with bodyLog := m.bodyLog ++ [m.rax] }
    | .jge l =>
      if m.flagL ≥ m.flagR then jumpTo code l m
      else { next with bodyLog := m.bodyLog ++ [m.rax] }
    | .incRax => { next with rax := m.rax + 1 }
    | .leaRaxStr _ | .leaRcxStr _ => next
    | .movRcxRax => { next with rcx := m.rax }
    | .pushRax => { next with stack := m.rax :: m.stack }
    | .popRcx =>
      { next with rcx := m.stack.headD 0, stack := m.stack.tail }
    | .addRaxRcx => { next with rax := m.rax + m.rcx }
    | .subRaxRcx => { next with rax := m.rax - m.rcx }
    | .imulRaxRcx => { next with rax := m.rax * m.rcx }
    | .xorRdxRdx => { next with rdx := 0 }
    | .idivRcx =>
      if m.rcx = 0 then { m with halted := true }
      else { next with rax := Int.tdiv m.rax m.rcx, rdx := Int.tmod m.rax m.rcx }
    | .movRaxRdx => { next with rax := m.rdx }
    | .seteAl => { next with al := if m.flagL = m.flagR then 1 else 0 }
    | .setneAl => { next with al := if m.flagL ≠ m.flagR then 1 else 0 }
    | .setlAl => { next with al := if m.flagL < m.flagR then 1 else 0 }
    | .setleAl => { next with al := if m.flagL ≤ m.flagR then 1 else 0 }
    | .setgAl => { next with al := if m.flagL > m.flagR then 1 else 0 }
    | .setgeAl => { next with al := if m.flagL ≥ m.flagR then 1 else 0 }
    | .setzAl => { next with al := if m.flagL = 0 then 1 else 0 }
    | .movzxRaxAl => { next with rax := m.al }
    | .negRax => { next with rax := -m.rax }
    | .andRaxRcx => { next with rax := Int.land m.rax m.rcx }
    | .orRaxRcx => { next with rax := Int.lor m.rax m.rcx }

def runM : Nat → List Instr → Machine → Machine
  | 0, _, m => m
  | fuel + 1, code, m =>
    if m.halted then m else runM fuel code (stepM code m)

def initMachine : Machine := ⟨0, 0, 0, 0, 0, 0, 0, [], [], [], false⟩

/-- Run the emitted code of a whole compiled module from its first
instruction and return the loop-body entry log. -/
def runBodyLog (fuel : Nat) (ast : Ast) : List Int :=
  (runM fuel (genAsmNode initCG ast).2 initMachine).bodyLog

/-! ### The whole pipeline on source text -/

/-- Outcome of running lexer, parser, semantic analysis and code
generation in sequence. -/
inductive PipeRes where
  | ok : String → PipeRes
  | lexErr : String → PipeRes
  | parseErr : String → PipeRes
  | semErr : String → PipeRes
  | crashed : PipeRes
  | outOfFuel : PipeRes
deriving DecidableEq

/-- `main.rs`'s compile path restricted to the in-memory core:
tokenize, parse, analyze, then `to_assembly`. -/
def compileStr (src : String) : PipeRes :=
  match tokenizeStr src with
  | .ok toks _ =>
    (match parseTokens toks with
     | .ok ast _ =>
       (match analyze ast with
        | .ok _ => .ok (toAssembly ast)
        | .error m => .semErr m)
     | .err m => .parseErr m
     | .crash => .crashed
     | .fuelOut => .outOfFuel)
  | .err m _ => .lexErr m
  | .crash _ => .crashed
  | .fuelOut _ => .outOfFuel

/-- The parsed AST of a source text, when the front end accepts it. -/
def parsePipe (src : String) : Option Ast :=
  match tokenizeStr src with
  | .ok toks _ =>
    (match parseTokens toks with
     | .ok ast _ => some ast
     | _ => none)
  | _ => none

/-! ### Derived observations used in theorem statements -/

/-- The per-function byte reservation of the prologue:
`((local_space + 32 + 15) / 16) * 16` with `local_space = calculate_stack_space(body)`
(the `total_space` local of `generate_assembly_node`). -/
def totalSpace (body : AstList) : Nat :=
  ((calcStackSpace body + 32 + 15) / 16) * 16

mutual

/-- The slot count described by the specification's words (for claim
comparison only, NOT the code's `calculate_stack_space`): one slot per
variable/constant declaration, descending into if/else (summing both
branches), while and loop bodies, and two extra slots per `for` (iterator
and hidden range-end bound); summed as plain slot counts. -/
def claimedSlots : AstList → Nat
  | .nilA => 0
  | .consA s rest => claimedSlotsS s + claimedSlots rest

def claimedSlotsS : Ast → Nat
  | .varDecl _ _ _ _ => 1
  | .constDecl _ _ _ => 1
  | .forS _ _ _ _ b => 2 + claimedSlots b
  | .whileS _ b => claimedSlots b
  | .loopS b => claimedSlots b
  | .ifS _ t e =>
    claimedSlots t +
    (match e with
     | .someL eb => claimedSlots eb
     | .noneL => 0)
  | _ => 0

end

mutual

/-- Net number of slots the `stack_offset` counter retains after emitting a
statement: `+1` per declaration, and `+1` per `for` statement (iterator
kept, hidden bound slot released by the final `stack_offset -= 8`). -/
def netSlotsS : Ast → Nat
  | .varDecl _ _ _ _ => 1
  | .constDecl _ _ _ => 1
  | .forS _ _ _ _ b => 1 + netSlots b
  | .whileS _ b => netSlots b
  | .loopS b => netSlots b
  | .ifS _ t e =>
    netSlots t +
    (match e with
     | .someL eb => netSlots eb
     | .noneL => 0)
  | _ => 0

def netSlots : AstList → Nat
  | .nilA => 0
  | .consA s rest => netSlotsS s + netSlots rest

end

/-- The per-statement contribution to `calculate_stack_space`'s `count`
(the `match stmt` inside its loop). -/
def calcCountS : Ast → Nat
  | .varDecl _ _ _ _ => 1
  | .constDecl _ _ _ => 1
  | .forS _ _ _ _ b => 1 + ((calcCount b * 8 + 15) / 16) * 16
  | .whileS _ b => ((calcCount b * 8 + 15) / 16) * 16
  | .loopS b => ((calcCount b * 8 + 15) / 16) * 16
  | .ifS _ t e =>
    ((calcCount t * 8 + 15) / 16) * 16 +
    (match e with
     | .someL eb => ((calcCount eb * 8 + 15) / 16) * 16
     | .noneL => 0)
  | _ => 0

/-- Frame offsets written by `mov [rbp-off], rax` instructions. -/
def storesOf : List Instr → List Int
  | [] => []
  | .movFrameRax off :: rest => off :: storesOf rest
  | _ :: rest => storesOf rest

/-- Label definitions (lines `name:`) of an instruction list. -/
def labelsOf : List Instr → List String
  | [] => []
  | .label s :: rest => s :: labelsOf rest
  | _ :: rest => labelsOf rest

mutual

/-- The number of `next_label` pairs `generate_statement` allocates for a
statement: one pair per if/while/for/loop, plus those of the nested
bodies. -/
def labelPairsS : Ast → Nat
  | .ifS _ t e =>
    1 + labelPairs t +
    (match e with
     | .someL eb => labelPairs eb
     | .noneL => 0)
  | .whileS _ b => 1 + labelPairs b
  | .forS _ _ _ _ b => 1 + labelPairs b
  | .loopS b => 1 + labelPairs b
  | _ => 0

/-- Label pairs allocated across a statement list. -/
def labelPairs : AstList → Nat
  | .nilA => 0
  | .consA s rest => labelPairsS s + labelPairs rest

end

mutual

/-- The function-name labels `generate_assembly_node` emits for a node
(descending into modules). -/
def asmNames : Ast → List String
  | .moduleA _ items => asmNamesL items
  | .func name _ _ _ => [name]
  | _ => []

/-- Function-name labels across an item list. -/
def asmNamesL : AstList → List String
  | .nilA => []
  | .consA n rest => asmNames n ++ asmNamesL rest

end

mutual

/-- Label pairs `generate_assembly_node` allocates for a node. -/
def asmPairs : Ast → Nat
  | .moduleA _ items => asmPairsL items
  | .func _ _ _ body => labelPairs body
  | _ => 0

/-- Label pairs allocated across an item list. -/
def asmPairsL : AstList → Nat
  | .nilA => 0
  | .consA n rest => asmPairs n + asmPairsL rest

end

/-- The function names of a module's top-level item list. -/
def fnNames : AstList → List String
  | .nilA => []
  | .consA (.func name _ _ _) rest => name :: fnNames rest
  | .consA _ rest => fnNames rest

/-- `generate_statement` starts each function body from cleared variables
and offset 0 (`generate_assembly_node`'s `Function` arm). -/
def funcStartCG (g : CG) : CG :=
  { g with vars := [], stackOffset := 0, maxOff := 0 }

/-- Claim C4 as stated: a consumed newline increments the line and resets
the column; any other consumed character increments the column. -/
def claimEventB (e : CEvent) : Bool :=
  if e.ch = '\n' then e.lineAfter = e.lineBefore + 1 && e.colAfter = 1
  else e.colAfter = e.colBefore + 1

/-- What the code actually guarantees per consumed character: either the
newline treatment (line + 1, column reset) or the `advance` treatment
(column + 1, line unchanged — taken for every character consumed inside
string and character literals, newlines included). -/
def goodEventB (e : CEvent) : Bool :=
  (e.lineAfter = e.lineBefore + 1 && e.colAfter = 1 && e.ch = '\n') ||
  (e.lineAfter = e.lineBefore && e.colAfter = e.colBefore + 1)

/-- All consumption events of a lexer state satisfy `goodEventB`. -/
def goodEvents (s : LexState) : Bool :=
  s.events.all goodEventB

/-- `true` iff semantic analysis accepts the tree. -/
def analyzeOk (ast : Ast) : Bool :=
  match analyze ast with
  | .ok _ => true
  | .error _ => false

/-- The `inclusive` flag of a parsed `for` statement. -/
def forInclFlag (r : PRes Ast) : Option Bool :=
  match r with
  | .ok (.forS _ _ _ incl _) _ => some incl
  | _ => none

/-- A comparable summary of a token: discriminant index, integer payload
(int literals, char codes, booleans), string payload (identifiers, string
and float literals), line and column. -/
def tokView (t : Token) : Nat × Int × String × Nat × Nat :=
  let iPay : Int :=
    match t.tokenType with
    | .intLit n => n
    | .charLit c => Int.ofNat c.toNat
    | .boolLit b => if b then 1 else 0
    | _ => 0
  let sPay : String :=
    match t.tokenType with
    | .identifier s => s
    | .stringLit s => s
    | .floatLit s => s
    | _ => ""
  (t.tokenType.kindIndex, iPay, sPay, t.line, t.column)

/-- Token summaries of a successful `tokenize` run. -/
def tokViews (r : LexRes (List Token)) : Option (List (Nat × Int × String × Nat × Nat)) :=
  match r with
  | .ok ts _ => some (ts.map tokView)
  | _ => none

/-! ### Concrete programs used as test inputs and counterexamples -/

/-- `fn main() { for (i in 0..3) { } }` (or `0...3` when `incl`). -/
def astForEx (incl : Bool) : Ast :=
  .moduleA "main" (.consA
    (.func "main" [] none (.consA
      (.forS "i" (.lit (.intL 0)) (.lit (.intL 3)) incl .nilA) .nilA)) .nilA)

/-- `fn main() { print("hi"); print("hi"); }`. -/
def astTwoPrints : Ast :=
  .moduleA "main" (.consA
    (.func "main" [] none (.consA
      (.call "print" (.consA (.lit (.strL "hi")) .nilA)) (.consA
      (.call "print" (.consA (.lit (.strL "hi")) .nilA)) .nilA))) .nilA)

/-- `for (i in 0..1) { let a = 1; } let b = 2;` — `a` and `b` end up with
the same stack offset. -/
def bodyOffsetClash : AstList :=
  .consA (.forS "i" (.lit (.intL 0)) (.lit (.intL 1)) false
    (.consA (.varDecl "a" none (.someA (.lit (.intL 1))) false) .nilA)) (.consA
    (.varDecl "b" none (.someA (.lit (.intL 2))) false) .nilA)

/-- A single `for (i in 0..1) { }` statement. -/
def forOnlyStmt : Ast :=
  .forS "i" (.lit (.intL 0)) (.lit (.intL 1)) false .nilA

/-- `fn f() { } fn f() { }` — two functions with the same name. -/
def astDupFns : Ast :=
  .moduleA "main" (.consA (.func "f" [] none .nilA) (.consA
    (.func "f" [] none .nilA) .nilA))

/-- `fn L0() { if (true) { } }` — a function whose name collides with the
first generated control-flow label. -/
def astL0Fn : Ast :=
  .moduleA "main" (.consA
    (.func "L0" [] none (.consA
      (.ifS (.lit (.boolL true)) .nilA .noneL) .nilA)) .nilA)

/-- `fn main() { if (true) { } }` — a well-behaved one-function program. -/
def astIfTrue : Ast :=
  .moduleA "main" (.consA
    (.func "main" [] none (.consA
      (.ifS (.lit (.boolL true)) .nilA .noneL) .nilA)) .nilA)

/-- `{ let x: i32 = 1; { let x: i32 = 2; } }` with the inner block realized
as the nested scope of a `loop` body, inside a function. -/
def astShadow : Ast :=
  .moduleA "main" (.consA
    (.func "main" [] none (.consA
      (.varDecl "x" (some .i32) (.someA (.lit (.intL 1))) false) (.consA
      (.loopS (.consA
        (.varDecl "x" (some .i32) (.someA (.lit (.intL 2))) false) .nilA)) .nilA))) .nilA)

/-- `{ let x: i32 = 1; let x: i32 = 2; }` — the same redeclaration in one
scope, inside a function. -/
def astSameScopeRedecl : Ast :=
  .moduleA "main" (.consA
    (.func "main" [] none (.consA
      (.varDecl "x" (some .i32) (.someA (.lit (.intL 1))) false) (.consA
      (.varDecl "x" (some .i32) (.someA (.lit (.intL 2))) false) .nilA))) .nilA)

/-- A token with a fixed position, for hand-built token lists. -/
def tokAt (tt : TokType) (line column : Nat) : Token := ⟨tt, line, column⟩

/-- The token tail `(i in 0..3) { }` handed to `parse_for` (positions as
the lexer would assign them starting at column 5 of `for (i in 0..3) { }`). -/
def forHeadToks : List Token :=
  [tokAt .leftParen 1 5, tokAt (.identifier "i") 1 6, tokAt (.identifier "in") 1 8,
   tokAt (.intLit 0) 1 11, tokAt .dot 1 12, tokAt .dot 1 13, tokAt (.intLit 3) 1 14,
   tokAt .rightParen 1 15, tokAt .leftBrace 1 17, tokAt .rightBrace 1 19,
   tokAt .eof 1 20]

/-- The token tail `(i in 0...3) { }` handed to `parse_for`. -/
def forHeadToks3 : List Token :=
  [tokAt .leftParen 1 5, tokAt (.identifier "i") 1 6, tokAt (.identifier "in") 1 8,
   tokAt (.intLit 0) 1 11, tokAt .dot 1 12, tokAt .dot 1 13, tokAt .dot 1 14,
   tokAt (.intLit 3) 1 15, tokAt .rightParen 1 16, tokAt .leftBrace 1 18,
   tokAt .rightBrace 1 20, tokAt .eof 1 21]

/-! ## Theorems -/

/-! ### Lexer position accounting (claim C4) -/

theorem goodEvents_fold {α : Type} (r : LexRes α) (b : Bool)
    (h : goodEvents r.state = b) :
    goodEvents (match r with
                | LexRes.ok _ s => s
                | LexRes.err _ s => s
                | LexRes.crash s => s
                | LexRes.fuelOut s => s) = b := by
  cases r <;> simpa [LexRes.state] using h

theorem goodEvents_advanceL (s : LexState) :
    goodEvents (advanceL s) = goodEvents s := by
  unfold advanceL
  cases h : s.input.get? s.pos <;>
    simp [goodEvents, List.all_append, goodEventB]

theorem goodEvents_consumeNewline (s : LexState) :
    goodEvents (consumeNewline s) = goodEvents s := by
  simp [consumeNewline, goodEvents, List.all_append, goodEventB]

theorem goodEvents_skipWhitespace (f : Nat) (s : LexState) :
    goodEvents (skipWhitespace f s) = goodEvents s := by
  induction f generalizing s with
  | zero => rfl
  | succ f ih =>
    unfold skipWhitespace
    split <;> simp [ih, goodEvents_advanceL, goodEvents_consumeNewline]

theorem goodEvents_skipLineComment (f : Nat) (s : LexState) :
    goodEvents (skipLineComment f s) = goodEvents s := by
  induction f generalizing s with
  | zero => rfl
  | succ f ih =>
    unfold skipLineComment
    split <;> [skip; rfl]
    split <;> simp [ih, goodEvents_advanceL]

theorem goodEvents_skipBlockCommentLoop (f : Nat) (s : LexState) :
    goodEvents (skipBlockCommentLoop f s).state = goodEvents s := by
  induction f generalizing s with
  | zero => rfl
  | succ f ih =>
    unfold skipBlockCommentLoop
    split
    · rfl
    · split
      · simp [LexRes.state, goodEvents_advanceL]
      · rw [ih (consumeNewline s), goodEvents_consumeNewline]
      · rw [ih (advanceL s), goodEvents_advanceL]

theorem goodEvents_skipBlockComment (f : Nat) (s : LexState) :
    goodEvents (skipBlockComment f s).state = goodEvents s := by
  unfold skipBlockComment
  rw [goodEvents_skipBlockCommentLoop, goodEvents_advanceL, goodEvents_advanceL]

theorem goodEvents_readIdentChars (f : Nat) (s : LexState) :
    goodEvents (readIdentChars f s).2 = goodEvents s := by
  induction f generalizing s with
  | zero => rfl
  | succ f ih =>
    unfold readIdentChars
    split
    · split
      · cases hr : readIdentChars f (advanceL s) with
        | mk a b =>
          have h := ih (advanceL s)
          rw [hr] at h
          simpa [goodEvents_advanceL] using h
      · rfl
    · rfl

theorem goodEvents_readDigitChars (f : Nat) (s : LexState) :
    goodEvents (readDigitChars f s).2 = goodEvents s := by
  induction f generalizing s with
  | zero => rfl
  | succ f ih =>
    unfold readDigitChars
    split
    · split
      · cases hr : readDigitChars f (advanceL s) with
        | mk a b =>
          have h := ih (advanceL s)
          rw [hr] at h
          simpa [goodEvents_advanceL] using h
      · rfl
    · rfl

theorem goodEvents_readNumber (f : Nat) (s : LexState) :
    goodEvents (readNumber f s).state = goodEvents s := by
  unfold readNumber
  cases hd : readDigitChars f s with
  | mk ds s1 =>
    have h1 := goodEvents_readDigitChars f s
    rw [hd] at h1
    simp only at h1
    dsimp only
    split
    · split <;> simp [LexRes.state, h1]
    · split
      · split
        · split <;> simp [LexRes.state, h1]
        · have h2 := goodEvents_readDigitChars f (advanceL s1)
          simp [LexRes.state, h2, goodEvents_advanceL, h1]
      · split <;> simp [LexRes.state, h1]

theorem goodEvents_readStringLoop (f : Nat) (s : LexState) (acc : List Char) :
    goodEvents (readStringLoop f s acc).state = goodEvents s := by
  induction f generalizing s acc with
  | zero => rfl
  | succ f ih =>
    unfold readStringLoop
    dsimp only
    split
    · rfl
    · simp [LexRes.state, goodEvents_advanceL]
    · split
      · simp [LexRes.state, goodEvents_advanceL]
      · split <;>
          first
          | (change goodEvents (LexRes.state _) = goodEvents s
             simp [ih, goodEvents_advanceL])
          | simp [LexRes.state, goodEvents_advanceL]
    · change goodEvents (LexRes.state _) = goodEvents s
      simp [ih, goodEvents_advanceL]

theorem goodEvents_readString (f : Nat) (s : LexState) :
    goodEvents (readString f s).state = goodEvents s := by
  unfold readString
  cases hr : readStringLoop f (advanceL s) [] <;>
    · have := goodEvents_readStringLoop f (advanceL s) []
      rw [hr] at this
      simpa [LexRes.state, goodEvents_advanceL] using this

theorem goodEvents_readChar (s : LexState) :
    goodEvents (readChar s).state = goodEvents s := by
  unfold readChar
  dsimp only
  split
  · simp [LexRes.state, goodEvents_advanceL]
  · split
    · simp [LexRes.state, goodEvents_advanceL]
    · rename_i ch s2 heq
      have hs2 : s2 = advanceL (advanceL s) ∨ s2 = advanceL s := by
        split at heq
        · split at heq <;> simp_all
        · simp_all
        · simp_all
      rcases hs2 with rfl | rfl <;>
        (split
         · simp [LexRes.state, goodEvents_advanceL]
         · split <;> simp [LexRes.state, goodEvents_advanceL])

theorem goodEvents_readIdentifier (f : Nat) (s : LexState) :
    goodEvents (readIdentifier f s).2 = goodEvents s := by
  unfold readIdentifier
  cases h : readIdentChars f s with
  | mk cs s' =>
    have h2 := goodEvents_readIdentChars f s
    rw [h] at h2
    simpa using h2

set_option maxHeartbeats 1000000 in
theorem goodEvents_opToken (s : LexState) (line column : Nat) (c : Char) :
    goodEvents (opToken s line column c).state = goodEvents s := by
  unfold opToken
  by_cases h1 : c = '+'
  · rw [if_pos h1]; simp [LexRes.state, goodEvents_advanceL]
  rw [if_neg h1]
  by_cases h2 : c = '-'
  · rw [if_pos h2]
    split <;>
      first
      | (split_ifs <;> simp [LexRes.state, goodEvents_advanceL])
      | simp [LexRes.state, goodEvents_advanceL]
  rw [if_neg h2]
  by_cases h3 : c = '*'
  · rw [if_pos h3]; simp [LexRes.state, goodEvents_advanceL]
  rw [if_neg h3]
  by_cases h4 : c = '/'
  · rw [if_pos h4]; simp [LexRes.state, goodEvents_advanceL]
  rw [if_neg h4]
  by_cases h5 : c = '%'
  · rw [if_pos h5]; simp [LexRes.state, goodEvents_advanceL]
  rw [if_neg h5]
  by_cases h6 : c = '='
  · rw [if_pos h6]
    split <;>
      first
      | (split_ifs <;> simp [LexRes.state, goodEvents_advanceL])
      | simp [LexRes.state, goodEvents_advanceL]
  rw [if_neg h6]
  by_cases h7 : c = '!'
  · rw [if_pos h7]
    split <;>
      first
      | (split_ifs <;> simp [LexRes.state, goodEvents_advanceL])
      | simp [LexRes.state, goodEvents_advanceL]
  rw [if_neg h7]
  by_cases h8 : c = '<'
  · rw [if_pos h8]
    split <;>
      first
      | (split_ifs <;> simp [LexRes.state, goodEvents_advanceL])
      | simp [LexRes.state, goodEvents_advanceL]
  rw [if_neg h8]
  by_cases h9 : c = '>'
  · rw [if_pos h9]
    split <;>
      first
      | (split_ifs <;> simp [LexRes.state, goodEvents_advanceL])
      | simp [LexRes.state, goodEvents_advanceL]
  rw [if_neg h9]
  by_cases h10 : c = '&'
  · rw [if_pos h10]
    split <;>
      first
      | (split_ifs <;> simp [LexRes.state, goodEvents_advanceL])
      | simp [LexRes.state, goodEvents_advanceL]
  rw [if_neg h10]
  by_cases h11 : c = '|'
  · rw [if_pos h11]
    split <;>
      first
      | (split_ifs <;> simp [LexRes.state, goodEvents_advanceL])
      | simp [LexRes.state, goodEvents_advanceL]
  rw [if_neg h11]
  by_cases h12 : c = '^'
  · rw [if_pos h12]; simp [LexRes.state, goodEvents_advanceL]
  rw [if_neg h12]
  by_cases h13 : c = '~'
  · rw [if_pos h13]; simp [LexRes.state, goodEvents_advanceL]
  rw [if_neg h13]
  by_cases h14 : c = '('
  · rw [if_pos h14]; simp [LexRes.state, goodEvents_advanceL]
  rw [if_neg h14]
  by_cases h15 : c = ')'
  · rw [if_pos h15]; simp [LexRes.state, goodEvents_advanceL]
  rw [if_neg h15]
  by_cases h16 : c = '{'
  · rw [if_pos h16]; simp [LexRes.state, goodEvents_advanceL]
  rw [if_neg h16]
  by_cases h17 : c = '}'
  · rw [if_pos h17]; simp [LexRes.state, goodEvents_advanceL]
  rw [if_neg h17]
  by_cases h18 : c = '['
  · rw [if_pos h18]; simp [LexRes.state, goodEvents_advanceL]
  rw [if_neg h18]
  by_cases h19 : c = ']'
  · rw [if_pos h19]; simp [LexRes.state, goodEvents_advanceL]
  rw [if_neg h19]
  by_cases h20 : c = ';'
  · rw [if_pos h20]; simp [LexRes.state, goodEvents_advanceL]
  rw [if_neg h20]
  by_cases h21 : c = ','
  · rw [if_pos h21]; simp [LexRes.state, goodEvents_advanceL]
  rw [if_neg h21]
  by_cases h22 : c = '.'
  · rw [if_pos h22]; simp [LexRes.state, goodEvents_advanceL]
  rw [if_neg h22]
  by_cases h23 : c = ':'
  · rw [if_pos h23]
    split <;>
      first
      | (split_ifs <;> simp [LexRes.state, goodEvents_advanceL])
      | simp [LexRes.state, goodEvents_advanceL]
  rw [if_neg h23]
  simp [LexRes.state]

set_option maxHeartbeats 1000000 in
theorem goodEvents_nextToken (fuel : Nat) (s : LexState) :
    goodEvents (nextToken fuel s).state = goodEvents s := by
  induction fuel generalizing s with
  | zero => rfl
  | succ f ih =>
    have hnum := goodEvents_readNumber (s.input.length + 1) s
    have hstr := goodEvents_readString (s.input.length + 1) s
    have hch := goodEvents_readChar s
    have hbc := goodEvents_skipBlockComment (s.input.length + 1) s
    have hid := goodEvents_readIdentifier (s.input.length + 1) s
    have hop := fun c => goodEvents_opToken s s.line s.column c
    unfold nextToken
    dsimp only
    split
    · rfl
    · (repeat' split) <;>
        first
        | rfl
        | simp_all only [LexRes.state, goodEvents_advanceL,
            goodEvents_skipLineComment, ih]

theorem goodEvents_tokenizeLoop (fuel : Nat) (s : LexState) (acc : List Token) :
    goodEvents (tokenizeLoop fuel s acc).state = goodEvents s := by
  induction fuel generalizing s acc with
  | zero => rfl
  | succ f ih =>
    unfold tokenizeLoop
    dsimp only
    have hsw := goodEvents_skipWhitespace (s.input.length + 1) s
    have hnt := goodEvents_nextToken ((skipWhitespace (s.input.length + 1) s).input.length + 1)
      (skipWhitespace (s.input.length + 1) s)
    split
    · simp_all [LexRes.state]
    · split <;> simp_all [LexRes.state]

/-- **C4** (amended): for every input and every character the lexer
consumes, either the newline treatment applies (line incremented, column
reset to 1, and the character is a newline) or the `advance` treatment
applies (column incremented by 1, line unchanged).  The newline treatment
is used by `skip_whitespace` and `skip_block_comment`; characters consumed
inside string and character literals always get the `advance` treatment —
including raw newlines, which therefore increment the column and leave the
line count unchanged. -/
theorem consumed_char_position_accounting (input : List Char) :
    ((tokenize input).state.events).all goodEventB = true := by
  have h := goodEvents_tokenizeLoop (input.length + 2) ⟨input, 0, 1, 1, []⟩ []
  simpa [tokenize, goodEvents] using h

/-- **C4** (counterexample): on the three-character input `"\n"` (a string
literal containing a raw newline) the claim as stated fails: the newline is
consumed inside the string literal, and its recorded consumption event
increments the column (1 → 2 → 3 on line 1) instead of incrementing the
line and resetting the column. -/
theorem consumed_newline_claim_fails :
    ((tokenize ['"', '\n', '"']).state.events).all claimEventB = false := by
  decide

/-- **C3** (code defect): when a multi-character-operator prefix character
is the last character of the input, `next_token` calls `current_char` past
the end of the input and panics (out-of-bounds index) instead of emitting
the single-character operator token.  On the one-character input `-` the
lexer crashes; mid-input the fallback works (here on `1 - 2`, which lexes
without a crash). -/
theorem lexer_crashes_on_trailing_minus :
    (tokenizeStr "-").isCrash = true ∧
    (tokenizeStr "1 - 2").isCrash = false ∧
    (tokenizeStr "=").isCrash = true ∧
    (tokenizeStr "!").isCrash = true ∧
    (tokenizeStr "<").isCrash = true ∧
    (tokenizeStr ">").isCrash = true ∧
    (tokenizeStr "&").isCrash = true ∧
    (tokenizeStr "|").isCrash = true ∧
    (tokenizeStr ":").isCrash = true := by
  refine ⟨by decide, by decide, by decide, by decide, by decide, by decide,
    by decide, by decide, by decide⟩

/-- **C10**: a maximal run of decimal digits whose value exceeds
`i64::MAX` makes `read_number`'s `parse::<i64>().unwrap()` panic: on
twenty consecutive `9` digits `tokenize` crashes (neither a token sequence
nor a lexical error), while `i64::MAX` itself (19 digits) still lexes. -/
theorem lexer_crashes_on_oversized_int_literal :
    (tokenize (List.replicate 20 '9')).isCrash = true ∧
    (tokenizeStr "9223372036854775807").isCrash = false ∧
    (tokenizeStr "9223372036854775808").isCrash = true := by
  refine ⟨by decide, by decide, by decide⟩

/-! ### Code generator: expressions (claims C8, C9) -/

theorem genExpr_preserves (g : CG) (e : Ast) :
    (genExpr g e).1.vars = g.vars ∧
    (genExpr g e).1.labelCounter = g.labelCounter ∧
    (genExpr g e).1.stackOffset = g.stackOffset ∧
    (genExpr g e).1.maxOff = g.maxOff ∧
    (genExpr g e).1.loopStack = g.loopStack := by
  induction g, e using genExpr.induct <;> simp_all [genExpr]

theorem varGet_insert_self (m : List (String × Int)) (k : String) (v : Int) :
    varGet (varInsert m k v) k = some v := by
  simp [varGet, varInsert, List.find?]

/-- **C8**: a binary operation evaluates the right operand first (its code
and string-pool effects come first), pushes the accumulator, then
evaluates the left operand, pops into the secondary register, and appends
the operator's instruction sequence.  Concretely, `1 + 2` loads 2 first. -/
theorem binary_op_evaluates_right_then_left :
    (∀ (g : CG) (l : Ast) (op : String) (r : Ast),
      genExpr g (.binaryOp l op r) =
        ((genExpr (genExpr g r).1 l).1,
         (genExpr g r).2 ++ [.pushRax] ++ (genExpr (genExpr g r).1 l).2
           ++ [.popRcx] ++ opInstrs op)) ∧
    genExpr initCG (.binaryOp (.lit (.intL 1)) "+" (.lit (.intL 2))) =
      (initCG, [.movRaxImm 2, .pushRax, .movRaxImm 1, .popRcx, .addRaxRcx]) := by
  refine ⟨fun g l op r => ?_, by decide⟩
  show genExpr g (.binaryOp l op r) = _
  cases hr : genExpr g r with
  | mk g1 ra =>
    cases hl : genExpr g1 l with
    | mk g2 la => simp [genExpr, hr, hl]

set_option maxHeartbeats 1600000 in
/-- **C9**: a `print` call whose first argument is a string literal appends
that literal plus a trailing newline to the string pool (index = current
pool length, no deduplication) and loads that entry's symbol into the
first argument register; two identical `print("hi")` calls produce two
distinct pool entries rendered as two data-section symbols in insertion
order. -/
theorem print_string_literal_interning :
    (∀ (g : CG) (s : String) (rest : AstList),
      genExpr g (.call "print" (.consA (.lit (.strL s)) rest)) =
        ({ g with stringLits := g.stringLits ++ [s ++ "\n"] },
         [.leaRcxStr g.stringLits.length, .subRsp 32, .callPrintf, .addRsp 32])) ∧
    (genAsmNode initCG astTwoPrints).1.stringLits = ["hi\n", "hi\n"] ∧
    toAssembly astTwoPrints =
      "section .data\n    str_0: db `hi\\n`, 0\n    str_1: db `hi\\n`, 0\n\nsection .bss\n\nsection .text\n    global main\n    extern ExitProcess\n    extern printf\n\nmain:\n    push rbp\n    mov rbp, rsp\n    sub rsp, 32\n\n    lea rcx, [rel str_0]\n    sub rsp, 32\n    call printf\n    add rsp, 32\n    lea rcx, [rel str_1]\n    sub rsp, 32\n    call printf\n    add rsp, 32\n    xor eax, eax\n    leave\n    ret\n\n" := by
  refine ⟨fun g s rest => by simp [genExpr], by decide, ?_⟩
  set_option maxRecDepth 4000 in decide

/-! ### Code generator: stack offsets (claims C1, C2) -/

set_option maxHeartbeats 1600000 in
/-- **C2** (counterexample): the offset counter IS decremented by 8 when a
`for` statement's emission ends (start at offset 0: during the loop the
counter reaches 16, afterwards it is back at 8), and declared variables
can collide: in `for (i in 0..1) { let a = 1; } let b = 2;` both `a` and
`b` are assigned offset 24. -/
theorem stack_offset_decrement_counterexample :
    (genStmt (funcStartCG initCG) forOnlyStmt).1.stackOffset = 8 ∧
    (genStmt (funcStartCG initCG) forOnlyStmt).1.maxOff = 16 ∧
    varGet (genStmts (funcStartCG initCG) bodyOffsetClash).1.vars "a" = some 24 ∧
    varGet (genStmts (funcStartCG initCG) bodyOffsetClash).1.vars "b" = some 24 := by
  refine ⟨by decide, by decide, by decide, by decide⟩

/-- **C5**: `for` lowering materializes the range start into the
iterator's slot and the range end into a hidden bound slot, then at the
loop head loads both, compares, and jumps to the end label with `jg` for
inclusive (`...`) ranges and `jge` for exclusive (`..`) ranges (general
shape, first conjunct).  The lexer turns `0..3` into int/dot/dot/int and
`0...3` into int/dot/dot/dot/int; `parse_for` maps two dots to
`inclusive = false` and three to `inclusive = true`; and running the
generated code of `fn main() { for (i in 0..3) { } }` enters the body
for i ∈ {0, 1, 2} while the `0...3` variant enters it for i ∈ {0, 1, 2, 3}. -/
theorem for_range_lowering :
    (∀ (g : CG) (it : String) (rs re : Ast) (incl : Bool) (body : AstList),
      (genStmt g (.forS it rs re incl body)).2 =
        (let startL := mkLabel g.labelCounter
         let endL := mkLabel (g.labelCounter + 1)
         let g0 := { g with labelCounter := g.labelCounter + 2 }
         let p1 := genExpr g0 rs
         let iterOff := p1.1.stackOffset + 8
         let g1 := { p1.1 with stackOffset := iterOff,
                               maxOff := max p1.1.maxOff iterOff,
                               vars := varInsert p1.1.vars it iterOff }
         let p2 := genExpr g1 re
         let endOff := p2.1.stackOffset + 8
         let g2 := { p2.1 with stackOffset := endOff,
                               maxOff := max p2.1.maxOff endOff,
                               loopStack := (endL, startL) :: p2.1.loopStack }
         p1.2 ++ [.movFrameRax iterOff] ++ p2.2 ++ [.movFrameRax endOff]
           ++ [.label startL, .movRaxFrame iterOff, .movRcxFrame endOff, .cmpRaxRcx]
           ++ [if incl then .jg endL else .jge endL]
           ++ (genStmts g2 body).2
           ++ [.movRaxFrame iterOff, .incRax, .movFrameRax iterOff,
               .jmp startL, .label endL])) ∧
    tokViews (tokenizeStr "0..3") =
      some [(35, 0, "", 1, 1), (70, 0, "", 1, 2), (70, 0, "", 1, 3),
            (35, 3, "", 1, 4), (75, 0, "", 1, 5)] ∧
    tokViews (tokenizeStr "0...3") =
      some [(35, 0, "", 1, 1), (70, 0, "", 1, 2), (70, 0, "", 1, 3),
            (70, 0, "", 1, 4), (35, 3, "", 1, 5), (75, 0, "", 1, 6)] ∧
    forInclFlag (parseFor 30 ⟨forHeadToks, 0⟩) = some false ∧
    forInclFlag (parseFor 30 ⟨forHeadToks3, 0⟩) = some true ∧
    analyzeOk (astForEx false) = true ∧
    analyzeOk (astForEx true) = true ∧
    runBodyLog 200 (astForEx false) = [0, 1, 2] ∧
    runBodyLog 200 (astForEx true) = [0, 1, 2, 3] ∧
    toAssembly (astForEx false) =
      "section .data\n\nsection .bss\n\nsection .text\n    global main\n    extern ExitProcess\n    extern printf\n\nmain:\n    push rbp\n    mov rbp, rsp\n    sub rsp, 48\n\n    mov rax, 0\n    mov [rbp-8], rax\n    mov rax, 3\n    mov [rbp-16], rax\nL0:\n    mov rax, [rbp-8]\n    mov rcx, [rbp-16]\n    cmp rax, rcx\n    jge L1\n    mov rax, [rbp-8]\n    inc rax\n    mov [rbp-8], rax\n    jmp L0\nL1:\n    xor eax, eax\n    leave\n    ret\n\n" ∧
    toAssembly (astForEx true) =
      "section .data\n\nsection .bss\n\nsection .text\n    global main\n    extern ExitProcess\n    extern printf\n\nmain:\n    push rbp\n    mov rbp, rsp\n    sub rsp, 48\n\n    mov rax, 0\n    mov [rbp-8], rax\n    mov rax, 3\n    mov [rbp-16], rax\nL0:\n    mov rax, [rbp-8]\n    mov rcx, [rbp-16]\n    cmp rax, rcx\n    jg L1\n    mov rax, [rbp-8]\n    inc rax\n    mov [rbp-8], rax\n    jmp L0\nL1:\n    xor eax, eax\n    leave\n    ret\n\n" := by
  refine ⟨fun g it rs re incl body => ?_, by decide, by decide, by decide, by decide,
    by decide, by decide, by decide, by decide,
    by set_option maxRecDepth 4000 in decide,
    by set_option maxRecDepth 4000 in decide⟩
  have hv := genExpr_preserves
  cases hp1 : genExpr { g with labelCounter := g.labelCounter + 2 } rs with
  | mk gA sa =>
    cases hp2 : genExpr ({ gA with stackOffset := gA.stackOffset + 8, maxOff := max gA.maxOff (gA.stackOffset + 8), vars := varInsert gA.vars it (gA.stackOffset + 8) }) re with
    | mk gB ea =>
      have hgB : gB.vars = varInsert gA.vars it (gA.stackOffset + 8) := by
        have h5 := (hv ({ gA with stackOffset := gA.stackOffset + 8, maxOff := max gA.maxOff (gA.stackOffset + 8), vars := varInsert gA.vars it (gA.stackOffset + 8) }) re).1
        rw [hp2] at h5
        simpa using h5
      cases hb : genStmts ({ gB with stackOffset := gB.stackOffset + 8, maxOff := max gB.maxOff (gB.stackOffset + 8), loopStack := (mkLabel (g.labelCounter + 1), mkLabel g.labelCounter) :: gB.loopStack }) body with
      | mk gC ba =>
        simp only [genStmt, hp1, hp2, hb]
        rw [hgB, varGet_insert_self]
        simp


/-! ### Stack-offset evolution and peak bounds (claims C1, C2) -/

mutual

theorem genStmt_offset (n : Ast) (g : CG) :
    (genStmt g n).1.stackOffset = g.stackOffset + 8 * (netSlotsS n : Int) := by
  cases n with
  | varDecl name ty value mu =>
    cases value with
    | someA v =>
      cases hv : genExpr g v with
      | mk g1 va =>
        have hp := (genExpr_preserves g v).2.2.1
        rw [hv] at hp; simp only [Prod.fst] at hp
        simp [genStmt, hv, netSlotsS, hp]
    | noneA => simp [genStmt, netSlotsS]
  | constDecl name ty v =>
    cases hv : genExpr g v with
    | mk g1 va =>
      have hp := (genExpr_preserves g v).2.2.1
      rw [hv] at hp; simp only [Prod.fst] at hp
      simp [genStmt, hv, netSlotsS, hp]
  | retS value =>
    cases value with
    | someA v =>
      cases hv : genExpr g v with
      | mk g1 va =>
        have hp := (genExpr_preserves g v).2.2.1
        rw [hv] at hp; simp only [Prod.fst] at hp
        simp [genStmt, hv, netSlotsS, hp]
    | noneA => simp [genStmt, netSlotsS]
  | assign target v =>
    cases hv : genExpr g v with
    | mk g1 va =>
      have hp := (genExpr_preserves g v).2.2.1
      rw [hv] at hp; simp only [Prod.fst] at hp
      simp only [genStmt, hv]
      cases varGet g1.vars target <;> simp [netSlotsS, hp]
  | ifS cond thenB elseB =>
    cases hc : genExpr { g with labelCounter := g.labelCounter + 2 } cond with
    | mk g1 ca =>
      have hp := (genExpr_preserves { g with labelCounter := g.labelCounter + 2 } cond).2.2.1
      rw [hc] at hp; simp only [Prod.fst] at hp
      cases ht : genStmts g1 thenB with
      | mk g2 ta =>
        have h2 := genStmts_offset thenB g1
        rw [ht] at h2
        cases elseB with
        | someL eb =>
          cases he : genStmts g2 eb with
          | mk g3 ea =>
            have h3 := genStmts_offset eb g2
            rw [he] at h3
            simp [genStmt, hc, ht, he, netSlotsS] at *
            omega
        | noneL =>
          simp [genStmt, hc, ht, netSlotsS] at *
          omega
  | whileS cond body =>
    cases hc : genExpr { g with labelCounter := g.labelCounter + 2, loopStack := (mkLabel (g.labelCounter + 1), mkLabel g.labelCounter) :: g.loopStack } cond with
    | mk g1 ca =>
      have hp := (genExpr_preserves { g with labelCounter := g.labelCounter + 2, loopStack := (mkLabel (g.labelCounter + 1), mkLabel g.labelCounter) :: g.loopStack } cond).2.2.1
      rw [hc] at hp; simp only [Prod.fst] at hp
      cases hb : genStmts g1 body with
      | mk g2 ba =>
        have h2 := genStmts_offset body g1
        rw [hb] at h2
        simp [genStmt, hc, hb, netSlotsS] at *
        omega
  | forS it rs re incl body =>
    cases h1 : genExpr { g with labelCounter := g.labelCounter + 2 } rs with
    | mk gA sa =>
      have hpA := (genExpr_preserves { g with labelCounter := g.labelCounter + 2 } rs).2.2.1
      rw [h1] at hpA; simp only [Prod.fst] at hpA
      cases h2 : genExpr ({ gA with stackOffset := gA.stackOffset + 8, maxOff := max gA.maxOff (gA.stackOffset + 8), vars := varInsert gA.vars it (gA.stackOffset + 8) }) re with
      | mk gB ea =>
        have hpB := (genExpr_preserves ({ gA with stackOffset := gA.stackOffset + 8, maxOff := max gA.maxOff (gA.stackOffset + 8), vars := varInsert gA.vars it (gA.stackOffset + 8) }) re).2.2.1
        rw [h2] at hpB; simp only [Prod.fst] at hpB
        cases h3 : genStmts ({ gB with stackOffset := gB.stackOffset + 8, maxOff := max gB.maxOff (gB.stackOffset + 8), loopStack := (mkLabel (g.labelCounter + 1), mkLabel g.labelCounter) :: gB.loopStack }) body with
        | mk gC ba =>
          have hb := genStmts_offset body ({ gB with stackOffset := gB.stackOffset + 8, maxOff := max gB.maxOff (gB.stackOffset + 8), loopStack := (mkLabel (g.labelCounter + 1), mkLabel g.labelCounter) :: gB.loopStack })
          rw [h3] at hb
          simp [genStmt, h1, h2, h3, netSlotsS] at *
          omega
  | loopS body =>
    cases hb : genStmts ({ g with labelCounter := g.labelCounter + 2, loopStack := (mkLabel (g.labelCounter + 1), mkLabel g.labelCounter) :: g.loopStack }) body with
    | mk g2 ba =>
      have h2 := genStmts_offset body ({ g with labelCounter := g.labelCounter + 2, loopStack := (mkLabel (g.labelCounter + 1), mkLabel g.labelCounter) :: g.loopStack })
      rw [hb] at h2
      simp [genStmt, hb, netSlotsS] at *
      omega
  | breakS =>
    simp only [genStmt]
    cases g.loopStack.head? <;> simp [netSlotsS]
  | continueS =>
    simp only [genStmt]
    cases g.loopStack.head? <;> simp [netSlotsS]
  | moduleA name items =>
    have hp := (genExpr_preserves g (.moduleA name items)).2.2.1
    simp [genStmt, netSlotsS, hp]
  | func name params ret body =>
    have hp := (genExpr_preserves g (.func name params ret body)).2.2.1
    simp [genStmt, netSlotsS, hp]
  | binaryOp l op r =>
    have hp := (genExpr_preserves g (.binaryOp l op r)).2.2.1
    simp [genStmt, netSlotsS, hp]
  | unaryOp op e =>
    have hp := (genExpr_preserves g (.unaryOp op e)).2.2.1
    simp [genStmt, netSlotsS, hp]
  | lit l =>
    have hp := (genExpr_preserves g (.lit l)).2.2.1
    simp [genStmt, netSlotsS, hp]
  | ident x =>
    have hp := (genExpr_preserves g (.ident x)).2.2.1
    simp [genStmt, netSlotsS, hp]
  | call f args =>
    have hp := (genExpr_preserves g (.call f args)).2.2.1
    simp [genStmt, netSlotsS, hp]
  | arrayLit elems =>
    have hp := (genExpr_preserves g (.arrayLit elems)).2.2.1
    simp [genStmt, netSlotsS, hp]
  | arrayRepeat v c =>
    have hp := (genExpr_preserves g (.arrayRepeat v c)).2.2.1
    simp [genStmt, netSlotsS, hp]
  | arrayIndex a i =>
    have hp := (genExpr_preserves g (.arrayIndex a i)).2.2.1
    simp [genStmt, netSlotsS, hp]

theorem genStmts_offset (l : AstList) (g : CG) :
    (genStmts g l).1.stackOffset = g.stackOffset + 8 * (netSlots l : Int) := by
  cases l with
  | nilA => simp [genStmts, netSlots]
  | consA n rest =>
    cases hn : genStmt g n with
    | mk g1 a =>
      have h1 := genStmt_offset n g
      rw [hn] at h1
      cases hr : genStmts g1 rest with
      | mk g2 b =>
        have h2 := genStmts_offset rest g1
        rw [hr] at h2
        simp [genStmts, hn, hr, netSlots] at *
        omega

end


theorem calcCount_cons (s : Ast) (rest : AstList) :
    calcCount (.consA s rest) = calcCountS s + calcCount rest := by
  cases s <;> try rfl
  rename_i c t e
  cases e <;> rfl

mutual

theorem netSlotsS_le (n : Ast) : netSlotsS n ≤ calcCountS n := by
  cases n with
  | forS it rs re incl b =>
    have := netSlots_le b
    simp [netSlotsS, calcCountS]
    omega
  | whileS c b =>
    have := netSlots_le b
    simp [netSlotsS, calcCountS]
    omega
  | loopS b =>
    have := netSlots_le b
    simp [netSlotsS, calcCountS]
    omega
  | ifS c t e =>
    have h1 := netSlots_le t
    cases e with
    | someL eb =>
      have h2 := netSlots_le eb
      simp [netSlotsS, calcCountS]
      omega
    | noneL =>
      simp [netSlotsS, calcCountS]
      omega
  | varDecl a b c d => simp [netSlotsS, calcCountS]
  | constDecl a b c => simp [netSlotsS, calcCountS]
  | moduleA a b => simp [netSlotsS, calcCountS]
  | func a b c d => simp [netSlotsS, calcCountS]
  | retS a => simp [netSlotsS, calcCountS]
  | binaryOp a b c => simp [netSlotsS, calcCountS]
  | unaryOp a b => simp [netSlotsS, calcCountS]
  | lit a => simp [netSlotsS, calcCountS]
  | ident a => simp [netSlotsS, calcCountS]
  | call a b => simp [netSlotsS, calcCountS]
  | assign a b => simp [netSlotsS, calcCountS]
  | arrayLit a => simp [netSlotsS, calcCountS]
  | arrayRepeat a b => simp [netSlotsS, calcCountS]
  | arrayIndex a b => simp [netSlotsS, calcCountS]
  | breakS => simp [netSlotsS, calcCountS]
  | continueS => simp [netSlotsS, calcCountS]

theorem netSlots_le (l : AstList) : netSlots l ≤ calcCount l := by
  cases l with
  | nilA => simp [netSlots, calcCount]
  | consA s rest =>
    have h1 := netSlotsS_le s
    have h2 := netSlots_le rest
    rw [calcCount_cons]
    simp [netSlots]
    omega

end

mutual

theorem genStmt_maxOff_mono (n : Ast) (g : CG) :
    g.maxOff ≤ (genStmt g n).1.maxOff := by
  cases n with
  | varDecl name ty value mu =>
    cases value with
    | someA v =>
      cases hv : genExpr g v with
      | mk g1 va =>
        have hp := (genExpr_preserves g v).2.2.2.1
        rw [hv] at hp; simp only [Prod.fst] at hp
        simp [genStmt, hv, ← hp, le_max_iff]
    | noneA => simp [genStmt, le_max_iff]
  | constDecl name ty v =>
    cases hv : genExpr g v with
    | mk g1 va =>
      have hp := (genExpr_preserves g v).2.2.2.1
      rw [hv] at hp; simp only [Prod.fst] at hp
      simp [genStmt, hv, ← hp, le_max_iff]
  | retS value =>
    cases value with
    | someA v =>
      cases hv : genExpr g v with
      | mk g1 va =>
        have hp := (genExpr_preserves g v).2.2.2.1
        rw [hv] at hp; simp only [Prod.fst] at hp
        simp [genStmt, hv, hp]
    | noneA => simp [genStmt]
  | assign target v =>
    cases hv : genExpr g v with
    | mk g1 va =>
      have hp := (genExpr_preserves g v).2.2.2.1
      rw [hv] at hp; simp only [Prod.fst] at hp
      simp only [genStmt, hv]
      cases varGet g1.vars target <;> simp [hp]
  | ifS cond thenB elseB =>
    cases hc : genExpr { g with labelCounter := g.labelCounter + 2 } cond with
    | mk g1 ca =>
      have hp := (genExpr_preserves { g with labelCounter := g.labelCounter + 2 } cond).2.2.2.1
      rw [hc] at hp; simp only [Prod.fst] at hp
      cases ht : genStmts g1 thenB with
      | mk g2 ta =>
        have h2 := genStmts_maxOff_mono thenB g1
        rw [ht] at h2; simp only [Prod.fst] at h2
        cases elseB with
        | someL eb =>
          cases he : genStmts g2 eb with
          | mk g3 ea =>
            have h3 := genStmts_maxOff_mono eb g2
            rw [he] at h3; simp only [Prod.fst] at h3
            simp [genStmt, hc, ht, he] at *
            omega
        | noneL =>
          simp [genStmt, hc, ht] at *
          omega
  | whileS cond body =>
    cases hc : genExpr ({ g with labelCounter := g.labelCounter + 2, loopStack := (mkLabel (g.labelCounter + 1), mkLabel g.labelCounter) :: g.loopStack }) cond with
    | mk g1 ca =>
      have hp := (genExpr_preserves ({ g with labelCounter := g.labelCounter + 2, loopStack := (mkLabel (g.labelCounter + 1), mkLabel g.labelCounter) :: g.loopStack }) cond).2.2.2.1
      rw [hc] at hp; simp only [Prod.fst] at hp
      cases hb : genStmts g1 body with
      | mk g2 ba =>
        have h2 := genStmts_maxOff_mono body g1
        rw [hb] at h2; simp only [Prod.fst] at h2
        simp [genStmt, hc, hb] at *
        omega
  | forS it rs re incl body =>
    cases h1 : genExpr { g with labelCounter := g.labelCounter + 2 } rs with
    | mk gA sa =>
      have hpA := (genExpr_preserves { g with labelCounter := g.labelCounter + 2 } rs).2.2.2.1
      rw [h1] at hpA; simp only [Prod.fst] at hpA
      cases h2 : genExpr ({ gA with stackOffset := gA.stackOffset + 8, maxOff := max gA.maxOff (gA.stackOffset + 8), vars := varInsert gA.vars it (gA.stackOffset + 8) }) re with
      | mk gB ea =>
        have hpB := (genExpr_preserves ({ gA with stackOffset := gA.stackOffset + 8, maxOff := max gA.maxOff (gA.stackOffset + 8), vars := varInsert gA.vars it (gA.stackOffset + 8) }) re).2.2.2.1
        rw [h2] at hpB; simp only [Prod.fst] at hpB
        cases h3 : genStmts ({ gB with stackOffset := gB.stackOffset + 8, maxOff := max gB.maxOff (gB.stackOffset + 8), loopStack := (mkLabel (g.labelCounter + 1), mkLabel g.labelCounter) :: gB.loopStack }) body with
        | mk gC ba =>
          have hb := genStmts_maxOff_mono body ({ gB with stackOffset := gB.stackOffset + 8, maxOff := max gB.maxOff (gB.stackOffset + 8), loopStack := (mkLabel (g.labelCounter + 1), mkLabel g.labelCounter) :: gB.loopStack })
          rw [h3] at hb; simp only [Prod.fst] at hb
          simp only [genStmt, h1, h2, h3]
          simp at hpA hpB hb ⊢
          simp [max_def] at *
          split_ifs at * <;> omega
  | loopS body =>
    cases hb : genStmts ({ g with labelCounter := g.labelCounter + 2, loopStack := (mkLabel (g.labelCounter + 1), mkLabel g.labelCounter) :: g.loopStack }) body with
    | mk g2 ba =>
      have h2 := genStmts_maxOff_mono body ({ g with labelCounter := g.labelCounter + 2, loopStack := (mkLabel (g.labelCounter + 1), mkLabel g.labelCounter) :: g.loopStack })
      rw [hb] at h2; simp only [Prod.fst] at h2
      simp [genStmt, hb] at *
      omega
  | breakS =>
    simp only [genStmt]
    cases g.loopStack.head? <;> simp
  | continueS =>
    simp only [genStmt]
    cases g.loopStack.head? <;> simp
  | moduleA name items =>
    have hp := (genExpr_preserves g (.moduleA name items)).2.2.2.1
    simp [genStmt, hp]
  | func name params ret body =>
    have hp := (genExpr_preserves g (.func name params ret body)).2.2.2.1
    simp [genStmt, hp]
  | binaryOp l op r =>
    have hp := (genExpr_preserves g (.binaryOp l op r)).2.2.2.1
    simp [genStmt, hp]
  | unaryOp op e =>
    have hp := (genExpr_preserves g (.unaryOp op e)).2.2.2.1
    simp [genStmt, hp]
  | lit l =>
    have hp := (genExpr_preserves g (.lit l)).2.2.2.1
    simp [genStmt, hp]
  | ident x =>
    have hp := (genExpr_preserves g (.ident x)).2.2.2.1
    simp [genStmt, hp]
  | call f args =>
    have hp := (genExpr_preserves g (.call f args)).2.2.2.1
    simp [genStmt, hp]
  | arrayLit elems =>
    have hp := (genExpr_preserves g (.arrayLit elems)).2.2.2.1
    simp [genStmt, hp]
  | arrayRepeat v c =>
    have hp := (genExpr_preserves g (.arrayRepeat v c)).2.2.2.1
    simp [genStmt, hp]
  | arrayIndex a i =>
    have hp := (genExpr_preserves g (.arrayIndex a i)).2.2.2.1
    simp [genStmt, hp]

theorem genStmts_maxOff_mono (l : AstList) (g : CG) :
    g.maxOff ≤ (genStmts g l).1.maxOff := by
  cases l with
  | nilA => simp [genStmts]
  | consA n rest =>
    cases hn : genStmt g n with
    | mk g1 a =>
      have h1 := genStmt_maxOff_mono n g
      rw [hn] at h1; simp only [Prod.fst] at h1
      cases hr : genStmts g1 rest with
      | mk g2 b =>
        have h2 := genStmts_maxOff_mono rest g1
        rw [hr] at h2; simp only [Prod.fst] at h2
        simp [genStmts, hn, hr]
        omega

end


/-! ### Peak stack usage bound (claim C1) -/

theorem roundSlots_ge (c : Nat) : c ≤ ((c * 8 + 15) / 16) * 16 := by omega

mutual

theorem genStmt_peak (n : Ast) (g : CG) (h0 : 0 ≤ g.stackOffset)
    (hm : g.stackOffset ≤ g.maxOff) :
    (genStmt g n).1.maxOff ≤ max g.maxOff (g.stackOffset + 8 * (calcCountS n : Int) + 8) ∧
    ((calcCountS n : Int) = 0 → (genStmt g n).1.maxOff ≤ g.maxOff) ∧
    (genStmt g n).1.stackOffset ≤ (genStmt g n).1.maxOff := by
  cases n with
  | varDecl name ty value mu =>
    cases value with
    | someA v =>
      cases hv : genExpr g v with
      | mk g1 va =>
        have hp := genExpr_preserves g v
        rw [hv] at hp; simp only [Prod.fst] at hp
        simp [genStmt, hv, calcCountS, hp.2.2.1, hp.2.2.2.1]
        try simp [sup_eq_max, max_def] at *
        try split_ifs at *
        all_goals omega
    | noneA =>
      simp [genStmt, calcCountS]
      try simp [sup_eq_max, max_def] at *
      try split_ifs at *
      all_goals omega
  | constDecl name ty v =>
    cases hv : genExpr g v with
    | mk g1 va =>
      have hp := genExpr_preserves g v
      rw [hv] at hp; simp only [Prod.fst] at hp
      simp [genStmt, hv, calcCountS, hp.2.2.1, hp.2.2.2.1]
      try simp [sup_eq_max, max_def] at *
      try split_ifs at *
      all_goals omega
  | retS value =>
    cases value with
    | someA v =>
      cases hv : genExpr g v with
      | mk g1 va =>
        have hp := genExpr_preserves g v
        rw [hv] at hp; simp only [Prod.fst] at hp
        simp [genStmt, hv, calcCountS, hp.2.2.1, hp.2.2.2.1]
        try simp [sup_eq_max, max_def] at *
        try split_ifs at *
        all_goals omega
    | noneA =>
      simp [genStmt, calcCountS]
      try simp [sup_eq_max, max_def] at *
      try split_ifs at *
      all_goals omega
  | assign target v =>
    cases hv : genExpr g v with
    | mk g1 va =>
      have hp := genExpr_preserves g v
      rw [hv] at hp; simp only [Prod.fst] at hp
      simp only [genStmt, hv]
      cases varGet g1.vars target <;>
        · simp [calcCountS, hp.2.2.1, hp.2.2.2.1]
          try simp [sup_eq_max, max_def] at *
          try split_ifs at *
          all_goals omega
  | ifS cond thenB elseB =>
    cases hc : genExpr { g with labelCounter := g.labelCounter + 2 } cond with
    | mk g1 ca =>
      have hp := genExpr_preserves { g with labelCounter := g.labelCounter + 2 } cond
      rw [hc] at hp; simp only [Prod.fst] at hp
      have hpo : g1.stackOffset = g.stackOffset := hp.2.2.1
      have hpm : g1.maxOff = g.maxOff := hp.2.2.2.1
      cases ht : genStmts g1 thenB with
      | mk g2 ta =>
        have iht := genStmts_peak thenB g1 (by omega) (by omega)
        rw [ht] at iht; simp only [Prod.fst] at iht
        have hot := genStmts_offset thenB g1
        rw [ht] at hot; simp only [Prod.fst] at hot
        have hnt := netSlots_le thenB
        cases elseB with
        | someL eb =>
          cases he : genStmts g2 eb with
          | mk g3 ea =>
            have ihe := genStmts_peak eb g2 (by simp [hot, hpo]; omega) (by omega)
            rw [he] at ihe; simp only [Prod.fst] at ihe
            have hoe := genStmts_offset eb g2
            rw [he] at hoe; simp only [Prod.fst] at hoe
            have hne := netSlots_le eb
            have hrt := roundSlots_ge (calcCount thenB)
            have hre := roundSlots_ge (calcCount eb)
            simp only [genStmt, hc, ht, he]
            simp only [calcCountS]
            clear hc ht he
            simp at iht ihe ⊢
            try simp [sup_eq_max, max_def] at *
            try split_ifs at *
            all_goals omega
        | noneL =>
          have hrt := roundSlots_ge (calcCount thenB)
          simp only [genStmt, hc, ht]
          simp only [calcCountS]
          clear hc ht
          simp at iht ⊢
          try simp [sup_eq_max, max_def] at *
          try split_ifs at *
          all_goals omega
  | whileS cond body =>
    cases hc : genExpr ({ g with labelCounter := g.labelCounter + 2, loopStack := (mkLabel (g.labelCounter + 1), mkLabel g.labelCounter) :: g.loopStack }) cond with
    | mk g1 ca =>
      have hp := genExpr_preserves ({ g with labelCounter := g.labelCounter + 2, loopStack := (mkLabel (g.labelCounter + 1), mkLabel g.labelCounter) :: g.loopStack }) cond
      rw [hc] at hp; simp only [Prod.fst] at hp
      have hpo : g1.stackOffset = g.stackOffset := hp.2.2.1
      have hpm : g1.maxOff = g.maxOff := hp.2.2.2.1
      cases hb : genStmts g1 body with
      | mk g2 ba =>
        have ihb := genStmts_peak body g1 (by omega) (by omega)
        rw [hb] at ihb; simp only [Prod.fst] at ihb
        have hrb := roundSlots_ge (calcCount body)
        simp only [genStmt, hc, hb]
        simp only [calcCountS]
        clear hc hb
        simp at ihb ⊢
        try simp [sup_eq_max, max_def] at *
        try split_ifs at *
        all_goals omega
  | forS it rs re incl body =>
    cases h1 : genExpr { g with labelCounter := g.labelCounter + 2 } rs with
    | mk gA sa =>
      have hpA := genExpr_preserves { g with labelCounter := g.labelCounter + 2 } rs
      rw [h1] at hpA; simp only [Prod.fst] at hpA
      have hAo : gA.stackOffset = g.stackOffset := hpA.2.2.1
      have hAm : gA.maxOff = g.maxOff := hpA.2.2.2.1
      cases h2 : genExpr ({ gA with stackOffset := gA.stackOffset + 8, maxOff := max gA.maxOff (gA.stackOffset + 8), vars := varInsert gA.vars it (gA.stackOffset + 8) }) re with
      | mk gB ea =>
        have hpB := genExpr_preserves ({ gA with stackOffset := gA.stackOffset + 8, maxOff := max gA.maxOff (gA.stackOffset + 8), vars := varInsert gA.vars it (gA.stackOffset + 8) }) re
        rw [h2] at hpB; simp only [Prod.fst] at hpB
        have hBo : gB.stackOffset = gA.stackOffset + 8 := hpB.2.2.1
        have hBm : gB.maxOff = max gA.maxOff (gA.stackOffset + 8) := hpB.2.2.2.1
        cases h3 : genStmts ({ gB with stackOffset := gB.stackOffset + 8, maxOff := max gB.maxOff (gB.stackOffset + 8), loopStack := (mkLabel (g.labelCounter + 1), mkLabel g.labelCounter) :: gB.loopStack }) body with
        | mk gC ba =>
          have ihb := genStmts_peak body ({ gB with stackOffset := gB.stackOffset + 8, maxOff := max gB.maxOff (gB.stackOffset + 8), loopStack := (mkLabel (g.labelCounter + 1), mkLabel g.labelCounter) :: gB.loopStack }) (by simp; omega) (by simp [le_max_iff])
          rw [h3] at ihb; simp only [Prod.fst] at ihb
          have hob := genStmts_offset body ({ gB with stackOffset := gB.stackOffset + 8, maxOff := max gB.maxOff (gB.stackOffset + 8), loopStack := (mkLabel (g.labelCounter + 1), mkLabel g.labelCounter) :: gB.loopStack })
          rw [h3] at hob; simp only [Prod.fst] at hob
          have hrb := roundSlots_ge (calcCount body)
          simp only [genStmt, h1, h2, h3]
          simp only [calcCountS]
          clear h1 h2 h3
          simp at ihb hob ⊢
          try simp [sup_eq_max, max_def] at *
          try split_ifs at *
          all_goals omega
  | loopS body =>
    cases hb : genStmts ({ g with labelCounter := g.labelCounter + 2, loopStack := (mkLabel (g.labelCounter + 1), mkLabel g.labelCounter) :: g.loopStack }) body with
    | mk g2 ba =>
      have ihb := genStmts_peak body ({ g with labelCounter := g.labelCounter + 2, loopStack := (mkLabel (g.labelCounter + 1), mkLabel g.labelCounter) :: g.loopStack }) (by simpa using h0) (by simpa using hm)
      rw [hb] at ihb; simp only [Prod.fst] at ihb
      have hrb := roundSlots_ge (calcCount body)
      simp only [genStmt, hb]
      simp only [calcCountS]
      clear hb
      simp at ihb ⊢
      try simp [sup_eq_max, max_def] at *
      try split_ifs at *
      all_goals omega
  | breakS =>
    simp only [genStmt]
    cases g.loopStack.head? <;>
      · simp [calcCountS]
        try simp [sup_eq_max, max_def] at *
        try split_ifs at *
        all_goals omega
  | continueS =>
    simp only [genStmt]
    cases g.loopStack.head? <;>
      · simp [calcCountS]
        try simp [sup_eq_max, max_def] at *
        try split_ifs at *
        all_goals omega
  | moduleA a b =>
    have hp := genExpr_preserves g (.moduleA a b)
    simp [genStmt, calcCountS, hp.2.2.1, hp.2.2.2.1]
    try simp [sup_eq_max, max_def] at *
    try split_ifs at *
    all_goals omega
  | func a b c d =>
    have hp := genExpr_preserves g (.func a b c d)
    simp [genStmt, calcCountS, hp.2.2.1, hp.2.2.2.1]
    try simp [sup_eq_max, max_def] at *
    try split_ifs at *
    all_goals omega
  | binaryOp a b c =>
    have hp := genExpr_preserves g (.binaryOp a b c)
    simp [genStmt, calcCountS, hp.2.2.1, hp.2.2.2.1]
    try simp [sup_eq_max, max_def] at *
    try split_ifs at *
    all_goals omega
  | unaryOp a b =>
    have hp := genExpr_preserves g (.unaryOp a b)
    simp [genStmt, calcCountS, hp.2.2.1, hp.2.2.2.1]
    try simp [sup_eq_max, max_def] at *
    try split_ifs at *
    all_goals omega
  | lit a =>
    have hp := genExpr_preserves g (.lit a)
    simp [genStmt, calcCountS, hp.2.2.1, hp.2.2.2.1]
    try simp [sup_eq_max, max_def] at *
    try split_ifs at *
    all_goals omega
  | ident a =>
    have hp := genExpr_preserves g (.ident a)
    simp [genStmt, calcCountS, hp.2.2.1, hp.2.2.2.1]
    try simp [sup_eq_max, max_def] at *
    try split_ifs at *
    all_goals omega
  | call a b =>
    have hp := genExpr_preserves g (.call a b)
    simp [genStmt, calcCountS, hp.2.2.1, hp.2.2.2.1]
    try simp [sup_eq_max, max_def] at *
    try split_ifs at *
    all_goals omega
  | arrayLit a =>
    have hp := genExpr_preserves g (.arrayLit a)
    simp [genStmt, calcCountS, hp.2.2.1, hp.2.2.2.1]
    try simp [sup_eq_max, max_def] at *
    try split_ifs at *
    all_goals omega
  | arrayRepeat a b =>
    have hp := genExpr_preserves g (.arrayRepeat a b)
    simp [genStmt, calcCountS, hp.2.2.1, hp.2.2.2.1]
    try simp [sup_eq_max, max_def] at *
    try split_ifs at *
    all_goals omega
  | arrayIndex a b =>
    have hp := genExpr_preserves g (.arrayIndex a b)
    simp [genStmt, calcCountS, hp.2.2.1, hp.2.2.2.1]
    try simp [sup_eq_max, max_def] at *
    try split_ifs at *
    all_goals omega

theorem genStmts_peak (l : AstList) (g : CG) (h0 : 0 ≤ g.stackOffset)
    (hm : g.stackOffset ≤ g.maxOff) :
    (genStmts g l).1.maxOff ≤ max g.maxOff (g.stackOffset + 8 * (calcCount l : Int) + 8) ∧
    ((calcCount l : Int) = 0 → (genStmts g l).1.maxOff ≤ g.maxOff) ∧
    (genStmts g l).1.stackOffset ≤ (genStmts g l).1.maxOff := by
  cases l with
  | nilA =>
    simp [genStmts, calcCount]
    try simp [sup_eq_max, max_def] at *
    try split_ifs at *
    all_goals omega
  | consA n rest =>
    cases hn : genStmt g n with
    | mk g1 a =>
      have ih1 := genStmt_peak n g h0 hm
      rw [hn] at ih1; simp only [Prod.fst] at ih1
      have ho1 := genStmt_offset n g
      rw [hn] at ho1; simp only [Prod.fst] at ho1
      have hn1 := netSlotsS_le n
      cases hr : genStmts g1 rest with
      | mk g2 b =>
        have ih2 := genStmts_peak rest g1 (by simp [ho1]; omega) (by omega)
        rw [hr] at ih2; simp only [Prod.fst] at ih2
        have ho2 := genStmts_offset rest g1
        rw [hr] at ho2; simp only [Prod.fst] at ho2
        rw [calcCount_cons]
        simp only [genStmts, hn, hr]
        clear hn hr
        simp at ih1 ih2 ⊢
        try simp [sup_eq_max, max_def] at *
        try split_ifs at *
        all_goals omega

end


/-! ### Store-offset bounds and the C1/C2 claim theorems -/

theorem storesOf_append (l1 l2 : List Instr) :
    storesOf (l1 ++ l2) = storesOf l1 ++ storesOf l2 := by
  induction l1 with
  | nil => rfl
  | cons i t ih => cases i <;> simp [storesOf, ih]

theorem storesOf_opInstrs (op : String) : storesOf (opInstrs op) = [] := by
  simp only [opInstrs, apply_ite storesOf]
  simp [storesOf]

theorem storesOf_unopInstrs (op : String) : storesOf (unopInstrs op) = [] := by
  simp only [unopInstrs, apply_ite storesOf]
  simp [storesOf]

theorem genExpr_no_stores (g : CG) (e : Ast) : storesOf (genExpr g e).2 = [] := by
  induction g, e using genExpr.induct <;>
    simp_all [genExpr, storesOf, storesOf_append, storesOf_opInstrs, storesOf_unopInstrs]

theorem varGet_mem (m : List (String × Int)) (k : String) (v : Int)
    (h : varGet m k = some v) : ∃ kv ∈ m, kv.2 = v := by
  unfold varGet at h
  cases hf : m.find? (fun kv => kv.1 = k) with
  | none => rw [hf] at h; simp at h
  | some kv =>
    rw [hf] at h
    simp at h
    exact ⟨kv, List.mem_of_find?_eq_some hf, h⟩

mutual

theorem genStmt_stores (n : Ast) (g : CG) (h0 : 0 ≤ g.stackOffset)
    (hm : g.stackOffset ≤ g.maxOff)
    (hv : ∀ kv ∈ g.vars, 0 < kv.2 ∧ kv.2 ≤ g.maxOff) :
    (∀ off ∈ storesOf (genStmt g n).2, 0 < off ∧ off ≤ (genStmt g n).1.maxOff) ∧
    (∀ kv ∈ (genStmt g n).1.vars, 0 < kv.2 ∧ kv.2 ≤ (genStmt g n).1.maxOff) := by
  cases n with
  | varDecl name ty value mu =>
    cases value with
    | someA v =>
      cases hev : genExpr g v with
      | mk g1 va =>
        have hp := genExpr_preserves g v
        rw [hev] at hp
        simp only [Prod.fst] at hp
        obtain ⟨hpv, hplc, hpo, hpm, hpl⟩ := hp
        have hns := genExpr_no_stores g v
        rw [hev] at hns
        simp only [Prod.snd] at hns
        refine ⟨fun off hoff => ?_, fun kv hkv => ?_⟩
        · simp only [genStmt, hev, Prod.fst, Prod.snd] at hoff ⊢
          simp [storesOf_append, hns, storesOf] at hoff
          subst hoff
          exact ⟨by omega, le_max_right _ _⟩
        · simp only [genStmt, hev, Prod.fst] at hkv ⊢
          simp [varInsert] at hkv
          rcases hkv with rfl | ⟨hmem, -⟩
          · exact ⟨by show (0:Int) < g1.stackOffset + 8; omega, le_max_right _ _⟩
          · rw [hpv] at hmem
            have h2 := hv kv hmem
            exact ⟨h2.1, le_max_of_le_left (by omega)⟩
    | noneA =>
      refine ⟨fun off hoff => ?_, fun kv hkv => ?_⟩
      · simp [genStmt, storesOf] at hoff
      · simp only [genStmt, Prod.fst] at hkv ⊢
        simp [varInsert] at hkv
        rcases hkv with rfl | ⟨hmem, -⟩
        · exact ⟨by show (0:Int) < g.stackOffset + 8; omega, le_max_right _ _⟩
        · have h2 := hv kv hmem
          exact ⟨h2.1, le_max_of_le_left h2.2⟩
  | constDecl name ty v =>
    cases hev : genExpr g v with
    | mk g1 va =>
      have hp := genExpr_preserves g v
      rw [hev] at hp
      simp only [Prod.fst] at hp
      obtain ⟨hpv, hplc, hpo, hpm, hpl⟩ := hp
      have hns := genExpr_no_stores g v
      rw [hev] at hns
      simp only [Prod.snd] at hns
      refine ⟨fun off hoff => ?_, fun kv hkv => ?_⟩
      · simp only [genStmt, hev, Prod.fst, Prod.snd] at hoff ⊢
        simp [storesOf_append, hns, storesOf] at hoff
        subst hoff
        exact ⟨by omega, le_max_right _ _⟩
      · simp only [genStmt, hev, Prod.fst] at hkv ⊢
        simp [varInsert] at hkv
        rcases hkv with rfl | ⟨hmem, -⟩
        · exact ⟨by show (0:Int) < g1.stackOffset + 8; omega, le_max_right _ _⟩
        · rw [hpv] at hmem
          have h2 := hv kv hmem
          exact ⟨h2.1, le_max_of_le_left (by omega)⟩
  | retS value =>
    cases value with
    | someA v =>
      cases hev : genExpr g v with
      | mk g1 va =>
        have hp := genExpr_preserves g v
        rw [hev] at hp
        simp only [Prod.fst] at hp
        obtain ⟨hpv, hplc, hpo, hpm, hpl⟩ := hp
        have hns := genExpr_no_stores g v
        rw [hev] at hns
        simp only [Prod.snd] at hns
        refine ⟨fun off hoff => ?_, fun kv hkv => ?_⟩
        · simp only [genStmt, hev, Prod.snd] at hoff
          simp [storesOf_append, hns, storesOf] at hoff
        · simp only [genStmt, hev, Prod.fst] at hkv ⊢
          rw [hpv] at hkv
          rw [hpm]
          exact hv kv hkv
    | noneA =>
      refine ⟨fun off hoff => ?_, fun kv hkv => ?_⟩
      · simp [genStmt, storesOf] at hoff
      · simp only [genStmt, Prod.fst] at hkv ⊢
        exact hv kv hkv
  | assign target v =>
    cases hev : genExpr g v with
    | mk g1 va =>
      have hp := genExpr_preserves g v
      rw [hev] at hp
      simp only [Prod.fst] at hp
      obtain ⟨hpv, hplc, hpo, hpm, hpl⟩ := hp
      have hns := genExpr_no_stores g v
      rw [hev] at hns
      simp only [Prod.snd] at hns
      cases hvg : varGet g1.vars target with
      | some off0 =>
        obtain ⟨kv0, hkv0, hkv0eq⟩ := varGet_mem g.vars target off0 (by rw [← hpv]; exact hvg)
        have hb := hv kv0 hkv0
        refine ⟨fun off hoff => ?_, fun kv hkv => ?_⟩
        · simp only [genStmt, hev, hvg, Prod.fst, Prod.snd] at hoff ⊢
          simp [storesOf_append, hns, storesOf] at hoff
          subst hoff
          constructor <;> omega
        · simp only [genStmt, hev, hvg, Prod.fst] at hkv ⊢
          rw [hpv] at hkv
          rw [hpm]
          exact hv kv hkv
      | none =>
        refine ⟨fun off hoff => ?_, fun kv hkv => ?_⟩
        · simp only [genStmt, hev, hvg, Prod.snd] at hoff
          simp [hns] at hoff
        · simp only [genStmt, hev, hvg, Prod.fst] at hkv ⊢
          rw [hpv] at hkv
          rw [hpm]
          exact hv kv hkv
  | ifS cond thenB elseB =>
    cases hc : genExpr { g with labelCounter := g.labelCounter + 2 } cond with
    | mk g1 ca =>
      have hp := genExpr_preserves { g with labelCounter := g.labelCounter + 2 } cond
      rw [hc] at hp
      simp at hp
      obtain ⟨hpv, hplc, hpo, hpm, hpl⟩ := hp
      have hns := genExpr_no_stores { g with labelCounter := g.labelCounter + 2 } cond
      rw [hc] at hns
      simp only [Prod.snd] at hns
      have h01 : 0 ≤ g1.stackOffset := by omega
      have hm1 : g1.stackOffset ≤ g1.maxOff := by omega
      have hv1 : ∀ kv ∈ g1.vars, 0 < kv.2 ∧ kv.2 ≤ g1.maxOff := by
        intro kv hk
        rw [hpv] at hk
        rw [hpm]
        exact hv kv hk
      cases ht : genStmts g1 thenB with
      | mk g2 ta =>
        have iht := genStmts_stores thenB g1 h01 hm1 hv1
        rw [ht] at iht
        simp only [Prod.fst, Prod.snd] at iht
        have hof2 := genStmts_offset thenB g1
        rw [ht] at hof2
        simp only [Prod.fst] at hof2
        have hpk2 := (genStmts_peak thenB g1 h01 hm1).2.2
        rw [ht] at hpk2
        simp only [Prod.fst] at hpk2
        cases elseB with
        | someL eb =>
          have h02 : 0 ≤ g2.stackOffset := by omega
          cases he : genStmts g2 eb with
          | mk g3 ea =>
            have ihe := genStmts_stores eb g2 h02 hpk2 iht.2
            rw [he] at ihe
            simp only [Prod.fst, Prod.snd] at ihe
            have hmono3 := genStmts_maxOff_mono eb g2
            rw [he] at hmono3
            simp only [Prod.fst] at hmono3
            refine ⟨fun off hoff => ?_, fun kv hkv => ?_⟩
            · simp only [genStmt, hc, ht, he, Prod.fst, Prod.snd] at hoff ⊢
              simp [storesOf_append, hns, storesOf] at hoff
              rcases hoff with h | h
              · have h4 := iht.1 off h
                exact ⟨h4.1, le_trans h4.2 hmono3⟩
              · exact ihe.1 off h
            · simp only [genStmt, hc, ht, he, Prod.fst] at hkv ⊢
              exact ihe.2 kv hkv
        | noneL =>
          refine ⟨fun off hoff => ?_, fun kv hkv => ?_⟩
          · simp only [genStmt, hc, ht, Prod.fst, Prod.snd] at hoff ⊢
            simp [storesOf_append, hns, storesOf] at hoff
            exact iht.1 off hoff
          · simp only [genStmt, hc, ht, Prod.fst] at hkv ⊢
            exact iht.2 kv hkv
  | whileS cond body =>
    cases hc : genExpr ({ g with labelCounter := g.labelCounter + 2, loopStack := (mkLabel (g.labelCounter + 1), mkLabel g.labelCounter) :: g.loopStack }) cond with
    | mk g1 ca =>
      have hp := genExpr_preserves ({ g with labelCounter := g.labelCounter + 2, loopStack := (mkLabel (g.labelCounter + 1), mkLabel g.labelCounter) :: g.loopStack }) cond
      rw [hc] at hp
      simp at hp
      obtain ⟨hpv, hplc, hpo, hpm, hpl⟩ := hp
      have hns := genExpr_no_stores ({ g with labelCounter := g.labelCounter + 2, loopStack := (mkLabel (g.labelCounter + 1), mkLabel g.labelCounter) :: g.loopStack }) cond
      rw [hc] at hns
      simp only [Prod.snd] at hns
      have h01 : 0 ≤ g1.stackOffset := by omega
      have hm1 : g1.stackOffset ≤ g1.maxOff := by omega
      have hv1 : ∀ kv ∈ g1.vars, 0 < kv.2 ∧ kv.2 ≤ g1.maxOff := by
        intro kv hk
        rw [hpv] at hk
        rw [hpm]
        exact hv kv hk
      cases hb : genStmts g1 body with
      | mk g2 ba =>
        have ihb := genStmts_stores body g1 h01 hm1 hv1
        rw [hb] at ihb
        simp only [Prod.fst, Prod.snd] at ihb
        refine ⟨fun off hoff => ?_, fun kv hkv => ?_⟩
        · simp only [genStmt, hc, hb, Prod.fst, Prod.snd] at hoff ⊢
          simp [storesOf_append, hns, storesOf] at hoff
          have h4 := ihb.1 off hoff
          simpa using h4
        · simp only [genStmt, hc, hb, Prod.fst] at hkv ⊢
          try simp at hkv ⊢
          exact ihb.2 kv hkv
  | forS it rs re incl body =>
    cases h1 : genExpr { g with labelCounter := g.labelCounter + 2 } rs with
    | mk gA sa =>
      have hpA := genExpr_preserves { g with labelCounter := g.labelCounter + 2 } rs
      rw [h1] at hpA
      simp at hpA
      obtain ⟨hAv, hAlc, hAo, hAm, hAl⟩ := hpA
      have hnsA := genExpr_no_stores { g with labelCounter := g.labelCounter + 2 } rs
      rw [h1] at hnsA
      simp only [Prod.snd] at hnsA
      cases h2 : genExpr ({ gA with stackOffset := gA.stackOffset + 8, maxOff := max gA.maxOff (gA.stackOffset + 8), vars := varInsert gA.vars it (gA.stackOffset + 8) }) re with
      | mk gB ea =>
        have hpB := genExpr_preserves ({ gA with stackOffset := gA.stackOffset + 8, maxOff := max gA.maxOff (gA.stackOffset + 8), vars := varInsert gA.vars it (gA.stackOffset + 8) }) re
        rw [h2] at hpB
        simp at hpB
        obtain ⟨hBv, hBlc, hBo, hBm, hBl⟩ := hpB
        have hnsB := genExpr_no_stores ({ gA with stackOffset := gA.stackOffset + 8, maxOff := max gA.maxOff (gA.stackOffset + 8), vars := varInsert gA.vars it (gA.stackOffset + 8) }) re
        rw [h2] at hnsB
        simp only [Prod.snd] at hnsB
        have hvX : ∀ kv ∈ gB.vars, 0 < kv.2 ∧ kv.2 ≤ max gB.maxOff (gB.stackOffset + 8) := by
          intro kv hk
          rw [hBv] at hk
          simp [varInsert] at hk
          rcases hk with rfl | ⟨hmem, -⟩
          · exact ⟨by show (0:Int) < gA.stackOffset + 8; omega,
              le_max_of_le_left (by rw [hBm]; exact le_max_right _ _)⟩
          · rw [hAv] at hmem
            have h2' := hv kv hmem
            refine ⟨h2'.1, le_max_of_le_left ?_⟩
            rw [hBm]
            exact le_max_of_le_left (by omega)
        cases h3 : genStmts ({ gB with stackOffset := gB.stackOffset + 8, maxOff := max gB.maxOff (gB.stackOffset + 8), loopStack := (mkLabel (g.labelCounter + 1), mkLabel g.labelCounter) :: gB.loopStack }) body with
        | mk gC ba =>
          have ihb := genStmts_stores body ({ gB with stackOffset := gB.stackOffset + 8, maxOff := max gB.maxOff (gB.stackOffset + 8), loopStack := (mkLabel (g.labelCounter + 1), mkLabel g.labelCounter) :: gB.loopStack }) (by simp; omega) (by simp) hvX
          rw [h3] at ihb
          simp only [Prod.fst, Prod.snd] at ihb
          have hmono := genStmts_maxOff_mono body ({ gB with stackOffset := gB.stackOffset + 8, maxOff := max gB.maxOff (gB.stackOffset + 8), loopStack := (mkLabel (g.labelCounter + 1), mkLabel g.labelCounter) :: gB.loopStack })
          rw [h3] at hmono
          simp only [Prod.fst] at hmono
          simp at hmono
          have hf1 : gA.stackOffset + 8 ≤ gC.maxOff := by
            refine le_trans ?_ hmono.1
            rw [hBm]
            exact le_max_right _ _
          have hf2 : gB.stackOffset + 8 ≤ gC.maxOff := hmono.2
          refine ⟨fun off hoff => ?_, fun kv hkv => ?_⟩
          · simp only [genStmt, h1, h2, h3, Prod.fst, Prod.snd] at hoff ⊢
            cases incl <;>
              (simp [storesOf_append, hnsA, hnsB, storesOf, hBv, varGet_insert_self] at hoff ⊢;
               rcases hoff with rfl | rfl | h | rfl
               · exact ⟨by omega, hf1⟩
               · exact ⟨by omega, hf2⟩
               · exact ihb.1 off h
               · exact ⟨by omega, hf1⟩)
          · simp only [genStmt, h1, h2, h3, Prod.fst] at hkv ⊢
            try simp at hkv ⊢
            exact ihb.2 kv hkv
  | loopS body =>
    have hv1 : ∀ kv ∈ g.vars, 0 < kv.2 ∧ kv.2 ≤ g.maxOff := hv
    cases hb : genStmts ({ g with labelCounter := g.labelCounter + 2, loopStack := (mkLabel (g.labelCounter + 1), mkLabel g.labelCounter) :: g.loopStack }) body with
    | mk g2 ba =>
      have ihb := genStmts_stores body ({ g with labelCounter := g.labelCounter + 2, loopStack := (mkLabel (g.labelCounter + 1), mkLabel g.labelCounter) :: g.loopStack }) (by simp; omega) (by simp; omega) (by intro kv hk; simp at hk; simpa using hv kv hk)
      rw [hb] at ihb
      simp only [Prod.fst, Prod.snd] at ihb
      refine ⟨fun off hoff => ?_, fun kv hkv => ?_⟩
      · simp only [genStmt, hb, Prod.fst, Prod.snd] at hoff ⊢
        simp [storesOf_append, storesOf] at hoff
        have h4 := ihb.1 off hoff
        simpa using h4
      · simp only [genStmt, hb, Prod.fst] at hkv ⊢
        try simp at hkv ⊢
        exact ihb.2 kv hkv
  | breakS =>
    cases hh : g.loopStack.head? with
    | some pair =>
      refine ⟨fun off hoff => ?_, fun kv hkv => ?_⟩
      · simp [genStmt, hh, storesOf] at hoff
      · simp [genStmt, hh] at hkv ⊢
        exact hv kv hkv
    | none =>
      refine ⟨fun off hoff => ?_, fun kv hkv => ?_⟩
      · simp [genStmt, hh, storesOf] at hoff
      · simp [genStmt, hh] at hkv ⊢
        exact hv kv hkv
  | continueS =>
    cases hh : g.loopStack.head? with
    | some pair =>
      refine ⟨fun off hoff => ?_, fun kv hkv => ?_⟩
      · simp [genStmt, hh, storesOf] at hoff
      · simp [genStmt, hh] at hkv ⊢
        exact hv kv hkv
    | none =>
      refine ⟨fun off hoff => ?_, fun kv hkv => ?_⟩
      · simp [genStmt, hh, storesOf] at hoff
      · simp [genStmt, hh] at hkv ⊢
        exact hv kv hkv
  | moduleA name items =>
    have hp := genExpr_preserves g (.moduleA name items)
    have hns := genExpr_no_stores g (.moduleA name items)
    refine ⟨fun off hoff => ?_, fun kv hkv => ?_⟩
    · simp only [genStmt] at hoff
      rw [hns] at hoff
      simp at hoff
    · simp only [genStmt] at hkv ⊢
      rw [hp.1] at hkv
      rw [hp.2.2.2.1]
      exact hv kv hkv
  | func name params ret body =>
    have hp := genExpr_preserves g (.func name params ret body)
    have hns := genExpr_no_stores g (.func name params ret body)
    refine ⟨fun off hoff => ?_, fun kv hkv => ?_⟩
    · simp only [genStmt] at hoff
      rw [hns] at hoff
      simp at hoff
    · simp only [genStmt] at hkv ⊢
      rw [hp.1] at hkv
      rw [hp.2.2.2.1]
      exact hv kv hkv
  | binaryOp l op r =>
    have hp := genExpr_preserves g (.binaryOp l op r)
    have hns := genExpr_no_stores g (.binaryOp l op r)
    refine ⟨fun off hoff => ?_, fun kv hkv => ?_⟩
    · simp only [genStmt] at hoff
      rw [hns] at hoff
      simp at hoff
    · simp only [genStmt] at hkv ⊢
      rw [hp.1] at hkv
      rw [hp.2.2.2.1]
      exact hv kv hkv
  | unaryOp op e =>
    have hp := genExpr_preserves g (.unaryOp op e)
    have hns := genExpr_no_stores g (.unaryOp op e)
    refine ⟨fun off hoff => ?_, fun kv hkv => ?_⟩
    · simp only [genStmt] at hoff
      rw [hns] at hoff
      simp at hoff
    · simp only [genStmt] at hkv ⊢
      rw [hp.1] at hkv
      rw [hp.2.2.2.1]
      exact hv kv hkv
  | lit l =>
    have hp := genExpr_preserves g (.lit l)
    have hns := genExpr_no_stores g (.lit l)
    refine ⟨fun off hoff => ?_, fun kv hkv => ?_⟩
    · simp only [genStmt] at hoff
      rw [hns] at hoff
      simp at hoff
    · simp only [genStmt] at hkv ⊢
      rw [hp.1] at hkv
      rw [hp.2.2.2.1]
      exact hv kv hkv
  | ident x =>
    have hp := genExpr_preserves g (.ident x)
    have hns := genExpr_no_stores g (.ident x)
    refine ⟨fun off hoff => ?_, fun kv hkv => ?_⟩
    · simp only [genStmt] at hoff
      rw [hns] at hoff
      simp at hoff
    · simp only [genStmt] at hkv ⊢
      rw [hp.1] at hkv
      rw [hp.2.2.2.1]
      exact hv kv hkv
  | call f args =>
    have hp := genExpr_preserves g (.call f args)
    have hns := genExpr_no_stores g (.call f args)
    refine ⟨fun off hoff => ?_, fun kv hkv => ?_⟩
    · simp only [genStmt] at hoff
      rw [hns] at hoff
      simp at hoff
    · simp only [genStmt] at hkv ⊢
      rw [hp.1] at hkv
      rw [hp.2.2.2.1]
      exact hv kv hkv
  | arrayLit elems =>
    have hp := genExpr_preserves g (.arrayLit elems)
    have hns := genExpr_no_stores g (.arrayLit elems)
    refine ⟨fun off hoff => ?_, fun kv hkv => ?_⟩
    · simp only [genStmt] at hoff
      rw [hns] at hoff
      simp at hoff
    · simp only [genStmt] at hkv ⊢
      rw [hp.1] at hkv
      rw [hp.2.2.2.1]
      exact hv kv hkv
  | arrayRepeat v c =>
    have hp := genExpr_preserves g (.arrayRepeat v c)
    have hns := genExpr_no_stores g (.arrayRepeat v c)
    refine ⟨fun off hoff => ?_, fun kv hkv => ?_⟩
    · simp only [genStmt] at hoff
      rw [hns] at hoff
      simp at hoff
    · simp only [genStmt] at hkv ⊢
      rw [hp.1] at hkv
      rw [hp.2.2.2.1]
      exact hv kv hkv
  | arrayIndex a i =>
    have hp := genExpr_preserves g (.arrayIndex a i)
    have hns := genExpr_no_stores g (.arrayIndex a i)
    refine ⟨fun off hoff => ?_, fun kv hkv => ?_⟩
    · simp only [genStmt] at hoff
      rw [hns] at hoff
      simp at hoff
    · simp only [genStmt] at hkv ⊢
      rw [hp.1] at hkv
      rw [hp.2.2.2.1]
      exact hv kv hkv

theorem genStmts_stores (l : AstList) (g : CG) (h0 : 0 ≤ g.stackOffset)
    (hm : g.stackOffset ≤ g.maxOff)
    (hv : ∀ kv ∈ g.vars, 0 < kv.2 ∧ kv.2 ≤ g.maxOff) :
    (∀ off ∈ storesOf (genStmts g l).2, 0 < off ∧ off ≤ (genStmts g l).1.maxOff) ∧
    (∀ kv ∈ (genStmts g l).1.vars, 0 < kv.2 ∧ kv.2 ≤ (genStmts g l).1.maxOff) := by
  cases l with
  | nilA =>
    refine ⟨fun off hoff => ?_, fun kv hkv => ?_⟩
    · simp [genStmts, storesOf] at hoff
    · simp only [genStmts, Prod.fst] at hkv ⊢
      exact hv kv hkv
  | consA n rest =>
    cases hn : genStmt g n with
    | mk g1 a =>
      have ih1 := genStmt_stores n g h0 hm hv
      rw [hn] at ih1
      simp only [Prod.fst, Prod.snd] at ih1
      have ho1 := genStmt_offset n g
      rw [hn] at ho1
      simp only [Prod.fst] at ho1
      have hp1 := (genStmt_peak n g h0 hm).2.2
      rw [hn] at hp1
      simp only [Prod.fst] at hp1
      have h01 : 0 ≤ g1.stackOffset := by omega
      cases hr : genStmts g1 rest with
      | mk g2 b =>
        have ih2 := genStmts_stores rest g1 h01 hp1 ih1.2
        rw [hr] at ih2
        simp only [Prod.fst, Prod.snd] at ih2
        have hmono := genStmts_maxOff_mono rest g1
        rw [hr] at hmono
        simp only [Prod.fst] at hmono
        refine ⟨fun off hoff => ?_, fun kv hkv => ?_⟩
        · simp only [genStmts, hn, hr, Prod.fst, Prod.snd] at hoff ⊢
          rw [storesOf_append] at hoff
          rcases List.mem_append.mp hoff with h | h
          · have h4 := ih1.1 off h
            exact ⟨h4.1, le_trans h4.2 hmono⟩
          · exact ih2.1 off h
        · simp only [genStmts, hn, hr, Prod.fst] at hkv ⊢
          exact ih2.2 kv hkv

end

/-- **C2** (amended): the stack-offset counter is incremented by 8 at each
variable/constant declaration and at the `for` iterator and hidden bound
slots, but it is NOT monotonically non-decreasing: a `for` statement
decrements it by 8 when its emission ends, so the counter's net evolution
is `+ 8 * netSlots` (one retained slot per declaration and per `for`),
and variables declared inside a `for` body can share their offset with
later declarations. -/
theorem stack_offset_evolution (g : CG) (n : Ast) (l : AstList) :
    (genStmt g n).1.stackOffset = g.stackOffset + 8 * (netSlotsS n : Int) ∧
    (genStmts g l).1.stackOffset = g.stackOffset + 8 * (netSlots l : Int) :=
  ⟨genStmt_offset n g, genStmts_offset l g⟩

/-- **C7**: declaring a name already bound in the innermost scope fails
with the exact "already declared in this scope" error while declaring a
name unbound there succeeds by inserting into the innermost scope
(shadowing any outer binding); lookup walks the scope stack
innermost-first and the first scope containing the name wins; the nested
shadowing program is accepted and the same-scope redeclaration program is
rejected. -/
theorem scope_shadowing_and_lookup :
    (∀ (s : SState) (sc : Scope) (rest : List Scope) (n : String) (ty : Ty) (mu : Bool),
      s.symbolTable = sc :: rest →
      (scopeContains sc n = true →
        declareVariable s n ty mu =
          .err ("Variable '" ++ n ++ "' already declared in this scope")) ∧
      (scopeContains sc n = false →
        declareVariable s n ty mu =
          .ok () { s with symbolTable := scopeInsert sc n ⟨ty, mu⟩ :: rest })) ∧
    (∀ (pre : List Scope) (sc : Scope) (post : List Scope) (n : String) (info : SymbolInfo),
      (∀ s' ∈ pre, scopeGet s' n = none) → scopeGet sc n = some info →
      lookupInScopes (pre ++ sc :: post) n = some info) ∧
    analyzeOk astShadow = true ∧
    analyzeOk astSameScopeRedecl = false := by
  refine ⟨?_, ?_, by decide, by decide⟩
  · intro s sc rest n ty mu hst
    constructor
    · intro hc
      simp [declareVariable, hst, hc]
    · intro hc
      simp [declareVariable, hst, hc]
  · intro pre sc post n info hpre hsc
    induction pre with
    | nil => simp [lookupInScopes, hsc]
    | cons p ps ih =>
      have hp := hpre p (by simp)
      simp only [List.cons_append, lookupInScopes, hp]
      exact ih (fun s' hs' => hpre s' (by simp [hs']))

theorem scope_shadowing_and_lookup_witness :
    declareVariable ⟨[[("x", ⟨.i32, false⟩)], [("y", ⟨.i64, true⟩)]], none⟩ "x" .i32 false =
      .err ("Variable '" ++ "x" ++ "' already declared in this scope") ∧
    lookupInScopes [[], [("x", ⟨.i32, true⟩)], [("x", ⟨.i64, false⟩)]] "x" =
      some ⟨.i32, true⟩ :=
  ⟨(scope_shadowing_and_lookup.1 ⟨[[("x", ⟨.i32, false⟩)], [("y", ⟨.i64, true⟩)]], none⟩
      [("x", ⟨.i32, false⟩)] [[("y", ⟨.i64, true⟩)]] "x" .i32 false rfl).1 (by decide),
   scope_shadowing_and_lookup.2.1 [[]] [("x", ⟨.i32, true⟩)] [[("x", ⟨.i64, false⟩)]]
      "x" ⟨.i32, true⟩ (by decide) (by decide)⟩

/-! ### Label accounting and the C6 claim theorems -/

theorem toDigitsCore_shift (fuel : Nat) : ∀ (n : Nat) (prev : List Char),
    Nat.toDigitsCore 10 fuel n prev = Nat.toDigitsCore 10 fuel n [] ++ prev := by
  induction fuel with
  | zero => intro n prev; simp [Nat.toDigitsCore]
  | succ f ih =>
    intro n prev
    simp only [Nat.toDigitsCore]
    by_cases h : n / 10 = 0
    · simp [h]
    · rw [if_neg h, if_neg h, ih (n / 10) (Nat.digitChar (n % 10) :: prev),
        ih (n / 10) [Nat.digitChar (n % 10)]]
      simp

theorem digitChar_val (d : Nat) (h : d < 10) : (Nat.digitChar d).toNat - 48 = d := by
  interval_cases d <;> decide

theorem digitsVal_append_digit (xs : List Char) (c : Char) :
    digitsVal (xs ++ [c]) = digitsVal xs * 10 + (c.toNat - 48) := by
  simp [digitsVal, List.foldl_append]

theorem digitsVal_toDigitsCore (fuel : Nat) : ∀ n : Nat, n < fuel →
    digitsVal (Nat.toDigitsCore 10 fuel n []) = n := by
  induction fuel with
  | zero => intro n h; omega
  | succ f ih =>
    intro n h
    simp only [Nat.toDigitsCore]
    by_cases h0 : n / 10 = 0
    · rw [if_pos h0]
      simp [digitsVal]
      rw [digitChar_val (n % 10) (by omega)]
      omega
    · rw [if_neg h0, toDigitsCore_shift, digitsVal_append_digit,
        ih (n / 10) (by omega), digitChar_val (n % 10) (by omega)]
      omega

theorem repr_val (n : Nat) : digitsVal (Nat.repr n).data = n := by
  have h : (Nat.repr n).data = Nat.toDigitsCore 10 (n + 1) n [] := rfl
  rw [h]
  exact digitsVal_toDigitsCore (n + 1) n (by omega)

theorem mkLabel_injective (a b : Nat) (h : mkLabel a = mkLabel b) : a = b := by
  simp only [mkLabel] at h
  have hd := congrArg String.data h
  simp [String.data_append] at hd
  have hv := congrArg digitsVal hd
  rw [repr_val, repr_val] at hv
  exact hv

theorem labelsOf_append (l1 l2 : List Instr) :
    labelsOf (l1 ++ l2) = labelsOf l1 ++ labelsOf l2 := by
  induction l1 with
  | nil => rfl
  | cons i t ih => cases i <;> simp [labelsOf, ih]

theorem labelsOf_opInstrs (op : String) : labelsOf (opInstrs op) = [] := by
  simp only [opInstrs, apply_ite labelsOf]
  simp [labelsOf]

theorem labelsOf_unopInstrs (op : String) : labelsOf (unopInstrs op) = [] := by
  simp only [unopInstrs, apply_ite labelsOf]
  simp [labelsOf]

theorem genExpr_no_labels (g : CG) (e : Ast) : labelsOf (genExpr g e).2 = [] := by
  induction g, e using genExpr.induct <;>
    simp_all [genExpr, labelsOf, labelsOf_append, labelsOf_opInstrs, labelsOf_unopInstrs]

theorem range1_succ (s n : Nat) : List.range' s (n + 1) = s :: List.range' (s + 1) n := rfl

theorem range1_split (s m n : Nat) :
    List.range' s (m + n) = List.range' s m ++ List.range' (s + m) n := by
  induction m generalizing s with
  | zero => simp
  | succ k ih =>
    have e1 : k + 1 + n = (k + n) + 1 := by omega
    rw [e1, range1_succ s (k + n), ih (s + 1), range1_succ s k, List.cons_append,
      show s + 1 + k = s + (k + 1) from by omega]

mutual

theorem genStmt_labels (n : Ast) (g : CG) :
    (genStmt g n).1.labelCounter = g.labelCounter + 2 * labelPairsS n ∧
    ((labelsOf (genStmt g n).2 : Multiset String)) =
      (((List.range' g.labelCounter (2 * labelPairsS n)).map mkLabel : List String) :
        Multiset String) := by
  cases n with
  | varDecl name ty value mu =>
    cases value with
    | someA v =>
      cases hev : genExpr g v with
      | mk g1 va =>
        have hp := genExpr_preserves g v
        rw [hev] at hp
        simp only [Prod.fst] at hp
        have hnl := genExpr_no_labels g v
        rw [hev] at hnl
        simp only [Prod.snd] at hnl
        constructor
        · simp only [genStmt, hev, Prod.fst]
          simp [labelPairsS, hp.2.1]
        · simp only [genStmt, hev, Prod.snd]
          simp [labelPairsS, labelsOf_append, labelsOf, hnl]
    | noneA =>
      constructor
      · simp [genStmt, labelPairsS]
      · simp [genStmt, labelPairsS, labelsOf]
  | constDecl name ty v =>
    cases hev : genExpr g v with
    | mk g1 va =>
      have hp := genExpr_preserves g v
      rw [hev] at hp
      simp only [Prod.fst] at hp
      have hnl := genExpr_no_labels g v
      rw [hev] at hnl
      simp only [Prod.snd] at hnl
      constructor
      · simp only [genStmt, hev, Prod.fst]
        simp [labelPairsS, hp.2.1]
      · simp only [genStmt, hev, Prod.snd]
        simp [labelPairsS, labelsOf_append, labelsOf, hnl]
  | retS value =>
    cases value with
    | someA v =>
      cases hev : genExpr g v with
      | mk g1 va =>
        have hp := genExpr_preserves g v
        rw [hev] at hp
        simp only [Prod.fst] at hp
        have hnl := genExpr_no_labels g v
        rw [hev] at hnl
        simp only [Prod.snd] at hnl
        constructor
        · simp only [genStmt, hev, Prod.fst]
          simp [labelPairsS, hp.2.1]
        · simp only [genStmt, hev, Prod.snd]
          simp [labelPairsS, labelsOf_append, labelsOf, hnl]
    | noneA =>
      constructor
      · simp [genStmt, labelPairsS]
      · simp [genStmt, labelPairsS, labelsOf]
  | assign target v =>
    cases hev : genExpr g v with
    | mk g1 va =>
      have hp := genExpr_preserves g v
      rw [hev] at hp
      simp only [Prod.fst] at hp
      have hnl := genExpr_no_labels g v
      rw [hev] at hnl
      simp only [Prod.snd] at hnl
      cases hvg : varGet g1.vars target with
      | some off0 =>
        constructor
        · simp only [genStmt, hev, hvg, Prod.fst]
          simp [labelPairsS, hp.2.1]
        · simp only [genStmt, hev, hvg, Prod.snd]
          simp [labelPairsS, labelsOf_append, labelsOf, hnl]
      | none =>
        constructor
        · simp only [genStmt, hev, hvg, Prod.fst]
          simp [labelPairsS, hp.2.1]
        · simp only [genStmt, hev, hvg, Prod.snd]
          simp [labelPairsS, labelsOf, hnl]
  | ifS cond thenB elseB =>
    cases hc : genExpr { g with labelCounter := g.labelCounter + 2 } cond with
    | mk g1 ca =>
      have hp := genExpr_preserves { g with labelCounter := g.labelCounter + 2 } cond
      rw [hc] at hp
      simp at hp
      have hnl := genExpr_no_labels { g with labelCounter := g.labelCounter + 2 } cond
      rw [hc] at hnl
      simp only [Prod.snd] at hnl
      cases ht : genStmts g1 thenB with
      | mk g2 ta =>
        have iht := genStmts_labels thenB g1
        rw [ht] at iht
        simp only [Prod.fst, Prod.snd] at iht
        rw [hp.2.1] at iht
        cases elseB with
        | someL eb =>
          cases he : genStmts g2 eb with
          | mk g3 ea =>
            have ihe := genStmts_labels eb g2
            rw [he] at ihe
            simp only [Prod.fst, Prod.snd] at ihe
            rw [iht.1] at ihe
            constructor
            · simp only [genStmt, hc, ht, he, Prod.fst]
              simp [labelPairsS]
              omega
            · have hsplit : 2 * labelPairsS (.ifS cond thenB (.someL eb)) =
                  2 + (2 * labelPairs thenB + 2 * labelPairs eb) := by
                simp [labelPairsS]; omega
              simp only [genStmt, hc, ht, he, Prod.snd]
              rw [hsplit, range1_split g.labelCounter 2
                    (2 * labelPairs thenB + 2 * labelPairs eb),
                  range1_split (g.labelCounter + 2) (2 * labelPairs thenB)
                    (2 * labelPairs eb)]
              simp only [labelsOf_append, labelsOf, hnl, List.append_eq, List.append_assoc,
                List.nil_append, List.append_nil, List.cons_append, List.map_append,
                List.map_cons, List.map_nil,
                show List.range' g.labelCounter 2 = [g.labelCounter, g.labelCounter + 1] from rfl]
              simp only [← Multiset.coe_add, ← Multiset.cons_coe, Multiset.coe_singleton,
                ← Multiset.singleton_add, Multiset.coe_nil]
              rw [iht.2, ihe.2]
              abel
        | noneL =>
          constructor
          · simp only [genStmt, hc, ht, Prod.fst]
            simp [labelPairsS]
            omega
          · have hsplit : 2 * labelPairsS (.ifS cond thenB .noneL) =
                2 + 2 * labelPairs thenB := by
              simp [labelPairsS]; omega
            simp only [genStmt, hc, ht, Prod.snd]
            rw [hsplit, range1_split g.labelCounter 2 (2 * labelPairs thenB)]
            simp only [labelsOf_append, labelsOf, hnl, List.append_eq, List.append_assoc,
              List.nil_append, List.append_nil, List.cons_append, List.map_append,
              List.map_cons, List.map_nil,
              show List.range' g.labelCounter 2 = [g.labelCounter, g.labelCounter + 1] from rfl]
            simp only [← Multiset.coe_add, ← Multiset.cons_coe, Multiset.coe_singleton,
              ← Multiset.singleton_add, Multiset.coe_nil]
            rw [iht.2]
            abel
  | whileS cond body =>
    cases hc : genExpr ({ g with labelCounter := g.labelCounter + 2, loopStack := (mkLabel (g.labelCounter + 1), mkLabel g.labelCounter) :: g.loopStack }) cond with
    | mk g1 ca =>
      have hp := genExpr_preserves ({ g with labelCounter := g.labelCounter + 2, loopStack := (mkLabel (g.labelCounter + 1), mkLabel g.labelCounter) :: g.loopStack }) cond
      rw [hc] at hp
      simp at hp
      have hnl := genExpr_no_labels ({ g with labelCounter := g.labelCounter + 2, loopStack := (mkLabel (g.labelCounter + 1), mkLabel g.labelCounter) :: g.loopStack }) cond
      rw [hc] at hnl
      simp only [Prod.snd] at hnl
      cases hb : genStmts g1 body with
      | mk g2 ba =>
        have ihb := genStmts_labels body g1
        rw [hb] at ihb
        simp only [Prod.fst, Prod.snd] at ihb
        rw [hp.2.1] at ihb
        constructor
        · simp only [genStmt, hc, hb, Prod.fst]
          simp [labelPairsS]
          omega
        · have hsplit : 2 * labelPairsS (.whileS cond body) =
              2 + 2 * labelPairs body := by
            simp [labelPairsS]; omega
          simp only [genStmt, hc, hb, Prod.snd]
          rw [hsplit, range1_split g.labelCounter 2 (2 * labelPairs body)]
          simp only [labelsOf_append, labelsOf, hnl, List.append_eq, List.append_assoc,
            List.nil_append, List.append_nil, List.cons_append, List.map_append,
            List.map_cons, List.map_nil,
            show List.range' g.labelCounter 2 = [g.labelCounter, g.labelCounter + 1] from rfl]
          simp only [← Multiset.coe_add, ← Multiset.cons_coe, Multiset.coe_singleton,
            ← Multiset.singleton_add, Multiset.coe_nil]
          rw [ihb.2]
          abel
  | forS it rs re incl body =>
    cases h1 : genExpr { g with labelCounter := g.labelCounter + 2 } rs with
    | mk gA sa =>
      have hpA := genExpr_preserves { g with labelCounter := g.labelCounter + 2 } rs
      rw [h1] at hpA
      simp at hpA
      have hnlA := genExpr_no_labels { g with labelCounter := g.labelCounter + 2 } rs
      rw [h1] at hnlA
      simp only [Prod.snd] at hnlA
      cases h2 : genExpr ({ gA with stackOffset := gA.stackOffset + 8, maxOff := max gA.maxOff (gA.stackOffset + 8), vars := varInsert gA.vars it (gA.stackOffset + 8) }) re with
      | mk gB ea =>
        have hpB := genExpr_preserves ({ gA with stackOffset := gA.stackOffset + 8, maxOff := max gA.maxOff (gA.stackOffset + 8), vars := varInsert gA.vars it (gA.stackOffset + 8) }) re
        rw [h2] at hpB
        simp at hpB
        have hnlB := genExpr_no_labels ({ gA with stackOffset := gA.stackOffset + 8, maxOff := max gA.maxOff (gA.stackOffset + 8), vars := varInsert gA.vars it (gA.stackOffset + 8) }) re
        rw [h2] at hnlB
        simp only [Prod.snd] at hnlB
        cases h3 : genStmts ({ gB with stackOffset := gB.stackOffset + 8, maxOff := max gB.maxOff (gB.stackOffset + 8), loopStack := (mkLabel (g.labelCounter + 1), mkLabel g.labelCounter) :: gB.loopStack }) body with
        | mk gC ba =>
          have ihb := genStmts_labels body ({ gB with stackOffset := gB.stackOffset + 8, maxOff := max gB.maxOff (gB.stackOffset + 8), loopStack := (mkLabel (g.labelCounter + 1), mkLabel g.labelCounter) :: gB.loopStack })
          rw [h3] at ihb
          simp only [Prod.fst, Prod.snd] at ihb
          rw [hpB.2.1, hpA.2.1] at ihb
          constructor
          · simp only [genStmt, h1, h2, h3, Prod.fst]
            simp [labelPairsS]
            omega
          · have hsplit : 2 * labelPairsS (.forS it rs re incl body) =
                2 + 2 * labelPairs body := by
              simp [labelPairsS]; omega
            simp only [genStmt, h1, h2, h3, Prod.snd]
            rw [hsplit, range1_split g.labelCounter 2 (2 * labelPairs body)]
            cases incl <;>
              (simp only [if_true, if_false, Bool.false_eq_true, labelsOf_append,
                 labelsOf, hnlA, hnlB, List.append_eq, List.append_assoc, List.nil_append,
                 List.append_nil, List.cons_append, List.map_append, List.map_cons,
                 List.map_nil,
                 show List.range' g.labelCounter 2 = [g.labelCounter, g.labelCounter + 1] from rfl]
               simp only [← Multiset.coe_add, ← Multiset.cons_coe, Multiset.coe_singleton,
                 ← Multiset.singleton_add, Multiset.coe_nil]
               rw [ihb.2]
               abel)
  | loopS body =>
    cases hb : genStmts ({ g with labelCounter := g.labelCounter + 2, loopStack := (mkLabel (g.labelCounter + 1), mkLabel g.labelCounter) :: g.loopStack }) body with
    | mk g2 ba =>
      have ihb := genStmts_labels body ({ g with labelCounter := g.labelCounter + 2, loopStack := (mkLabel (g.labelCounter + 1), mkLabel g.labelCounter) :: g.loopStack })
      rw [hb] at ihb
      simp only [Prod.fst, Prod.snd] at ihb
      constructor
      · simp only [genStmt, hb, Prod.fst]
        simp [labelPairsS]
        omega
      · have hsplit : 2 * labelPairsS (.loopS body) = 2 + 2 * labelPairs body := by
          simp [labelPairsS]; omega
        simp only [genStmt, hb, Prod.snd]
        rw [hsplit, range1_split g.labelCounter 2 (2 * labelPairs body)]
        simp only [labelsOf_append, labelsOf, List.append_eq, List.append_assoc, List.nil_append,
          List.append_nil, List.cons_append, List.map_append, List.map_cons, List.map_nil,
          show List.range' g.labelCounter 2 = [g.labelCounter, g.labelCounter + 1] from rfl]
        simp only [← Multiset.coe_add, ← Multiset.cons_coe, Multiset.coe_singleton,
          ← Multiset.singleton_add, Multiset.coe_nil]
        rw [ihb.2]
        abel
  | breakS =>
    cases hh : g.loopStack.head? with
    | some pair =>
      exact ⟨by simp [genStmt, hh, labelPairsS], by simp [genStmt, hh, labelPairsS, labelsOf]⟩
    | none =>
      exact ⟨by simp [genStmt, hh, labelPairsS], by simp [genStmt, hh, labelPairsS, labelsOf]⟩
  | continueS =>
    cases hh : g.loopStack.head? with
    | some pair =>
      exact ⟨by simp [genStmt, hh, labelPairsS], by simp [genStmt, hh, labelPairsS, labelsOf]⟩
    | none =>
      exact ⟨by simp [genStmt, hh, labelPairsS], by simp [genStmt, hh, labelPairsS, labelsOf]⟩
  | moduleA name items =>
    have hp := genExpr_preserves g (.moduleA name items)
    have hnl := genExpr_no_labels g (.moduleA name items)
    exact ⟨by simp only [genStmt]; simp [labelPairsS, hp.2.1],
      by simp only [genStmt]; rw [hnl]; simp [labelPairsS, labelsOf]⟩
  | func name params ret body =>
    have hp := genExpr_preserves g (.func name params ret body)
    have hnl := genExpr_no_labels g (.func name params ret body)
    exact ⟨by simp only [genStmt]; simp [labelPairsS, hp.2.1],
      by simp only [genStmt]; rw [hnl]; simp [labelPairsS, labelsOf]⟩
  | binaryOp l op r =>
    have hp := genExpr_preserves g (.binaryOp l op r)
    have hnl := genExpr_no_labels g (.binaryOp l op r)
    exact ⟨by simp only [genStmt]; simp [labelPairsS, hp.2.1],
      by simp only [genStmt]; rw [hnl]; simp [labelPairsS, labelsOf]⟩
  | unaryOp op e =>
    have hp := genExpr_preserves g (.unaryOp op e)
    have hnl := genExpr_no_labels g (.unaryOp op e)
    exact ⟨by simp only [genStmt]; simp [labelPairsS, hp.2.1],
      by simp only [genStmt]; rw [hnl]; simp [labelPairsS, labelsOf]⟩
  | lit l =>
    have hp := genExpr_preserves g (.lit l)
    have hnl := genExpr_no_labels g (.lit l)
    exact ⟨by simp only [genStmt]; simp [labelPairsS, hp.2.1],
      by simp only [genStmt]; rw [hnl]; simp [labelPairsS, labelsOf]⟩
  | ident x =>
    have hp := genExpr_preserves g (.ident x)
    have hnl := genExpr_no_labels g (.ident x)
    exact ⟨by simp only [genStmt]; simp [labelPairsS, hp.2.1],
      by simp only [genStmt]; rw [hnl]; simp [labelPairsS, labelsOf]⟩
  | call f args =>
    have hp := genExpr_preserves g (.call f args)
    have hnl := genExpr_no_labels g (.call f args)
    exact ⟨by simp only [genStmt]; simp [labelPairsS, hp.2.1],
      by simp only [genStmt]; rw [hnl]; simp [labelPairsS, labelsOf]⟩
  | arrayLit elems =>
    have hp := genExpr_preserves g (.arrayLit elems)
    have hnl := genExpr_no_labels g (.arrayLit elems)
    exact ⟨by simp only [genStmt]; simp [labelPairsS, hp.2.1],
      by simp only [genStmt]; rw [hnl]; simp [labelPairsS, labelsOf]⟩
  | arrayRepeat v c =>
    have hp := genExpr_preserves g (.arrayRepeat v c)
    have hnl := genExpr_no_labels g (.arrayRepeat v c)
    exact ⟨by simp only [genStmt]; simp [labelPairsS, hp.2.1],
      by simp only [genStmt]; rw [hnl]; simp [labelPairsS, labelsOf]⟩
  | arrayIndex a i =>
    have hp := genExpr_preserves g (.arrayIndex a i)
    have hnl := genExpr_no_labels g (.arrayIndex a i)
    exact ⟨by simp only [genStmt]; simp [labelPairsS, hp.2.1],
      by simp only [genStmt]; rw [hnl]; simp [labelPairsS, labelsOf]⟩

theorem genStmts_labels (l : AstList) (g : CG) :
    (genStmts g l).1.labelCounter = g.labelCounter + 2 * labelPairs l ∧
    ((labelsOf (genStmts g l).2 : Multiset String)) =
      (((List.range' g.labelCounter (2 * labelPairs l)).map mkLabel : List String) :
        Multiset String) := by
  cases l with
  | nilA =>
    exact ⟨by simp [genStmts, labelPairs], by simp [genStmts, labelPairs, labelsOf]⟩
  | consA n rest =>
    cases hn : genStmt g n with
    | mk g1 a =>
      have ih1 := genStmt_labels n g
      rw [hn] at ih1
      simp only [Prod.fst, Prod.snd] at ih1
      cases hr : genStmts g1 rest with
      | mk g2 b =>
        have ih2 := genStmts_labels rest g1
        rw [hr] at ih2
        simp only [Prod.fst, Prod.snd] at ih2
        rw [ih1.1] at ih2
        constructor
        · simp only [genStmts, hn, hr, Prod.fst]
          simp [labelPairs]
          omega
        · have hsplit : 2 * labelPairs (.consA n rest) =
              2 * labelPairsS n + 2 * labelPairs rest := by
            simp [labelPairs]; omega
          simp only [genStmts, hn, hr, Prod.snd]
          rw [hsplit, range1_split g.labelCounter (2 * labelPairsS n) (2 * labelPairs rest)]
          simp only [labelsOf_append, List.map_append]
          simp only [← Multiset.coe_add]
          rw [ih1.2, ih2.2]

end

mutual

theorem genAsmNode_labels (n : Ast) (g : CG) :
    (genAsmNode g n).1.labelCounter = g.labelCounter + 2 * asmPairs n ∧
    ((labelsOf (genAsmNode g n).2 : Multiset String)) =
      (↑(asmNames n) : Multiset String) +
      (((List.range' g.labelCounter (2 * asmPairs n)).map mkLabel : List String) :
        Multiset String) := by
  cases n with
  | moduleA name items =>
    have ih := genAsmItems_labels items g
    constructor
    · simp only [genAsmNode, asmPairs]
      exact ih.1
    · simp only [genAsmNode, asmPairs, asmNames]
      exact ih.2
  | func name params ret body =>
    cases hb : genStmts (funcStartCG g) body with
    | mk g1 ba =>
      have ihb := genStmts_labels body (funcStartCG g)
      rw [hb] at ihb
      simp only [Prod.fst, Prod.snd] at ihb
      have e1 : (funcStartCG g).labelCounter = g.labelCounter := rfl
      try rw [e1] at ihb
      have e2 : genStmts { g with vars := [], stackOffset := 0, maxOff := 0 } body =
          genStmts (funcStartCG g) body := rfl
      constructor
      · simp only [genAsmNode, asmPairs]
        rw [e2, hb]
        exact ihb.1
      · simp only [genAsmNode, asmPairs, asmNames]
        rw [e2, hb]
        simp only [Prod.snd]
        have hsub : labelsOf (if 0 < ((calcStackSpace body + 32 + 15) / 16) * 16 then [Instr.subRsp (Int.ofNat (((calcStackSpace body + 32 + 15) / 16) * 16))] else []) = [] := by
          split <;> simp [labelsOf]
        have hepi : labelsOf (if anyRet body then [] else [Instr.xorEaxEax, Instr.leaveI, Instr.retI]) = ([] : List String) := by
          split <;> simp [labelsOf]
        simp only [labelsOf_append, hsub, hepi, labelsOf, List.append_eq, List.append_assoc,
          List.nil_append, List.append_nil, List.cons_append]
        simp only [← Multiset.coe_add, ← Multiset.cons_coe, Multiset.coe_singleton,
          ← Multiset.singleton_add, Multiset.coe_nil]
        rw [ihb.2]
        abel
  | varDecl a b c d => exact ⟨by simp [genAsmNode, asmPairs], by simp [genAsmNode, asmPairs, asmNames, labelsOf]⟩
  | constDecl a b c => exact ⟨by simp [genAsmNode, asmPairs], by simp [genAsmNode, asmPairs, asmNames, labelsOf]⟩
  | retS a => exact ⟨by simp [genAsmNode, asmPairs], by simp [genAsmNode, asmPairs, asmNames, labelsOf]⟩
  | assign a b => exact ⟨by simp [genAsmNode, asmPairs], by simp [genAsmNode, asmPairs, asmNames, labelsOf]⟩
  | ifS a b c => exact ⟨by simp [genAsmNode, asmPairs], by simp [genAsmNode, asmPairs, asmNames, labelsOf]⟩
  | whileS a b => exact ⟨by simp [genAsmNode, asmPairs], by simp [genAsmNode, asmPairs, asmNames, labelsOf]⟩
  | forS a b c d e => exact ⟨by simp [genAsmNode, asmPairs], by simp [genAsmNode, asmPairs, asmNames, labelsOf]⟩
  | loopS a => exact ⟨by simp [genAsmNode, asmPairs], by simp [genAsmNode, asmPairs, asmNames, labelsOf]⟩
  | breakS => exact ⟨by simp [genAsmNode, asmPairs], by simp [genAsmNode, asmPairs, asmNames, labelsOf]⟩
  | continueS => exact ⟨by simp [genAsmNode, asmPairs], by simp [genAsmNode, asmPairs, asmNames, labelsOf]⟩
  | binaryOp a b c => exact ⟨by simp [genAsmNode, asmPairs], by simp [genAsmNode, asmPairs, asmNames, labelsOf]⟩
  | unaryOp a b => exact ⟨by simp [genAsmNode, asmPairs], by simp [genAsmNode, asmPairs, asmNames, labelsOf]⟩
  | lit a => exact ⟨by simp [genAsmNode, asmPairs], by simp [genAsmNode, asmPairs, asmNames, labelsOf]⟩
  | ident a => exact ⟨by simp [genAsmNode, asmPairs], by simp [genAsmNode, asmPairs, asmNames, labelsOf]⟩
  | call a b => exact ⟨by simp [genAsmNode, asmPairs], by simp [genAsmNode, asmPairs, asmNames, labelsOf]⟩
  | arrayLit a => exact ⟨by simp [genAsmNode, asmPairs], by simp [genAsmNode, asmPairs, asmNames, labelsOf]⟩
  | arrayRepeat a b => exact ⟨by simp [genAsmNode, asmPairs], by simp [genAsmNode, asmPairs, asmNames, labelsOf]⟩
  | arrayIndex a b => exact ⟨by simp [genAsmNode, asmPairs], by simp [genAsmNode, asmPairs, asmNames, labelsOf]⟩

theorem genAsmItems_labels (l : AstList) (g : CG) :
    (genAsmItems g l).1.labelCounter = g.labelCounter + 2 * asmPairsL l ∧
    ((labelsOf (genAsmItems g l).2 : Multiset String)) =
      (↑(asmNamesL l) : Multiset String) +
      (((List.range' g.labelCounter (2 * asmPairsL l)).map mkLabel : List String) :
        Multiset String) := by
  cases l with
  | nilA =>
    exact ⟨by simp [genAsmItems, asmPairsL],
      by simp [genAsmItems, asmPairsL, asmNamesL, labelsOf]⟩
  | consA n rest =>
    cases hn : genAsmNode g n with
    | mk g1 a =>
      have ih1 := genAsmNode_labels n g
      rw [hn] at ih1
      simp only [Prod.fst, Prod.snd] at ih1
      cases hr : genAsmItems g1 rest with
      | mk g2 b =>
        have ih2 := genAsmItems_labels rest g1
        rw [hr] at ih2
        simp only [Prod.fst, Prod.snd] at ih2
        rw [ih1.1] at ih2
        constructor
        · simp only [genAsmItems, hn, hr, Prod.fst]
          simp [asmPairsL]
          omega
        · have hsplit : 2 * asmPairsL (.consA n rest) =
              2 * asmPairs n + 2 * asmPairsL rest := by
            simp [asmPairsL]; omega
          simp only [genAsmItems, hn, hr, Prod.snd]
          rw [hsplit, range1_split g.labelCounter (2 * asmPairs n) (2 * asmPairsL rest)]
          simp only [labelsOf_append, asmNamesL, List.map_append]
          simp only [← Multiset.coe_add]
          rw [ih1.2, ih2.2]
          abel

end

theorem main_ne_mkLabel (k : Nat) : "main" ≠ mkLabel k := by
  intro h
  have h1 : ("main" : String).data.head? = some 'm' := rfl
  have h2 : (mkLabel k).data.head? = some 'L' := by
    show (("L" ++ Nat.repr k) : String).data.head? = some 'L'
    rw [String.data_append]
    rfl
  rw [h] at h1
  exact absurd (h2.symm.trans h1) (by decide)

/-- **C6** (counterexample): semantic analysis accepts programs on which
the generated assembly does not contain each function-name label exactly
once: duplicate function names are accepted and produce the same label
twice, and a function named `L0` collides with the first generated
control-flow label. -/
theorem duplicate_labels_counterexample :
    analyzeOk astDupFns = true ∧
    (labelsOf (genAsmNode initCG astDupFns).2).count "f" = 2 ∧
    analyzeOk astL0Fn = true ∧
    (labelsOf (genAsmNode initCG astL0Fn).2).count "L0" = 2 := by
  refine ⟨by decide, by decide, by decide, by decide⟩

/-- **C6** (amended): for a semantically accepted module whose function
names are pairwise distinct and none of which has the shape of a
generated label `L<n>`, the emitted label definitions are pairwise
distinct: every function name appears as a label exactly once and every
allocated control-flow label (both members of each if/while/for/loop
pair) appears as a label definition exactly once. -/
theorem function_and_control_labels_unique (name : String) (items : AstList)
    (ha : analyzeOk (.moduleA name items) = true)
    (hnodup : (asmNamesL items).Nodup)
    (hfresh : ∀ nm ∈ asmNamesL items, ∀ k : Nat, nm ≠ mkLabel k) :
    (labelsOf (genAsmNode initCG (.moduleA name items)).2).Nodup ∧
    (∀ nm ∈ asmNamesL items,
      (labelsOf (genAsmNode initCG (.moduleA name items)).2).count nm = 1) ∧
    (∀ k, k < (genAsmNode initCG (.moduleA name items)).1.labelCounter →
      (labelsOf (genAsmNode initCG (.moduleA name items)).2).count (mkLabel k) = 1) := by
  obtain ⟨hlc, hml⟩ := genAsmNode_labels (.moduleA name items) initCG
  have h1 : asmNames (.moduleA name items) = asmNamesL items := rfl
  have h2 : asmPairs (.moduleA name items) = asmPairsL items := rfl
  have h3 : initCG.labelCounter = 0 := rfl
  rw [h1, h2, h3] at hml
  rw [h2, h3] at hlc
  have hperm : (labelsOf (genAsmNode initCG (.moduleA name items)).2).Perm
      (asmNamesL items ++ (List.range' 0 (2 * asmPairsL items)).map mkLabel) := by
    rw [← Multiset.coe_eq_coe]
    simp only [← Multiset.coe_add, ← Multiset.cons_coe, Multiset.coe_singleton,
      ← Multiset.singleton_add, Multiset.coe_nil]
    exact hml
  have hndmap : ((List.range' 0 (2 * asmPairsL items)).map mkLabel).Nodup := by
    refine List.Nodup.map ?_ ?_
    · intro a b hab
      exact mkLabel_injective a b hab
    · exact List.nodup_range' _ _
  have hdisj : ∀ a ∈ asmNamesL items,
      a ∉ (List.range' 0 (2 * asmPairsL items)).map mkLabel := by
    intro a ha2 hmem
    obtain ⟨k, -, hk⟩ := List.mem_map.mp hmem
    exact hfresh a ha2 k hk.symm
  have hndR : (asmNamesL items ++ (List.range' 0 (2 * asmPairsL items)).map mkLabel).Nodup := by
    refine List.Nodup.append hnodup hndmap ?_
    intro a ha2 hb
    exact hdisj a ha2 hb
  refine ⟨?_, ?_, ?_⟩
  · exact hperm.nodup_iff.mpr hndR
  · intro nm hnm
    rw [hperm.count_eq, List.count_append]
    have hc1 : (asmNamesL items).count nm = 1 := List.count_eq_one_of_mem hnodup hnm
    have hc2 : ((List.range' 0 (2 * asmPairsL items)).map mkLabel).count nm = 0 :=
      List.count_eq_zero_of_not_mem (hdisj nm hnm)
    omega
  · intro k hk
    rw [hlc] at hk
    rw [hperm.count_eq, List.count_append]
    have hc1 : (asmNamesL items).count (mkLabel k) = 0 := by
      refine List.count_eq_zero_of_not_mem ?_
      intro hmem
      exact hfresh (mkLabel k) hmem k rfl
    have hc2 : ((List.range' 0 (2 * asmPairsL items)).map mkLabel).count (mkLabel k) = 1 := by
      rw [List.count_map_of_injective _ mkLabel
        (fun a b hab => mkLabel_injective a b hab) k]
      refine List.count_eq_one_of_mem (List.nodup_range' _ _) ?_
      have : k ∈ List.range' 0 (2 * asmPairsL items) ↔ 0 ≤ k ∧ k < 0 + 2 * asmPairsL items :=
        List.mem_range'_1
      rw [this]
      omega
    omega

theorem function_and_control_labels_unique_witness :
    (labelsOf (genAsmNode initCG astIfTrue).2).Nodup ∧
    (labelsOf (genAsmNode initCG astIfTrue).2).count "main" = 1 ∧
    (labelsOf (genAsmNode initCG astIfTrue).2).count (mkLabel 0) = 1 := by
  have h := function_and_control_labels_unique "main"
    (.consA (.func "main" [] none (.consA (.ifS (.lit (.boolL true)) .nilA .noneL) .nilA)) .nilA)
    (by decide) (by decide)
    (by
      intro nm hnm k
      simp [asmNamesL, asmNames] at hnm
      subst hnm
      exact main_ne_mkLabel k)
  exact ⟨h.1, h.2.1 "main" (by decide), h.2.2 0 (by decide)⟩


end WC
